import Mathlib

/-!
# application-insights-firehose-nozzle: the RTR parser and the dispatch loop

A shallow embedding of `src/ainozzle/ai_nozzle.go`.

* A Go `string` is a sequence of bytes: `GoString := List Nat`, every element a byte value.
* The functions of the Go standard library that the parser calls on strings
  (`strings.Split`, `strings.TrimSpace`, `strings.Contains`, `strconv.Atoi`, `fmt.Errorf`)
  are embedded as functions on byte lists.
* `time.Parse` and `strconv.ParseFloat` are taken as parameters (`StdLib`); `refLib` is an
  instance used to evaluate concrete lines.
* `ParseRtr` returns a three-way `Outcome`: a record, an error, or a run-time abort.
* `routeStep` is one iteration of the loop of `routeEvents` on the value that `select` receives;
  `routeEvents` runs it over the sequence of the values received. Both give the calls made on
  the collaborators (logger, telemetry sink, firehose client) in order, and how they end.
-/

namespace AiNozzle

/-! ## Go strings -/

/-- A Go string: its bytes. -/
abbrev GoString := List Nat

/-- The byte of an ASCII character. -/
def byte (c : Char) : Nat := c.toNat

/-- The bytes of an ASCII string literal of the source. -/
def lit (s : String) : GoString := s.toList.map Char.toNat

/-- The function `strings.Split(s, sep)` for a separator of one byte (every call in the source
passes one): the pieces of `s` between the occurrences of `sep`, one more than their number. -/
def Split : GoString → Nat → List GoString
  | [], _ => [[]]
  | c :: rest, sep =>
    if c = sep then [] :: Split rest sep
    else
      match Split rest sep with
      | [] => [[c]]
      | piece :: pieces => (c :: piece) :: pieces

/-- The function `strings.Contains(s, substr)`: `substr` occurs in `s` as a contiguous block. -/
def Contains : GoString → GoString → Bool
  | [], substr => substr.isEmpty
  | c :: rest, substr => substr.isPrefixOf (c :: rest) || Contains rest substr

/-- The ASCII white space of `unicode.IsSpace`: `\t`, `\n`, `\v`, `\f`, `\r` and the space. -/
def asciiSpace (c : Nat) : Bool :=
  c == 9 || c == 10 || c == 11 || c == 12 || c == 13 || c == 32

/-- The two-byte UTF-8 encodings of white space: U+0085 and U+00A0. -/
def space2 (a b : Nat) : Bool :=
  a == 0xC2 && (b == 0x85 || b == 0xA0)

/-- The three-byte UTF-8 encodings of white space: U+1680, U+2000..U+200A, U+2028, U+2029,
U+202F, U+205F and U+3000. -/
def space3 (a b c : Nat) : Bool :=
  (a == 0xE1 && b == 0x9A && c == 0x80) ||
  (a == 0xE2 && b == 0x80 && ((0x80 ≤ c && c ≤ 0x8A) || c == 0xA8 || c == 0xA9 || c == 0xAF)) ||
  (a == 0xE2 && b == 0x81 && c == 0x9F) ||
  (a == 0xE3 && b == 0x80 && c == 0x80)

/-- Drop the white-space runes at the front of `s` (the left half of `strings.TrimSpace`). -/
def trimLeft : GoString → GoString
  | [] => []
  | [a] => if asciiSpace a then [] else [a]
  | [a, b] =>
    if asciiSpace a then trimLeft [b]
    else if space2 a b then [] else [a, b]
  | a :: b :: c :: rest =>
    if asciiSpace a then trimLeft (b :: c :: rest)
    else if space2 a b then trimLeft (c :: rest)
    else if space3 a b c then trimLeft rest
    else a :: b :: c :: rest

/-- Drop the white-space runes at the front of the reversed string `r`, that is at the end of
the string (the right half of `strings.TrimSpace`, which decodes the last rune). -/
def trimRightRev : GoString → GoString
  | [] => []
  | [c] => if asciiSpace c then [] else [c]
  | [c, b] =>
    if asciiSpace c then trimRightRev [b]
    else if space2 b c then [] else [c, b]
  | c :: b :: a :: rest =>
    if asciiSpace c then trimRightRev (b :: a :: rest)
    else if space2 b c then trimRightRev (a :: rest)
    else if space3 a b c then trimRightRev rest
    else c :: b :: a :: rest

/-- The function `strings.TrimSpace(s)`: `s` without its leading and trailing white space. -/
def TrimSpace (s : GoString) : GoString :=
  (trimRightRev (trimLeft s).reverse).reverse

/-- The value of a string of decimal digits read after `acc`; `none` at a byte that is no
digit. -/
def digitsValue : GoString → Nat → Option Nat
  | [], acc => some acc
  | c :: rest, acc =>
    if 48 ≤ c ∧ c ≤ 57 then digitsValue rest (acc * 10 + (c - 48)) else none

/-- The number of bits of the type `int` of Go, on a 64-bit platform. -/
def intSize : Nat := 64

/-- The optional sign at the front of a number: whether it is `-`, and what follows it. -/
def splitSign : GoString → Bool × GoString
  | 43 :: rest => (false, rest)
  | 45 :: rest => (true, rest)
  | s => (false, s)

/-- The function `strconv.Atoi(s)`: an optional sign and at least one decimal digit, the value
within the range of `int`; `none` stands for a non-nil error. -/
def Atoi (s : GoString) : Option Int :=
  let signed := splitSign s
  match signed.2 with
  | [] => none
  | digits =>
    match digitsValue digits 0 with
    | none => none
    | some n =>
      let v : Int := if signed.1 then -(n : Int) else (n : Int)
      if -(2 : Int) ^ (intSize - 1) ≤ v ∧ v ≤ (2 : Int) ^ (intSize - 1) - 1 then some v else none

/-- The verb `%s` of `fmt` on a `[]string`: the elements between brackets, a space between. -/
def fmtStrings (s : List GoString) : GoString :=
  lit "[" ++ (lit " ").intercalate s ++ lit "]"

/-! ## The standard library taken as a parameter -/

/-- A value of `time.Time`: the civil date and time read from the text, the nanoseconds, and the
offset of its zone in seconds east of UTC. -/
structure Time where
  year : Int
  month : Nat
  day : Nat
  hour : Nat
  minute : Nat
  second : Nat
  nanosecond : Nat
  zoneOffset : Int
  deriving DecidableEq, Repr

/-- The zero value `time.Time{}`: January 1 of year 1, 00:00:00 UTC. -/
def Time.zero : Time :=
  { year := 1, month := 1, day := 1, hour := 0, minute := 0, second := 0, nanosecond := 0,
    zoneOffset := 0 }

/-- A value of `float64`: its 64 bits (IEEE 754 binary64). -/
structure Float64 where
  bits : Nat
  deriving DecidableEq, Repr

deriving instance DecidableEq for Except

/-- The two parsers of the Go standard library that `ParseRtr` calls and the floating-point
conversion it performs. An error is represented by its text (`err.Error()`). -/
structure StdLib where
  /-- The call `time.Parse("2006-01-02T15:04:05.999-0700", value)`. -/
  timeParse : GoString → Except GoString Time
  /-- The call `strconv.ParseFloat(s, 64)`. -/
  parseFloat : GoString → Except GoString Float64
  /-- The conversion `time.Duration(f*1000000000) * time.Nanosecond`, in nanoseconds. -/
  toDuration : Float64 → Int

/-! ## The RTR parser -/

/-- The struct `RtrMessage`. -/
structure RtrMessage where
  host : GoString
  timestamp : Time
  method : GoString
  path : GoString
  protocol : GoString
  statusCode : GoString
  requestBytesReceived : GoString
  bodyBytesSent : GoString
  referer : GoString
  userAgent : GoString
  remoteAddr : GoString
  destIpAndPort : GoString
  xForwardedFor : GoString
  xForwardedProto : GoString
  vcapRequestId : GoString
  responseTime : Int
  appId : GoString
  appIndex : GoString
  isSuccess : Bool
  deriving DecidableEq, Repr

/-- The zero value of `RtrMessage`, the initial value of the named result `msg`. -/
def RtrMessage.zero : RtrMessage :=
  { host := [], timestamp := Time.zero, method := [], path := [], protocol := [],
    statusCode := [], requestBytesReceived := [], bodyBytesSent := [], referer := [],
    userAgent := [], remoteAddr := [], destIpAndPort := [], xForwardedFor := [],
    xForwardedProto := [], vcapRequestId := [], responseTime := 0, appId := [], appIndex := [],
    isSuccess := false }

/-- What a call of `ParseRtr` does: it returns `(msg, nil)`, it returns `(msg, err)` with a
non-nil error of the given text, or it aborts with a run-time panic. -/
inductive Outcome where
  | record (msg : RtrMessage)
  | failure (msg : RtrMessage) (err : GoString)
  | abort
  deriving DecidableEq, Repr

/-- The index expression `xs[i]`, which panics when `i` is out of range. -/
def index (xs : List GoString) (i : Nat) (k : GoString → Outcome) : Outcome :=
  match xs.get? i with
  | some x => k x
  | none => Outcome.abort

/-- The slice expression `s[lo:hi]`, which panics unless `0 ≤ lo ≤ hi ≤ len(s)`. -/
def slice (s : GoString) (lo hi : Int) (k : GoString → Outcome) : Outcome :=
  if 0 ≤ lo ∧ lo ≤ hi ∧ hi ≤ (s.length : Int) then k ((s.take hi.toNat).drop lo.toNat)
  else Outcome.abort

/-- The function `ParseRtr` of `ai_nozzle.go`, statement by statement. The named result `msg`
starts as the zero value and is returned as it stands with every error. An index or slice
expression takes what follows it as its continuation; `next` is what follows the `if` of line
233, which has no `else`. -/
def ParseRtr (lib : StdLib) (log : GoString) : Outcome :=
  let msg := RtrMessage.zero
  let strs := Split log (byte '"')
  if strs.length < 20 then
    Outcome.failure msg (lit "Error parsing RTR message: " ++ log)
  else
    let strs := strs.map TrimSpace
    -- parse host and timestamp
    index strs 0 fun strs0 =>
    let s := Split strs0 (byte ' ')
    index s 0 fun s0 =>
    let msg := { msg with host := s0 }
    if s.length < 3 then
      Outcome.failure msg (lit "Error parsing timestamp: " ++ fmtStrings s)
    else
    index s 2 fun s2 =>
    slice s2 1 ((s2.length : Int) - 1) fun timeStr =>
    match lib.timeParse timeStr with
    | Except.error e => Outcome.failure msg (lit "Error parsing timestamp: " ++ e)
    | Except.ok t =>
    let msg := { msg with timestamp := t }
    -- parse method, path and protocol
    index strs 1 fun strs1 =>
    let s := Split strs1 (byte ' ')
    index s 0 fun s0 =>
    let msg := { msg with method := s0 }
    if s.length < 3 then
      Outcome.failure msg (lit "Error parsing path and protocol: " ++ fmtStrings s)
    else
    index s 1 fun s1 =>
    index s 2 fun s2 =>
    let msg := { msg with path := s1, protocol := s2 }
    -- parse status code, request bytes received, and body bytes sent
    index strs 2 fun strs2 =>
    let s := Split strs2 (byte ' ')
    index s 0 fun s0 =>
    let msg := { msg with statusCode := s0 }
    match Atoi s0 with
    | none => Outcome.failure msg (lit "Error parsing success: " ++ fmtStrings s)
    | some n =>
    let msg := { msg with isSuccess := decide (n < 400) }
    if s.length < 3 then
      Outcome.failure msg (lit "Error parsing bytes received and sent: " ++ fmtStrings s)
    else
    index s 1 fun s1 =>
    index s 2 fun s2 =>
    let msg := { msg with requestBytesReceived := s1, bodyBytesSent := s2 }
    -- parse referer, user agent, remote addr, dest ip and port
    index strs 3 fun strs3 =>
    index strs 5 fun strs5 =>
    index strs 7 fun strs7 =>
    index strs 9 fun strs9 =>
    let msg := { msg with referer := strs3, userAgent := strs5, remoteAddr := strs7,
                          destIpAndPort := strs9 }
    -- parse x_forwarded_for
    index strs 10 fun strs10 =>
    if Contains strs10 (lit "x_forwarded_for") = false then
      Outcome.failure msg (lit "Error parsing x_forwarded_for: " ++ strs10)
    else
    index strs 11 fun strs11 =>
    index (Split strs11 (byte ',')) 0 fun xff =>
    let msg := { msg with xForwardedFor := xff }
    -- parse x_forwarded_proto
    index strs 13 fun strs13 =>
    if strs13 ≠ lit "http" ∧ strs13 ≠ lit "https" then
      Outcome.failure msg (lit "Error parsing x_forwarded_proto: " ++ strs13)
    else
    let msg := { msg with xForwardedProto :=
                   if strs13 = lit "http" then lit "http" else lit "https" }
    -- parse vcap_request_id
    index strs 14 fun strs14 =>
    if Contains strs14 (lit "vcap_request_id") = false then
      Outcome.failure msg (lit "Error parsing vcap_request_id: " ++ strs14)
    else
    index strs 15 fun strs15 =>
    let msg := { msg with vcapRequestId := strs15 }
    -- parse response time and app id
    index strs 16 fun strs16 =>
    let s := Split strs16 (byte ' ')
    index s 0 fun s0 =>
    (fun (next : RtrMessage → Outcome) =>
      if Contains s0 (lit "response_time:") then
        index (Split s0 (byte ':')) 1 fun timeStr =>
        match lib.parseFloat timeStr with
        | Except.error e => Outcome.failure msg (lit "Error parsing response time: " ++ e)
        | Except.ok responseTime =>
          next { msg with responseTime := lib.toDuration responseTime }
      else
        next msg) fun msg =>
    if (decide (1 < s.length) && Contains (s.getD 1 []) (lit "app_id")) = false then
      Outcome.failure msg (lit "Error parsing app id: " ++ strs16)
    else
    index strs 17 fun strs17 =>
    let msg := { msg with appId := strs17 }
    -- parse app index
    index strs 18 fun strs18 =>
    if Contains strs18 (lit "app_index") = false then
      Outcome.failure msg (lit "Error parsing app index: " ++ strs18)
    else
    index strs 19 fun strs19 =>
    Outcome.record { msg with appIndex := strs19 }

/-! ### The blocks of `ParseRtr`

Each definition below is `ParseRtr` from one of its comments to its end, as a function of the
trimmed segments `strs` and of the message built so far; `ParseRtr_blocks` states that
`ParseRtr` is their chain. They serve the proofs. -/

/-- From `// parse app index` (line 247) to the end. -/
def parseAppIndex (strs : List GoString) (msg : RtrMessage) : Outcome :=
  index strs 18 fun strs18 =>
  if Contains strs18 (lit "app_index") = false then
    Outcome.failure msg (lit "Error parsing app index: " ++ strs18)
  else
  index strs 19 fun strs19 =>
  Outcome.record { msg with appIndex := strs19 }

/-- From the check of `app_id` (line 241) to the end; `s` is segment 16 split on spaces. -/
def parseAppId (strs : List GoString) (strs16 : GoString) (s : List GoString)
    (msg : RtrMessage) : Outcome :=
  if (decide (1 < s.length) && Contains (s.getD 1 []) (lit "app_id")) = false then
    Outcome.failure msg (lit "Error parsing app id: " ++ strs16)
  else
  index strs 17 fun strs17 =>
  let msg := { msg with appId := strs17 }
  parseAppIndex strs msg

/-- From `// parse response time and app id` (line 231) to the end. -/
def parseResponseTime (lib : StdLib) (strs : List GoString) (msg : RtrMessage) : Outcome :=
  index strs 16 fun strs16 =>
  let s := Split strs16 (byte ' ')
  index s 0 fun s0 =>
  if Contains s0 (lit "response_time:") then
    index (Split s0 (byte ':')) 1 fun timeStr =>
    match lib.parseFloat timeStr with
    | Except.error e => Outcome.failure msg (lit "Error parsing response time: " ++ e)
    | Except.ok responseTime =>
      parseAppId strs strs16 s { msg with responseTime := lib.toDuration responseTime }
  else
    parseAppId strs strs16 s msg

/-- From `// parse vcap_request_id` (line 224) to the end. -/
def parseRequestId (lib : StdLib) (strs : List GoString) (msg : RtrMessage) : Outcome :=
  index strs 14 fun strs14 =>
  if Contains strs14 (lit "vcap_request_id") = false then
    Outcome.failure msg (lit "Error parsing vcap_request_id: " ++ strs14)
  else
  index strs 15 fun strs15 =>
  let msg := { msg with vcapRequestId := strs15 }
  parseResponseTime lib strs msg

/-- From `// parse x_forwarded_proto` (line 215) to the end. -/
def parseForwardedProto (lib : StdLib) (strs : List GoString) (msg : RtrMessage) : Outcome :=
  index strs 13 fun strs13 =>
  if strs13 ≠ lit "http" ∧ strs13 ≠ lit "https" then
    Outcome.failure msg (lit "Error parsing x_forwarded_proto: " ++ strs13)
  else
  let msg := { msg with xForwardedProto :=
                 if strs13 = lit "http" then lit "http" else lit "https" }
  parseRequestId lib strs msg

/-- From `// parse x_forwarded_for` (line 208) to the end. -/
def parseForwardedFor (lib : StdLib) (strs : List GoString) (msg : RtrMessage) : Outcome :=
  index strs 10 fun strs10 =>
  if Contains strs10 (lit "x_forwarded_for") = false then
    Outcome.failure msg (lit "Error parsing x_forwarded_for: " ++ strs10)
  else
  index strs 11 fun strs11 =>
  index (Split strs11 (byte ',')) 0 fun xff =>
  let msg := { msg with xForwardedFor := xff }
  parseForwardedProto lib strs msg

/-- From `// parse referer` (line 196) to the end. -/
def parseReferer (lib : StdLib) (strs : List GoString) (msg : RtrMessage) : Outcome :=
  index strs 3 fun strs3 =>
  index strs 5 fun strs5 =>
  index strs 7 fun strs7 =>
  index strs 9 fun strs9 =>
  let msg := { msg with referer := strs3, userAgent := strs5, remoteAddr := strs7,
                        destIpAndPort := strs9 }
  parseForwardedFor lib strs msg

/-- From `// parse status code, request bytes received, and body bytes sent` (line 182) to the
end. -/
def parseStatus (lib : StdLib) (strs : List GoString) (msg : RtrMessage) : Outcome :=
  index strs 2 fun strs2 =>
  let s := Split strs2 (byte ' ')
  index s 0 fun s0 =>
  let msg := { msg with statusCode := s0 }
  match Atoi s0 with
  | none => Outcome.failure msg (lit "Error parsing success: " ++ fmtStrings s)
  | some n =>
  let msg := { msg with isSuccess := decide (n < 400) }
  if s.length < 3 then
    Outcome.failure msg (lit "Error parsing bytes received and sent: " ++ fmtStrings s)
  else
  index s 1 fun s1 =>
  index s 2 fun s2 =>
  let msg := { msg with requestBytesReceived := s1, bodyBytesSent := s2 }
  parseReferer lib strs msg

/-- From `// parse method, path and protocol` (line 173) to the end. -/
def parseMethod (lib : StdLib) (strs : List GoString) (msg : RtrMessage) : Outcome :=
  index strs 1 fun strs1 =>
  let s := Split strs1 (byte ' ')
  index s 0 fun s0 =>
  let msg := { msg with method := s0 }
  if s.length < 3 then
    Outcome.failure msg (lit "Error parsing path and protocol: " ++ fmtStrings s)
  else
  index s 1 fun s1 =>
  index s 2 fun s2 =>
  let msg := { msg with path := s1, protocol := s2 }
  parseStatus lib strs msg

/-- From `// parse host and timestamp` (line 162) to the end. -/
def parseHost (lib : StdLib) (strs : List GoString) (msg : RtrMessage) : Outcome :=
  index strs 0 fun strs0 =>
  let s := Split strs0 (byte ' ')
  index s 0 fun s0 =>
  let msg := { msg with host := s0 }
  if s.length < 3 then
    Outcome.failure msg (lit "Error parsing timestamp: " ++ fmtStrings s)
  else
  index s 2 fun s2 =>
  slice s2 1 ((s2.length : Int) - 1) fun timeStr =>
  match lib.timeParse timeStr with
  | Except.error e => Outcome.failure msg (lit "Error parsing timestamp: " ++ e)
  | Except.ok t =>
  let msg := { msg with timestamp := t }
  parseMethod lib strs msg

/-- The trimmed pieces of the line between its quotes: `strs` after the loop over it. -/
def segments (log : GoString) : List GoString :=
  (Split log (byte '"')).map TrimSpace

/-- Segment `i` of the line, trimmed: `strs[i]`, empty when the line has no such segment. -/
def segment (log : GoString) (i : Nat) : GoString :=
  (segments log).getD i []

/-- The tokens of a segment: its pieces between single spaces. -/
def tokens (s : GoString) : List GoString :=
  Split s (byte ' ')

/-- Token `i` of a segment, empty when the segment has no such token. -/
def token (s : GoString) (i : Nat) : GoString :=
  (tokens s).getD i []

/-- The string without its first and its last byte: `s[1 : len(s)-1]` when `2 ≤ len(s)`. -/
def inner (s : GoString) : GoString :=
  (s.take (s.length - 1)).drop 1

/-! ## A reference instance of the standard library

`refLib` follows the algorithm of `time.Parse` (as of Go 1.21) for the one layout of the source,
and `strconv.ParseFloat` on plain decimals (`123`, `0.001500`, `-2.5`; it rejects the other
forms), with round-to-nearest-even binary64 arithmetic. The text of its errors is abbreviated.
The general theorems hold for every `StdLib`; `refLib` serves to evaluate `ParseRtr` on concrete
lines. -/

/-- A decimal digit. -/
def isDigit (c : Nat) : Bool := decide (48 ≤ c) && decide (c ≤ 57)

/-- The helper `getnum(s, fixed)` of package `time`: one or two leading digits, exactly two when
`fixed`. -/
def getnum (fixed : Bool) : GoString → Option (Nat × GoString)
  | [] => none
  | [a] => if isDigit a && !fixed then some (a - 48, []) else none
  | a :: b :: rest =>
    if isDigit a then
      if isDigit b then some ((a - 48) * 10 + (b - 48), rest)
      else if fixed then none else some (a - 48, b :: rest)
    else none

/-- A literal byte of the layout at the head of the value. -/
def expectByte (c : Nat) : GoString → Option GoString
  | [] => none
  | a :: rest => if a = c then some rest else none

/-- The number of days of a month of the Gregorian calendar. -/
def daysIn (month : Nat) (year : Int) : Nat :=
  if month = 2 then
    if year % 4 = 0 ∧ (year % 100 ≠ 0 ∨ year % 400 = 0) then 29 else 28
  else if month = 4 ∨ month = 6 ∨ month = 9 ∨ month = 11 then 30
  else 31

/-- The nanoseconds of a fraction given by its digits: the first nine, padded with zeros. -/
def fracNanos (digits : GoString) : Nat :=
  ((digits.take 9 ++ List.replicate (9 - digits.length) 48).foldl
    (fun acc c => acc * 10 + (c - 48)) 0)

/-- The date `2006-01-02` at the head of the value: year, month, day and the rest. -/
def refDate (value : GoString) : Option (Int × Nat × Nat × GoString) :=
  let yearText := value.take 4
  if yearText.length < 4 ∨ yearText.all isDigit = false then none
  else
    (digitsValue yearText 0).bind fun year =>
    (expectByte (byte '-') (value.drop 4)).bind fun value =>
    (getnum true value).bind fun month =>
    if month.1 = 0 ∨ 12 < month.1 then none
    else
      (expectByte (byte '-') month.2).bind fun value =>
      (getnum true value).bind fun day =>
      some ((year : Int), month.1, day.1, day.2)

/-- The clock `15:04:05` at the head of the value: hour, minute, second and the rest. -/
def refClock (value : GoString) : Option (Nat × Nat × Nat × GoString) :=
  (getnum false value).bind fun hour =>
  if 24 ≤ hour.1 then none
  else
    (expectByte (byte ':') hour.2).bind fun value =>
    (getnum true value).bind fun minute =>
    if 60 ≤ minute.1 then none
    else
      (expectByte (byte ':') minute.2).bind fun value =>
      (getnum true value).bind fun second =>
      if 60 ≤ second.1 then none
      else some (hour.1, minute.1, second.1, second.2)

/-- The optional fraction `.999` at the head of the value: a point or comma and all the digits
that follow; its nanoseconds and the rest. -/
def refFraction (value : GoString) : Nat × GoString :=
  match value with
  | dot :: d :: rest =>
    if (dot = byte '.' ∨ dot = byte ',') ∧ isDigit d = true then
      (fracNanos ((d :: rest).takeWhile isDigit), (d :: rest).dropWhile isDigit)
    else (0, value)
  | _ => (0, value)

/-- The zone `-0700`, which has to be all that is left of the value: its offset in seconds. -/
def refZone (value : GoString) : Option Int :=
  match value with
  | [sign, h1, h2, m1, m2] =>
    (getnum true [h1, h2]).bind fun zh =>
    (getnum true [m1, m2]).bind fun zm =>
    let offset : Int := (((zh.1 * 60 + zm.1) * 60 : Nat) : Int)
    if 24 < zh.1 ∨ 60 < zm.1 then none
    else if sign = byte '+' then some offset
    else if sign = byte '-' then some (-offset)
    else none
  | _ => none

/-- The value read under the layout `2006-01-02T15:04:05.999-0700`; `none` when it does not
match or the day is not one of the month. -/
def refTime (value : GoString) : Option Time :=
  (refDate value).bind fun date =>
  (expectByte (byte 'T') date.2.2.2).bind fun value =>
  (refClock value).bind fun clock =>
  let fraction := refFraction clock.2.2.2
  (refZone fraction.2).bind fun offset =>
  if date.2.2.1 < 1 ∨ daysIn date.2.1 date.1 < date.2.2.1 then none
  else
    some { year := date.1, month := date.2.1, day := date.2.2.1, hour := clock.1,
           minute := clock.2.1, second := clock.2.2.1, nanosecond := fraction.1,
           zoneOffset := offset }

/-- The number of binary digits of `n`, counted with `fuel` steps. -/
def bitLenAux : Nat → Nat → Nat
  | 0, _ => 0
  | fuel + 1, n => if n = 0 then 0 else bitLenAux fuel (n / 2) + 1

/-- The number of binary digits of `n`. -/
def bitLen (n : Nat) : Nat := bitLenAux n n

/-- The integer nearest to `num / den`, a tie going to the even one. -/
def roundHalfEven (num den : Nat) : Nat :=
  let q := num / den
  let r := num % den
  if 2 * r < den then q
  else if den < 2 * r then q + 1
  else if q % 2 = 0 then q else q + 1

/-- The binary64 value nearest to `num / den` (both positive) as `(m, p)`, standing for
`m * 2 ^ p` with `m < 2 ^ 53` and `-1074 ≤ p`. -/
def nearest64 (num den : Nat) : Nat × Int :=
  let p0 : Int := (bitLen num : Int) - (bitLen den : Int) - 53
  let p1 : Int :=
    if 2 ^ 53 * (den * 2 ^ p0.toNat) ≤ num * 2 ^ (-p0).toNat then p0 + 1 else p0
  let p : Int := max p1 (-1074)
  let m := roundHalfEven (num * 2 ^ (-p).toNat) (den * 2 ^ p.toNat)
  if m = 2 ^ 53 then (2 ^ 52, p + 1) else (m, p)

/-- The bits of the binary64 value `± m * 2 ^ p`; `none` when it exceeds the largest finite
value. -/
def encode64 (negative : Bool) (m : Nat) (p : Int) : Option Float64 :=
  let sign := if negative then 2 ^ 63 else 0
  if m < 2 ^ 52 then some ⟨sign + m⟩
  else if 2047 ≤ p + 1075 then none
  else some ⟨sign + (p + 1075).toNat * 2 ^ 52 + (m - 2 ^ 52)⟩

/-- The binary64 value of a plain decimal: an optional sign, digits, and optionally a point and
digits, with a digit somewhere; `none` on other texts and on overflow. -/
def refFloat (s : GoString) : Option Float64 :=
  let signed := splitSign s
  let whole := signed.2.takeWhile isDigit
  let rest := signed.2.dropWhile isDigit
  let fraction : Option GoString :=
    match rest with
    | [] => some []
    | dot :: digits => if dot = byte '.' ∧ digits.all isDigit then some digits else none
  match fraction with
  | none => none
  | some fraction =>
    if whole.length + fraction.length = 0 then none
    else
      let num := (whole ++ fraction).foldl (fun acc c => acc * 10 + (c - 48)) 0
      if num = 0 then some ⟨if signed.1 then 2 ^ 63 else 0⟩
      else
        let r := nearest64 num (10 ^ fraction.length)
        encode64 signed.1 r.1 r.2

/-- The conversion `time.Duration(f*1000000000)`: the binary64 product, truncated toward zero.
For a product that is not a number or is outside the range of `int64` the Go specification
leaves the value to the implementation; the one of amd64 is taken, `-2^63`. -/
def refDuration (f : Float64) : Int :=
  let negative : Bool := decide (2 ^ 63 ≤ f.bits)
  let ex : Nat := f.bits / 2 ^ 52 % 2048
  let frac : Nat := f.bits % 2 ^ 52
  if ex = 2047 then -(2 : Int) ^ 63
  else
    let m : Nat := if ex = 0 then frac else 2 ^ 52 + frac
    let p : Int := if ex = 0 then -1074 else (ex : Int) - 1075
    if m = 0 then 0
    else
      let r := nearest64 (m * 1000000000 * 2 ^ p.toNat) (2 ^ (-p).toNat)
      match encode64 negative r.1 r.2 with
      | none => -(2 : Int) ^ 63
      | some _ =>
        let magnitude : Nat := r.1 * 2 ^ r.2.toNat / 2 ^ (-r.2).toNat
        let v : Int := if negative then -(magnitude : Int) else (magnitude : Int)
        if -(2 : Int) ^ 63 ≤ v ∧ v ≤ (2 : Int) ^ 63 - 1 then v else -(2 : Int) ^ 63

/-- The reference instance of the standard library. -/
def refLib : StdLib where
  timeParse value :=
    match refTime value with
    | some t => Except.ok t
    | none => Except.error (lit "parsing time \"" ++ value ++ lit "\"")
  parseFloat s :=
    match refFloat s with
    | some f => Except.ok f
    | none => Except.error (lit "strconv.ParseFloat: parsing \"" ++ s ++ lit "\"")
  toDuration := refDuration

/-! ## The dispatch loop -/

/-- The fields of `messages.LogMessage` that `routeEvents` reads. -/
structure LogMessage where
  Message : GoString
  MessageType : GoString
  SourceType : GoString
  SourceInstance : GoString
  AppID : GoString
  ApplicationName : GoString
  deriving DecidableEq, Repr

/-- Modelled from the spec: the type `events.Envelope` and the constructor
`messages.NewLogMessage` are not among the sources. Following §3, an inbound record is a tagged
union of which only the log-line variant carries a payload, the fields of the `LogMessage` that
`NewLogMessage` builds from the envelope and the metadata resolver. -/
inductive InboundRecord where
  | logLine (message : LogMessage)
  | other
  deriving DecidableEq, Repr

/-- The severity levels of `appinsights`. -/
inductive SeverityLevel where
  | Verbose
  | Information
  | Warning
  | Error
  | Critical
  deriving DecidableEq, Repr

/-- A property bag: the keys that were set, each with its value, in the order of their first
`SetProperty`. -/
abbrev Properties := List (GoString × GoString)

/-- The method `SetProperty(key, value)` of a telemetry item. -/
def SetProperty (props : Properties) (key value : GoString) : Properties :=
  if props.any (fun p => p.1 = key) then
    props.map fun p => if p.1 = key then (key, value) else p
  else props ++ [(key, value)]

/-- A request telemetry item: the arguments of `NewRequestTelemetry`, the fields of its context
that `routeEvents` sets, and its property bag. -/
structure RequestTelemetry where
  name : GoString
  method : GoString
  url : GoString
  timestamp : Time
  duration : Int
  responseCode : GoString
  success : Bool
  userAgent : GoString
  locationIp : GoString
  operationName : GoString
  properties : Properties
  deriving DecidableEq, Repr

/-- The constructor `appinsights.NewRequestTelemetry`. -/
def NewRequestTelemetry (name method url : GoString) (timestamp : Time) (duration : Int)
    (responseCode : GoString) (success : Bool) : RequestTelemetry :=
  { name := name, method := method, url := url, timestamp := timestamp, duration := duration,
    responseCode := responseCode, success := success, userAgent := [], locationIp := [],
    operationName := [], properties := [] }

/-- A trace telemetry item: the arguments of `NewTraceTelemetry` and its property bag. -/
structure TraceTelemetry where
  message : GoString
  severity : SeverityLevel
  properties : Properties
  deriving DecidableEq, Repr

/-- The constructor `appinsights.NewTraceTelemetry`. -/
def NewTraceTelemetry (message : GoString) (severity : SeverityLevel) : TraceTelemetry :=
  { message := message, severity := severity, properties := [] }

/-- What `telemetryClient.Track` accepts. -/
inductive Telemetry where
  | request (telem : RequestTelemetry)
  | trace (telem : TraceTelemetry)
  deriving DecidableEq, Repr

/-- A call that an iteration of the loop makes: on the logger, the firehose client, the
telemetry client, the constructor of the log message (which consults the metadata resolver)
and the parser. -/
inductive Call where
  | logInfo (action : GoString) (data : List (GoString × GoString))
  | logError (action : GoString) (err : Option GoString)
  | closeConsumer
  | newLogMessage
  | parseRtr (log : GoString)
  | track (telem : Telemetry)
  deriving DecidableEq, Repr

/-- How an iteration of the loop ends: the loop goes on to the next iteration, `routeEvents`
returns an error, the process exits, or the goroutine panics. -/
inductive Control where
  | next
  | returned (err : GoString)
  | exited (code : Int)
  | panicked
  deriving DecidableEq, Repr

/-- The value that the `select` of an iteration receives: a signal (its `String()`), an inbound
record, or an error (its `Error()`). -/
inductive Event where
  | signal (s : GoString)
  | msg (msg : InboundRecord)
  | err (err : GoString)
  deriving DecidableEq, Repr

/-- One iteration of the loop of `routeEvents` on the value received: the calls it makes, in
order, and how it ends. `closeConsumer` is what `firehoseClient.CloseConsumer()` returns, `none`
for a nil error. -/
def routeStep (lib : StdLib) (closeConsumer : Option GoString) : Event → List Call × Control
  | Event.signal s =>
    ([Call.logInfo (lit "exiting") [(lit "signal caught", s)], Call.closeConsumer] ++
      (match closeConsumer with
       | some err => [Call.logError (lit "error closing consumer") (some err)]
       | none => []),
     Control.exited 1)
  | Event.msg (InboundRecord.logLine message) =>
    if Contains message.SourceType (lit "RTR") then
      match ParseRtr lib message.Message with
      | Outcome.record m =>
        let name := m.method ++ lit " " ++ m.path
        let url := m.xForwardedProto ++ lit "://" ++ m.host ++ m.path
        let telem :=
          NewRequestTelemetry name m.method url m.timestamp m.responseTime m.statusCode
            m.isSuccess
        let telem := { telem with userAgent := m.userAgent }
        let telem := { telem with locationIp := m.xForwardedFor }
        let telem := { telem with operationName := name }
        let props := telem.properties
        let props := SetProperty props (lit "request_bytes_received") m.requestBytesReceived
        let props := SetProperty props (lit "body_bytes_sent") m.bodyBytesSent
        let props := SetProperty props (lit "referer") m.referer
        let props := SetProperty props (lit "remote_addr") m.remoteAddr
        let props := SetProperty props (lit "dest_ip_port") m.destIpAndPort
        let props := SetProperty props (lit "vcap_request_id") m.vcapRequestId
        let props := SetProperty props (lit "app_id") m.appId
        let props := SetProperty props (lit "app_index") m.appIndex
        let props := SetProperty props (lit "app_name") message.ApplicationName
        let telem := { telem with properties := props }
        ([Call.newLogMessage, Call.parseRtr message.Message,
          Call.track (Telemetry.request telem)], Control.next)
      | Outcome.failure _ err =>
        ([Call.newLogMessage, Call.parseRtr message.Message,
          Call.logError (lit "Error parsing RTR message") (some err)], Control.next)
      | Outcome.abort =>
        ([Call.newLogMessage, Call.parseRtr message.Message], Control.panicked)
    else
      let severity :=
        if message.MessageType = lit "ERR" then SeverityLevel.Error
        else SeverityLevel.Information
      let telem := NewTraceTelemetry message.Message severity
      let props := telem.properties
      let props := SetProperty props (lit "app_id") message.AppID
      let props := SetProperty props (lit "app_name") message.ApplicationName
      let props := SetProperty props (lit "source_type") message.SourceType
      let props := SetProperty props (lit "source_instance") message.SourceInstance
      let telem := { telem with properties := props }
      ([Call.newLogMessage, Call.track (Telemetry.trace telem)], Control.next)
  | Event.msg InboundRecord.other => ([], Control.next)
  | Event.err err =>
    ([Call.logError (lit "Error while reading from the firehose") (some err)] ++
      (if Contains err (lit "close 1008 (policy violation)") then
         [Call.logError
            (lit "Disconnected because nozzle couldn\x27t keep up. Please try scaling up the nozzle.")
            none]
       else []) ++
      [Call.logError (lit "Closing connection with traffic controller") none,
       Call.closeConsumer],
     Control.returned err)

/-- How a run of the loop over a finite sequence of received values ends: as one of its
iterations ended, or waiting in `select` once the sequence is used up. -/
inductive Ending where
  | waiting
  | returned (err : GoString)
  | exited (code : Int)
  | panicked
  deriving DecidableEq, Repr

/-- The method `routeEvents`: the loop over the values that `select` receives one after the
other, as long as the iterations go on to the next; the calls made, in order, and the ending. -/
def routeEvents (lib : StdLib) (closeConsumer : Option GoString) :
    List Event → List Call × Ending
  | [] => ([], Ending.waiting)
  | ev :: rest =>
    match routeStep lib closeConsumer ev with
    | (calls, Control.next) =>
      let run := routeEvents lib closeConsumer rest
      (calls ++ run.1, run.2)
    | (calls, Control.returned err) => (calls, Ending.returned err)
    | (calls, Control.exited code) => (calls, Ending.exited code)
    | (calls, Control.panicked) => (calls, Ending.panicked)

/-- The telemetry items handed to the telemetry sink among a list of calls, in order. -/
def tracked : List Call → List Telemetry
  | [] => []
  | Call.track telem :: rest => telem :: tracked rest
  | _ :: rest => tracked rest

/-! ## The wire format and concrete lines -/

/-- A token of the wire format: not empty, without a space or a quote, and without white space
at either end. -/
def IsToken (s : GoString) : Prop :=
  s ≠ [] ∧ byte ' ' ∉ s ∧ byte '"' ∉ s ∧ TrimSpace s = s

instance (s : GoString) : Decidable (IsToken s) := by
  unfold IsToken
  infer_instance

/-- A quoted field of the wire format: without a quote and without white space at either
end. -/
def IsField (s : GoString) : Prop :=
  byte '"' ∉ s ∧ TrimSpace s = s

instance (s : GoString) : Decidable (IsField s) := by
  unfold IsField
  infer_instance

/-- A field between quotes. -/
def quoted (s : GoString) : GoString :=
  byte '"' :: (s ++ [byte '"'])

/-- An access-log line in the wire format, from the fields of a request:
`host - [ts] "method path protocol" status reqBytes bodyBytes "referer" "ua" "remote" "dest"
x_forwarded_for:"xff" x_forwarded_proto:"proto" vcap_request_id:"reqid" response_time:rt
app_id:"appid" app_index:"idx"`. -/
def rtrLine (host ts method path protocol status reqBytes bodyBytes referer ua remote dest xff
    proto reqid rt appid idx : GoString) : GoString :=
  (host ++ lit " - [" ++ ts ++ lit "] ") ++
    quoted (method ++ lit " " ++ path ++ lit " " ++ protocol) ++
    (lit " " ++ status ++ lit " " ++ reqBytes ++ lit " " ++ bodyBytes ++ lit " ") ++
    quoted referer ++ lit " " ++ quoted ua ++ lit " " ++ quoted remote ++ lit " " ++
    quoted dest ++ lit " x_forwarded_for:" ++ quoted xff ++ lit " x_forwarded_proto:" ++
    quoted proto ++ lit " vcap_request_id:" ++ quoted reqid ++
    (lit " response_time:" ++ rt ++ lit " app_id:") ++ quoted appid ++ lit " app_index:" ++
    quoted idx

/-- A well-formed access-log line. -/
def goldenLine : GoString :=
  rtrLine (lit "www.example.com") (lit "2017-01-01T12:00:00.000+0000") (lit "GET")
    (lit "/path") (lit "HTTP/1.1") (lit "200") (lit "0") (lit "1234") (lit "-")
    (lit "Mozilla/5.0") (lit "10.0.0.1:1234") (lit "10.0.1.2:61000") (lit "10.0.0.1")
    (lit "https") (lit "abc-123") (lit "0.001500") (lit "app-guid") (lit "0")

/-- The well-formed line with the status replaced by the decimal integer `2^63`. -/
def hugeStatusLine : GoString :=
  rtrLine (lit "www.example.com") (lit "2017-01-01T12:00:00.000+0000") (lit "GET")
    (lit "/path") (lit "HTTP/1.1") (lit "9223372036854775808") (lit "0") (lit "1234") (lit "-")
    (lit "Mozilla/5.0") (lit "10.0.0.1:1234") (lit "10.0.1.2:61000") (lit "10.0.0.1")
    (lit "https") (lit "abc-123") (lit "0.001500") (lit "app-guid") (lit "0")

/-- The record of the well-formed line. -/
def goldenRecord : RtrMessage :=
  { host := lit "www.example.com",
    timestamp := { year := 2017, month := 1, day := 1, hour := 12, minute := 0, second := 0,
                   nanosecond := 0, zoneOffset := 0 },
    method := lit "GET", path := lit "/path", protocol := lit "HTTP/1.1",
    statusCode := lit "200", requestBytesReceived := lit "0", bodyBytesSent := lit "1234",
    referer := lit "-", userAgent := lit "Mozilla/5.0", remoteAddr := lit "10.0.0.1:1234",
    destIpAndPort := lit "10.0.1.2:61000", xForwardedFor := lit "10.0.0.1",
    xForwardedProto := lit "https", vcapRequestId := lit "abc-123", responseTime := 1500000,
    appId := lit "app-guid", appIndex := lit "0", isSuccess := true }

/-- An access-log line cut after its third segment: it has two quotes. -/
def truncatedLine : GoString :=
  lit "www.example.com - [2017-01-01T12:00:00.000+0000] \"GET /path HTTP/1.1\" 200 0 1234"

/-- An access-log line whose timestamp token is the single byte `-`. -/
def oneByteTimestampLine : GoString :=
  lit "www.example.com - - \"GET /path HTTP/1.1\" 200 0 1234 \"-\" \"Mozilla/5.0\" " ++
    lit "\"10.0.0.1:1234\" \"10.0.1.2:61000\" x_forwarded_for:\"10.0.0.1\" " ++
    lit "x_forwarded_proto:\"https\" vcap_request_id:\"abc-123\" response_time:0.001500 " ++
    lit "app_id:\"app-guid\" app_index:\"0\""

/-- An access-log line whose timestamp token is the single byte `-` and whose forwarded
protocol is `ftp`. -/
def ftpOneByteTimestampLine : GoString :=
  lit "www.example.com - - \"GET /path HTTP/1.1\" 200 0 1234 \"-\" \"Mozilla/5.0\" " ++
    lit "\"10.0.0.1:1234\" \"10.0.1.2:61000\" x_forwarded_for:\"10.0.0.1\" " ++
    lit "x_forwarded_proto:\"ftp\" vcap_request_id:\"abc-123\" response_time:0.001500 " ++
    lit "app_id:\"app-guid\" app_index:\"0\""

/-- An access-log line whose timestamp token is the single byte `-` and which has none of the
four markers `x_forwarded_for`, `vcap_request_id`, `app_id`, `app_index`. -/
def unmarkedOneByteTimestampLine : GoString :=
  lit "www.example.com - - \"GET /path HTTP/1.1\" 200 0 1234 \"-\" \"Mozilla/5.0\" " ++
    lit "\"10.0.0.1:1234\" \"10.0.1.2:61000\" forwarded:\"10.0.0.1\" " ++
    lit "x_forwarded_proto:\"https\" request:\"abc-123\" response_time:0.001500 " ++
    lit "app:\"app-guid\" index:\"0\""

/-- A log message of an application, not of the router. -/
def appMessage (messageType : GoString) : LogMessage :=
  { Message := lit "listening on port 8080", MessageType := messageType,
    SourceType := lit "APP/PROC/WEB", SourceInstance := lit "0", AppID := lit "app-guid",
    ApplicationName := lit "my-app" }

/-- A log message of the router carrying the given access-log line. -/
def rtrMessage (line : GoString) : LogMessage :=
  { Message := line, MessageType := lit "OUT", SourceType := lit "RTR", SourceInstance := lit "1",
    AppID := lit "app-guid", ApplicationName := lit "my-app" }

/-- An access-log line whose timestamp token is the single byte `-` and whose status is `abc`. -/
def badStatusOneByteTimestampLine : GoString :=
  lit "www.example.com - - \"GET /path HTTP/1.1\" abc 0 1234 \"-\" \"Mozilla/5.0\" " ++
    lit "\"10.0.0.1:1234\" \"10.0.1.2:61000\" x_forwarded_for:\"10.0.0.1\" " ++
    lit "x_forwarded_proto:\"https\" vcap_request_id:\"abc-123\" response_time:0.001500 " ++
    lit "app_id:\"app-guid\" app_index:\"0\""

/-- The well-formed line with the forwarded-for list `10.0.0.1, 10.0.0.2`. -/
def forwardedListLine : GoString :=
  rtrLine (lit "www.example.com") (lit "2017-01-01T12:00:00.000+0000") (lit "GET")
    (lit "/path") (lit "HTTP/1.1") (lit "200") (lit "0") (lit "1234") (lit "-")
    (lit "Mozilla/5.0") (lit "10.0.0.1:1234") (lit "10.0.1.2:61000") (lit "10.0.0.1, 10.0.0.2")
    (lit "https") (lit "abc-123") (lit "0.001500") (lit "app-guid") (lit "0")

/-- The text of the error of a library call, empty when the call succeeds. -/
def errorText {α : Type} : Except GoString α → GoString
  | Except.error e => e
  | Except.ok _ => []

/-- The texts of the errors that `ParseRtr` can return once it has at least 20 segments, in the
order of its checks, from the trimmed segments `strs`. -/
def segmentErrorTexts (lib : StdLib) (strs : List GoString) : List GoString :=
  [lit "Error parsing timestamp: " ++ fmtStrings (tokens (strs.getD 0 [])),
   lit "Error parsing timestamp: " ++ errorText (lib.timeParse (inner (token (strs.getD 0 []) 2))),
   lit "Error parsing path and protocol: " ++ fmtStrings (tokens (strs.getD 1 [])),
   lit "Error parsing success: " ++ fmtStrings (tokens (strs.getD 2 [])),
   lit "Error parsing bytes received and sent: " ++ fmtStrings (tokens (strs.getD 2 [])),
   lit "Error parsing x_forwarded_for: " ++ strs.getD 10 [],
   lit "Error parsing x_forwarded_proto: " ++ strs.getD 13 [],
   lit "Error parsing vcap_request_id: " ++ strs.getD 14 [],
   lit "Error parsing response time: " ++
     errorText (lib.parseFloat ((Split (token (strs.getD 16 []) 0) (byte ':')).getD 1 [])),
   lit "Error parsing app id: " ++ strs.getD 16 [],
   lit "Error parsing app index: " ++ strs.getD 18 []]

/-- The well-formed line with the forwarded protocol `ftp`. -/
def ftpLine : GoString :=
  rtrLine (lit "www.example.com") (lit "2017-01-01T12:00:00.000+0000") (lit "GET")
    (lit "/path") (lit "HTTP/1.1") (lit "200") (lit "0") (lit "1234") (lit "-")
    (lit "Mozilla/5.0") (lit "10.0.0.1:1234") (lit "10.0.1.2:61000") (lit "10.0.0.1")
    (lit "ftp") (lit "abc-123") (lit "0.001500") (lit "app-guid") (lit "0")

/-- The well-formed line without the marker of the response time: the first token of its
segment 16 is `latency:0.001500`. -/
def noLatencyLine : GoString :=
  lit "www.example.com - [2017-01-01T12:00:00.000+0000] \"GET /path HTTP/1.1\" 200 0 1234 " ++
    lit "\"-\" \"Mozilla/5.0\" \"10.0.0.1:1234\" \"10.0.1.2:61000\" " ++
    lit "x_forwarded_for:\"10.0.0.1\" x_forwarded_proto:\"https\" " ++
    lit "vcap_request_id:\"abc-123\" latency:0.001500 app_id:\"app-guid\" app_index:\"0\""

/-- The well-formed line without the marker of the application id: the second token of its
segment 16 is `app:`. -/
def noAppIdLine : GoString :=
  lit "www.example.com - [2017-01-01T12:00:00.000+0000] \"GET /path HTTP/1.1\" 200 0 1234 " ++
    lit "\"-\" \"Mozilla/5.0\" \"10.0.0.1:1234\" \"10.0.1.2:61000\" " ++
    lit "x_forwarded_for:\"10.0.0.1\" x_forwarded_proto:\"https\" " ++
    lit "vcap_request_id:\"abc-123\" response_time:0.001500 app:\"app-guid\" app_index:\"0\""

/-- Following the wording of the specification, not the source: the decimal `v` times
1,000,000,000, truncated toward zero to a whole number of nanoseconds, in exact arithmetic;
`none` when `v` is no plain decimal. To be compared with `refDuration` after `refFloat`. -/
def specNanos (v : GoString) : Option Int :=
  let signed := splitSign v
  let whole := signed.2.takeWhile isDigit
  let rest := signed.2.dropWhile isDigit
  let fraction : Option GoString :=
    match rest with
    | [] => some []
    | dot :: digits => if dot = byte '.' ∧ digits.all isDigit then some digits else none
  match fraction with
  | none => none
  | some fraction =>
    if whole.length + fraction.length = 0 then none
    else
      let num := (whole ++ fraction).foldl (fun acc c => acc * 10 + (c - 48)) 0
      let magnitude : Nat := num * 1000000000 / 10 ^ fraction.length
      some (if signed.1 then -(magnitude : Int) else (magnitude : Int))

/-- The well-formed line with the response time `0.000065`. -/
def roundingLine : GoString :=
  rtrLine (lit "www.example.com") (lit "2017-01-01T12:00:00.000+0000") (lit "GET")
    (lit "/path") (lit "HTTP/1.1") (lit "200") (lit "0") (lit "1234") (lit "-")
    (lit "Mozilla/5.0") (lit "10.0.0.1:1234") (lit "10.0.1.2:61000") (lit "10.0.0.1")
    (lit "https") (lit "abc-123") (lit "0.000065") (lit "app-guid") (lit "0")

/-- The well-formed line with `1.5:zzz` after the marker of the response time. -/
def secondColonLine : GoString :=
  rtrLine (lit "www.example.com") (lit "2017-01-01T12:00:00.000+0000") (lit "GET")
    (lit "/path") (lit "HTTP/1.1") (lit "200") (lit "0") (lit "1234") (lit "-")
    (lit "Mozilla/5.0") (lit "10.0.0.1:1234") (lit "10.0.1.2:61000") (lit "10.0.0.1")
    (lit "https") (lit "abc-123") (lit "1.5:zzz") (lit "app-guid") (lit "0")

/-- The well-formed line with the response time `abc`. -/
def badResponseTimeLine : GoString :=
  rtrLine (lit "www.example.com") (lit "2017-01-01T12:00:00.000+0000") (lit "GET")
    (lit "/path") (lit "HTTP/1.1") (lit "200") (lit "0") (lit "1234") (lit "-")
    (lit "Mozilla/5.0") (lit "10.0.0.1:1234") (lit "10.0.1.2:61000") (lit "10.0.0.1")
    (lit "https") (lit "abc-123") (lit "abc") (lit "app-guid") (lit "0")

/-- The indices `i` of the index expressions `strs[i]` of `ParseRtr` after segment 0. -/
def laterSegments : List Nat :=
  [1, 2, 3, 5, 7, 9, 10, 11, 13, 14, 15, 16, 17, 18, 19]

/-- The indices `i` of the index expressions `strs[i]` of `ParseRtr`. -/
def readSegments : List Nat :=
  0 :: laterSegments

/-- The well-formed line with other text in the segments 4, 6, 8, 12 and 20: segment 12 is
`zzz:` and holds no `x_forwarded_proto`. -/
def unreadVariantLine : GoString :=
  lit "www.example.com - [2017-01-01T12:00:00.000+0000] \"GET /path HTTP/1.1\" 200 0 1234 " ++
    lit "\"-\" four \"Mozilla/5.0\" six \"10.0.0.1:1234\" eight \"10.0.1.2:61000\" " ++
    lit "x_forwarded_for:\"10.0.0.1\" zzz:\"https\" " ++
    lit "vcap_request_id:\"abc-123\" response_time:0.001500 app_id:\"app-guid\" " ++
    lit "app_index:\"0\" twenty"

/-- A single-byte character that is no white space and no quote. -/
def IsPlainByte (c : Nat) : Prop :=
  c < 128 ∧ asciiSpace c = false ∧ c ≠ byte '"'

instance (c : Nat) : Decidable (IsPlainByte c) := by
  unfold IsPlainByte
  infer_instance

/-- A line around the third token of its segment 0: `a` is the text before the token, `x` and
`y` are the first and the last byte of the token and `mid` the bytes between them, `w` is the
rest of segment 0 and `r` the text after the first quote. -/
def delimitedLine (a : GoString) (x : Nat) (mid : GoString) (y : Nat) (w r : GoString) :
    GoString :=
  a ++ x :: (mid ++ y :: (w ++ byte '"' :: r))

/-- The text of the well-formed line after its first quote. -/
def goldenRest : GoString :=
  lit "GET /path HTTP/1.1\" 200 0 1234 " ++
    lit "\"-\" \"Mozilla/5.0\" \"10.0.0.1:1234\" \"10.0.1.2:61000\" " ++
    lit "x_forwarded_for:\"10.0.0.1\" x_forwarded_proto:\"https\" " ++
    lit "vcap_request_id:\"abc-123\" response_time:0.001500 app_id:\"app-guid\" app_index:\"0\""

/-- The well-formed line with `x` and `y` in the place of the brackets of the timestamp. -/
def xyLine : GoString :=
  lit "www.example.com - x2017-01-01T12:00:00.000+0000y \"" ++ goldenRest

/-- The line cut after its third segment, with `x` and `y` in the place of the brackets of the
timestamp. -/
def truncatedXyLine : GoString :=
  lit "www.example.com - x2017-01-01T12:00:00.000+0000y \"GET /path HTTP/1.1\" 200 0 1234"

/-- The reading of a plain decimal: an optional sign, digits, and optionally a point and digits,
with a digit somewhere. The result `(negative, num, k)` stands for `± num / 10 ^ k`: whether the
sign is `-`, the digits read as one number, and the number of digits after the point. -/
def readDecimal (s : GoString) : Option (Bool × Nat × Nat) :=
  let signed := splitSign s
  let whole := signed.2.takeWhile isDigit
  let rest := signed.2.dropWhile isDigit
  let fraction : Option GoString :=
    match rest with
    | [] => some []
    | dot :: digits => if dot = byte '.' ∧ digits.all isDigit then some digits else none
  match fraction with
  | none => none
  | some fraction =>
    if whole.length + fraction.length = 0 then none
    else
      some (signed.1, (whole ++ fraction).foldl (fun acc c => acc * 10 + (c - 48)) 0,
        fraction.length)

/-- The rational number `m * 2 ^ p`. -/
def dyadic (m : Nat) (p : Int) : ℚ :=
  (m : ℚ) * (2 : ℚ) ^ p

/-- The magnitudes of binary64 before the exponent is bounded above: a significand `m` of at
most 53 bits and an exponent `p` of at least -1074, standing for `m * 2 ^ p`. -/
def IsBinary64 (m : Nat) (p : Int) : Prop :=
  m < 2 ^ 53 ∧ -1074 ≤ p

/-- Rounding to nearest, ties to even (IEEE 754 `roundTiesToEven`): `m * 2 ^ p`, with `m`
normalised to 53 bits unless `p` is the least exponent, is as near to `x` as every binary64
magnitude, and when another magnitude is as near, `m` is even. -/
def IsNearestEven (x : ℚ) (m : Nat) (p : Int) : Prop :=
  IsBinary64 m p ∧ (2 ^ 52 ≤ m ∨ p = -1074) ∧
    ∀ m' p', IsBinary64 m' p' →
      |dyadic m p - x| ≤ |dyadic m' p' - x| ∧
        (|dyadic m' p' - x| = |dyadic m p - x| → dyadic m' p' = dyadic m p ∨ m % 2 = 0)

/-! ## Splitting -/

theorem Split_ne_nil (s : GoString) (sep : Nat) : Split s sep ≠ [] := by
  induction s with
  | nil => simp [Split]
  | cons c rest ih =>
    unfold Split
    split
    · simp
    · split <;> simp

theorem Split_nil (sep : Nat) : Split [] sep = [[]] := rfl

theorem Split_cons_sep (rest : GoString) (sep : Nat) :
    Split (sep :: rest) sep = [] :: Split rest sep := by
  simp [Split]

theorem Split_cons_ne (c : Nat) (rest : GoString) (sep : Nat) (h : c ≠ sep) :
    Split (c :: rest) sep =
      ((Split rest sep).headD [] |> List.cons c) :: (Split rest sep).tail := by
  have hne := Split_ne_nil rest sep
  rw [Split, if_neg h]
  cases hs : Split rest sep with
  | nil => exact absurd hs hne
  | cons piece pieces => simp

theorem Split_length (s : GoString) (sep : Nat) :
    (Split s sep).length = s.count sep + 1 := by
  induction s with
  | nil => simp [Split]
  | cons c rest ih =>
    unfold Split
    by_cases h : c = sep
    · subst h
      simp [ih]
    · have hne := Split_ne_nil rest sep
      simp only [h, if_false]
      cases hs : Split rest sep with
      | nil => exact absurd hs hne
      | cons piece pieces =>
        rw [hs] at ih
        simp only [List.length_cons] at ih ⊢
        rw [List.count_cons_of_ne (Ne.symm h)] 
        exact ih

theorem Split_of_not_mem (s : GoString) (sep : Nat) (h : sep ∉ s) : Split s sep = [s] := by
  induction s with
  | nil => simp [Split]
  | cons c rest ih =>
    simp only [List.mem_cons, not_or] at h
    unfold Split
    rw [if_neg (Ne.symm h.1), ih h.2]

theorem Split_append (a rest : GoString) (sep : Nat) (h : sep ∉ a) :
    Split (a ++ sep :: rest) sep = a :: Split rest sep := by
  induction a with
  | nil => simp [Split]
  | cons c a ih =>
    simp only [List.mem_cons, not_or] at h
    simp only [List.cons_append]
    rw [Split_cons_ne _ _ _ (Ne.symm h.1), ih h.2]
    simp

/-! ## The blocks of the parser -/

theorem index_lt (xs : List GoString) (i : Nat) (k : GoString → Outcome) (h : i < xs.length) :
    index xs i k = k (xs.getD i []) := by
  unfold index
  rw [List.get?_eq_get h]
  simp [List.getElem?_eq_getElem h]

theorem index_ge (xs : List GoString) (i : Nat) (k : GoString → Outcome) (h : xs.length ≤ i) :
    index xs i k = Outcome.abort := by
  unfold index
  rw [List.get?_eq_none.mpr h]

theorem slice_inner (s : GoString) (k : GoString → Outcome) (h : 2 ≤ s.length) :
    slice s 1 ((s.length : Int) - 1) k = k (inner s) := by
  unfold slice inner
  have h1 : (0 : Int) ≤ 1 ∧ (1 : Int) ≤ (s.length : Int) - 1 ∧
      (s.length : Int) - 1 ≤ (s.length : Int) := by omega
  have h2 : ((s.length : Int) - 1).toNat = s.length - 1 := by omega
  rw [if_pos h1, h2]
  rfl

theorem slice_short (s : GoString) (k : GoString → Outcome) (h : s.length < 2) :
    slice s 1 ((s.length : Int) - 1) k = Outcome.abort := by
  unfold slice
  have h1 : ¬((0 : Int) ≤ 1 ∧ (1 : Int) ≤ (s.length : Int) - 1 ∧
      (s.length : Int) - 1 ≤ (s.length : Int)) := by omega
  rw [if_neg h1]

theorem ite_failure_record {c : Prop} [Decidable c] (msg : RtrMessage) (e : GoString)
    (X : Outcome) (m : RtrMessage) :
    (if c then Outcome.failure msg e else X) = Outcome.record m ↔ ¬c ∧ X = Outcome.record m := by
  split <;> simp [*]

theorem ite_failure_abort {c : Prop} [Decidable c] (msg : RtrMessage) (e : GoString)
    (X : Outcome) :
    (if c then Outcome.failure msg e else X) = Outcome.abort ↔ ¬c ∧ X = Outcome.abort := by
  split <;> simp [*]

theorem Contains_mem (s substr : GoString) (c : Nat) (h : Contains s substr = true)
    (hc : c ∈ substr) : c ∈ s := by
  induction s with
  | nil =>
    simp only [Contains, List.isEmpty_iff] at h
    subst h
    exact hc
  | cons a rest ih =>
    simp only [Contains, Bool.or_eq_true, List.isPrefixOf_iff_prefix] at h
    rcases h with h | h
    · exact h.subset hc
    · exact List.mem_cons_of_mem _ (ih h)

theorem Split_length_of_mem (s : GoString) (sep : Nat) (h : sep ∈ s) :
    1 < (Split s sep).length := by
  rw [Split_length]
  have := List.count_pos_iff.mpr h
  omega

theorem tokens_length_pos (s : GoString) : 0 < (Split s (byte ' ')).length := by
  rw [Split_length]; omega

theorem parseAppIndex_record (strs : List GoString) (msg m : RtrMessage)
    (h : 20 ≤ strs.length) :
    parseAppIndex strs msg = Outcome.record m ↔
      Contains (strs.getD 18 []) (lit "app_index") = true ∧
        m = { msg with appIndex := strs.getD 19 [] } := by
  unfold parseAppIndex
  rw [index_lt _ _ _ (by omega), index_lt _ _ _ (by omega), ite_failure_record,
    Outcome.record.injEq, eq_comm (b := m)]
  simp only [Bool.not_eq_false]

theorem parseAppId_record (strs : List GoString) (strs16 : GoString) (s : List GoString)
    (msg m : RtrMessage) (h : 20 ≤ strs.length) :
    parseAppId strs strs16 s msg = Outcome.record m ↔
      1 < s.length ∧ Contains (s.getD 1 []) (lit "app_id") = true ∧
      Contains (strs.getD 18 []) (lit "app_index") = true ∧
        m = { msg with appId := strs.getD 17 [], appIndex := strs.getD 19 [] } := by
  unfold parseAppId
  rw [index_lt _ _ _ (by omega), ite_failure_record, parseAppIndex_record _ _ _ h]
  simp only [Bool.not_eq_false, Bool.and_eq_true, decide_eq_true_eq, and_assoc]

theorem parseResponseTime_record (lib : StdLib) (strs : List GoString) (msg m : RtrMessage)
    (h : 20 ≤ strs.length) :
    parseResponseTime lib strs msg = Outcome.record m ↔
      ∃ d : Int,
        (if Contains (token (strs.getD 16 []) 0) (lit "response_time:") = true then
           ∃ f, lib.parseFloat ((Split (token (strs.getD 16 []) 0) (byte ':')).getD 1 []) =
             Except.ok f ∧ d = lib.toDuration f
         else d = msg.responseTime) ∧
        1 < (tokens (strs.getD 16 [])).length ∧
        Contains (token (strs.getD 16 []) 1) (lit "app_id") = true ∧
        Contains (strs.getD 18 []) (lit "app_index") = true ∧
        m = { msg with responseTime := d, appId := strs.getD 17 [],
                       appIndex := strs.getD 19 [] } := by
  unfold parseResponseTime
  rw [index_lt _ _ _ (by omega)]
  simp only []
  rw [index_lt _ _ _ (tokens_length_pos _)]
  unfold token tokens
  by_cases hc : Contains ((Split (strs.getD 16 []) (byte ' ')).getD 0 []) (lit "response_time:")
      = true
  · rw [if_pos hc,
      index_lt _ _ _ (Split_length_of_mem _ _ (Contains_mem _ _ _ hc (by decide)))]
    simp only [hc, if_true]
    cases hf : lib.parseFloat
        ((Split ((Split (strs.getD 16 []) (byte ' ')).getD 0 []) (byte ':')).getD 1 []) with
    | error e => simp
    | ok f =>
      simp only [parseAppId_record _ _ _ _ _ h, Except.ok.injEq, exists_eq_left']
      constructor
      · rintro ⟨h1, h2, h3, h4⟩
        exact ⟨_, rfl, h1, h2, h3, h4⟩
      · rintro ⟨d, rfl, h1, h2, h3, h4⟩
        exact ⟨h1, h2, h3, h4⟩
  · rw [if_neg hc, parseAppId_record _ _ _ _ _ h]
    simp only [hc, if_false]
    constructor
    · rintro ⟨h1, h2, h3, h4⟩
      exact ⟨_, rfl, h1, h2, h3, h4⟩
    · rintro ⟨d, rfl, h1, h2, h3, h4⟩
      exact ⟨h1, h2, h3, h4⟩


theorem parseRequestId_record (lib : StdLib) (strs : List GoString) (msg m : RtrMessage)
    (h : 20 ≤ strs.length) :
    parseRequestId lib strs msg = Outcome.record m ↔
      Contains (strs.getD 14 []) (lit "vcap_request_id") = true ∧
      ∃ d : Int,
        (if Contains (token (strs.getD 16 []) 0) (lit "response_time:") = true then
           ∃ f, lib.parseFloat ((Split (token (strs.getD 16 []) 0) (byte ':')).getD 1 []) =
             Except.ok f ∧ d = lib.toDuration f
         else d = msg.responseTime) ∧
        1 < (tokens (strs.getD 16 [])).length ∧
        Contains (token (strs.getD 16 []) 1) (lit "app_id") = true ∧
        Contains (strs.getD 18 []) (lit "app_index") = true ∧
        m = { msg with vcapRequestId := strs.getD 15 [], responseTime := d,
                       appId := strs.getD 17 [], appIndex := strs.getD 19 [] } := by
  unfold parseRequestId
  rw [index_lt _ _ _ (by omega), index_lt _ _ _ (by omega), ite_failure_record,
    parseResponseTime_record _ _ _ _ h]
  simp only [Bool.not_eq_false]

theorem proto_ite (x : GoString) (h : x = lit "http" ∨ x = lit "https") :
    (if x = lit "http" then lit "http" else lit "https") = x := by
  rcases h with e | e
  · rw [if_pos e, e]
  · rw [if_neg (by rw [e]; decide), e]

theorem parseForwardedProto_record (lib : StdLib) (strs : List GoString) (msg m : RtrMessage)
    (h : 20 ≤ strs.length) :
    parseForwardedProto lib strs msg = Outcome.record m ↔
      (strs.getD 13 [] = lit "http" ∨ strs.getD 13 [] = lit "https") ∧
      Contains (strs.getD 14 []) (lit "vcap_request_id") = true ∧
      ∃ d : Int,
        (if Contains (token (strs.getD 16 []) 0) (lit "response_time:") = true then
           ∃ f, lib.parseFloat ((Split (token (strs.getD 16 []) 0) (byte ':')).getD 1 []) =
             Except.ok f ∧ d = lib.toDuration f
         else d = msg.responseTime) ∧
        1 < (tokens (strs.getD 16 [])).length ∧
        Contains (token (strs.getD 16 []) 1) (lit "app_id") = true ∧
        Contains (strs.getD 18 []) (lit "app_index") = true ∧
        m = { msg with xForwardedProto := strs.getD 13 [], vcapRequestId := strs.getD 15 [],
                       responseTime := d, appId := strs.getD 17 [],
                       appIndex := strs.getD 19 [] } := by
  unfold parseForwardedProto
  rw [index_lt _ _ _ (by omega), ite_failure_record, parseRequestId_record _ _ _ _ h]
  simp only []
  constructor
  · rintro ⟨h1, h2, d, h3⟩
    have h1 : strs.getD 13 [] = lit "http" ∨ strs.getD 13 [] = lit "https" := by
      by_contra hn
      exact h1 ⟨fun e => hn (Or.inl e), fun e => hn (Or.inr e)⟩
    rw [proto_ite _ h1] at h3
    exact ⟨h1, h2, d, h3⟩
  · rintro ⟨h1, h2, d, h3⟩
    refine ⟨fun hn => ?_, h2, d, ?_⟩
    · rcases h1 with e | e
      · exact hn.1 e
      · exact hn.2 e
    · rw [proto_ite _ h1]
      exact h3




theorem parseForwardedFor_record (lib : StdLib) (strs : List GoString) (msg m : RtrMessage)
    (h : 20 ≤ strs.length) :
    parseForwardedFor lib strs msg = Outcome.record m ↔
      Contains (strs.getD 10 []) (lit "x_forwarded_for") = true ∧
      (strs.getD 13 [] = lit "http" ∨ strs.getD 13 [] = lit "https") ∧
      Contains (strs.getD 14 []) (lit "vcap_request_id") = true ∧
      ∃ d : Int,
        (if Contains (token (strs.getD 16 []) 0) (lit "response_time:") = true then
           ∃ f, lib.parseFloat ((Split (token (strs.getD 16 []) 0) (byte ':')).getD 1 []) =
             Except.ok f ∧ d = lib.toDuration f
         else d = msg.responseTime) ∧
        1 < (tokens (strs.getD 16 [])).length ∧
        Contains (token (strs.getD 16 []) 1) (lit "app_id") = true ∧
        Contains (strs.getD 18 []) (lit "app_index") = true ∧
        m = { msg with xForwardedFor := (Split (strs.getD 11 []) (byte ',')).getD 0 [],
                       xForwardedProto := strs.getD 13 [], vcapRequestId := strs.getD 15 [],
                       responseTime := d, appId := strs.getD 17 [],
                       appIndex := strs.getD 19 [] } := by
  unfold parseForwardedFor
  rw [index_lt _ _ _ (by omega), index_lt _ _ _ (by omega), ite_failure_record,
    index_lt _ _ _ (by rw [Split_length]; omega), parseForwardedProto_record _ _ _ _ h]
  simp only [Bool.not_eq_false]

theorem parseReferer_record (lib : StdLib) (strs : List GoString) (msg m : RtrMessage)
    (h : 20 ≤ strs.length) :
    parseReferer lib strs msg = Outcome.record m ↔
      Contains (strs.getD 10 []) (lit "x_forwarded_for") = true ∧
      (strs.getD 13 [] = lit "http" ∨ strs.getD 13 [] = lit "https") ∧
      Contains (strs.getD 14 []) (lit "vcap_request_id") = true ∧
      ∃ d : Int,
        (if Contains (token (strs.getD 16 []) 0) (lit "response_time:") = true then
           ∃ f, lib.parseFloat ((Split (token (strs.getD 16 []) 0) (byte ':')).getD 1 []) =
             Except.ok f ∧ d = lib.toDuration f
         else d = msg.responseTime) ∧
        1 < (tokens (strs.getD 16 [])).length ∧
        Contains (token (strs.getD 16 []) 1) (lit "app_id") = true ∧
        Contains (strs.getD 18 []) (lit "app_index") = true ∧
        m = { msg with referer := strs.getD 3 [], userAgent := strs.getD 5 [],
                       remoteAddr := strs.getD 7 [], destIpAndPort := strs.getD 9 [],
                       xForwardedFor := (Split (strs.getD 11 []) (byte ',')).getD 0 [],
                       xForwardedProto := strs.getD 13 [], vcapRequestId := strs.getD 15 [],
                       responseTime := d, appId := strs.getD 17 [],
                       appIndex := strs.getD 19 [] } := by
  unfold parseReferer
  rw [index_lt _ _ _ (by omega), index_lt _ _ _ (by omega), index_lt _ _ _ (by omega),
    index_lt _ _ _ (by omega), parseForwardedFor_record _ _ _ _ h]

theorem parseStatus_record (lib : StdLib) (strs : List GoString) (msg m : RtrMessage)
    (h : 20 ≤ strs.length) :
    parseStatus lib strs msg = Outcome.record m ↔
      ∃ n : Int, Atoi (token (strs.getD 2 []) 0) = some n ∧
      3 ≤ (tokens (strs.getD 2 [])).length ∧
      Contains (strs.getD 10 []) (lit "x_forwarded_for") = true ∧
      (strs.getD 13 [] = lit "http" ∨ strs.getD 13 [] = lit "https") ∧
      Contains (strs.getD 14 []) (lit "vcap_request_id") = true ∧
      ∃ d : Int,
        (if Contains (token (strs.getD 16 []) 0) (lit "response_time:") = true then
           ∃ f, lib.parseFloat ((Split (token (strs.getD 16 []) 0) (byte ':')).getD 1 []) =
             Except.ok f ∧ d = lib.toDuration f
         else d = msg.responseTime) ∧
        1 < (tokens (strs.getD 16 [])).length ∧
        Contains (token (strs.getD 16 []) 1) (lit "app_id") = true ∧
        Contains (strs.getD 18 []) (lit "app_index") = true ∧
        m = { msg with statusCode := token (strs.getD 2 []) 0,
                       isSuccess := decide (n < 400),
                       requestBytesReceived := token (strs.getD 2 []) 1,
                       bodyBytesSent := token (strs.getD 2 []) 2,
                       referer := strs.getD 3 [], userAgent := strs.getD 5 [],
                       remoteAddr := strs.getD 7 [], destIpAndPort := strs.getD 9 [],
                       xForwardedFor := (Split (strs.getD 11 []) (byte ',')).getD 0 [],
                       xForwardedProto := strs.getD 13 [], vcapRequestId := strs.getD 15 [],
                       responseTime := d, appId := strs.getD 17 [],
                       appIndex := strs.getD 19 [] } := by
  unfold parseStatus
  rw [index_lt _ _ _ (by omega)]
  simp only []
  rw [index_lt _ _ _ (tokens_length_pos _)]
  unfold token tokens
  cases ha : Atoi ((Split (strs.getD 2 []) (byte ' ')).getD 0 []) with
  | none => simp
  | some n =>
    simp only [Option.some.injEq, exists_eq_left']
    by_cases hl : (Split (strs.getD 2 []) (byte ' ')).length < 3
    · rw [if_pos hl]
      simp only [false_iff, reduceCtorEq]
      rintro ⟨h1, _⟩
      omega
    · rw [if_neg hl, index_lt _ _ _ (by omega), index_lt _ _ _ (by omega),
        parseReferer_record _ _ _ _ h]
      simp only [token, tokens]
      constructor
      · rintro ⟨h1, h2, h3, h4⟩
        exact ⟨by omega, h1, h2, h3, h4⟩
      · rintro ⟨_, h1, h2, h3, h4⟩
        exact ⟨h1, h2, h3, h4⟩


theorem parseMethod_record (lib : StdLib) (strs : List GoString) (msg m : RtrMessage)
    (h : 20 ≤ strs.length) :
    parseMethod lib strs msg = Outcome.record m ↔
      3 ≤ (tokens (strs.getD 1 [])).length ∧
      ∃ n : Int, Atoi (token (strs.getD 2 []) 0) = some n ∧
      3 ≤ (tokens (strs.getD 2 [])).length ∧
      Contains (strs.getD 10 []) (lit "x_forwarded_for") = true ∧
      (strs.getD 13 [] = lit "http" ∨ strs.getD 13 [] = lit "https") ∧
      Contains (strs.getD 14 []) (lit "vcap_request_id") = true ∧
      ∃ d : Int,
        (if Contains (token (strs.getD 16 []) 0) (lit "response_time:") = true then
           ∃ f, lib.parseFloat ((Split (token (strs.getD 16 []) 0) (byte ':')).getD 1 []) =
             Except.ok f ∧ d = lib.toDuration f
         else d = msg.responseTime) ∧
        1 < (tokens (strs.getD 16 [])).length ∧
        Contains (token (strs.getD 16 []) 1) (lit "app_id") = true ∧
        Contains (strs.getD 18 []) (lit "app_index") = true ∧
        m = { msg with method := token (strs.getD 1 []) 0,
                       path := token (strs.getD 1 []) 1,
                       protocol := token (strs.getD 1 []) 2,
                       statusCode := token (strs.getD 2 []) 0,
                       isSuccess := decide (n < 400),
                       requestBytesReceived := token (strs.getD 2 []) 1,
                       bodyBytesSent := token (strs.getD 2 []) 2,
                       referer := strs.getD 3 [], userAgent := strs.getD 5 [],
                       remoteAddr := strs.getD 7 [], destIpAndPort := strs.getD 9 [],
                       xForwardedFor := (Split (strs.getD 11 []) (byte ',')).getD 0 [],
                       xForwardedProto := strs.getD 13 [], vcapRequestId := strs.getD 15 [],
                       responseTime := d, appId := strs.getD 17 [],
                       appIndex := strs.getD 19 [] } := by
  unfold parseMethod
  rw [index_lt _ _ _ (by omega)]
  simp only []
  rw [index_lt _ _ _ (tokens_length_pos _)]
  by_cases hl : (Split (strs.getD 1 []) (byte ' ')).length < 3
  · rw [if_pos hl]
    simp only [false_iff, reduceCtorEq, tokens]
    rintro ⟨h1, _⟩
    omega
  · rw [if_neg hl, index_lt _ _ _ (by omega), index_lt _ _ _ (by omega),
      parseStatus_record _ _ _ _ h]
    simp only [token, tokens]
    constructor
    · intro h1
      exact ⟨by omega, h1⟩
    · rintro ⟨_, h1⟩
      exact h1

theorem parseHost_record (lib : StdLib) (strs : List GoString) (msg m : RtrMessage)
    (h : 20 ≤ strs.length) :
    parseHost lib strs msg = Outcome.record m ↔
      3 ≤ (tokens (strs.getD 0 [])).length ∧
      2 ≤ (token (strs.getD 0 []) 2).length ∧
      ∃ t : Time, lib.timeParse (inner (token (strs.getD 0 []) 2)) = Except.ok t ∧
      3 ≤ (tokens (strs.getD 1 [])).length ∧
      ∃ n : Int, Atoi (token (strs.getD 2 []) 0) = some n ∧
      3 ≤ (tokens (strs.getD 2 [])).length ∧
      Contains (strs.getD 10 []) (lit "x_forwarded_for") = true ∧
      (strs.getD 13 [] = lit "http" ∨ strs.getD 13 [] = lit "https") ∧
      Contains (strs.getD 14 []) (lit "vcap_request_id") = true ∧
      ∃ d : Int,
        (if Contains (token (strs.getD 16 []) 0) (lit "response_time:") = true then
           ∃ f, lib.parseFloat ((Split (token (strs.getD 16 []) 0) (byte ':')).getD 1 []) =
             Except.ok f ∧ d = lib.toDuration f
         else d = msg.responseTime) ∧
        1 < (tokens (strs.getD 16 [])).length ∧
        Contains (token (strs.getD 16 []) 1) (lit "app_id") = true ∧
        Contains (strs.getD 18 []) (lit "app_index") = true ∧
        m = { msg with host := token (strs.getD 0 []) 0,
                       timestamp := t,
                       method := token (strs.getD 1 []) 0,
                       path := token (strs.getD 1 []) 1,
                       protocol := token (strs.getD 1 []) 2,
                       statusCode := token (strs.getD 2 []) 0,
                       isSuccess := decide (n < 400),
                       requestBytesReceived := token (strs.getD 2 []) 1,
                       bodyBytesSent := token (strs.getD 2 []) 2,
                       referer := strs.getD 3 [], userAgent := strs.getD 5 [],
                       remoteAddr := strs.getD 7 [], destIpAndPort := strs.getD 9 [],
                       xForwardedFor := (Split (strs.getD 11 []) (byte ',')).getD 0 [],
                       xForwardedProto := strs.getD 13 [], vcapRequestId := strs.getD 15 [],
                       responseTime := d, appId := strs.getD 17 [],
                       appIndex := strs.getD 19 [] } := by
  unfold parseHost
  rw [index_lt _ _ _ (by omega)]
  simp only []
  rw [index_lt _ _ _ (tokens_length_pos _)]
  by_cases hl : (Split (strs.getD 0 []) (byte ' ')).length < 3
  · rw [if_pos hl]
    simp only [false_iff, reduceCtorEq, tokens]
    rintro ⟨h1, _⟩
    omega
  · rw [if_neg hl, index_lt _ _ _ (by omega)]
    by_cases hs : ((Split (strs.getD 0 []) (byte ' ')).getD 2 []).length < 2
    · rw [slice_short _ _ hs]
      simp only [false_iff, reduceCtorEq, token, tokens]
      rintro ⟨_, h1, _⟩
      omega
    · rw [slice_inner _ _ (by omega)]
      cases ht : lib.timeParse (inner ((Split (strs.getD 0 []) (byte ' ')).getD 2 [])) with
      | error e =>
        simp only [false_iff, reduceCtorEq, token, tokens, ht]
        rintro ⟨_, _, t, h1, _⟩
        exact absurd h1 (by simp)
      | ok t =>
        simp only [parseMethod_record _ _ _ _ h, token, tokens, ht, Except.ok.injEq,
          exists_eq_left']
        constructor
        · intro h1
          exact ⟨by omega, by omega, h1⟩
        · rintro ⟨_, _, h1⟩
          exact h1


theorem ParseRtr_blocks (lib : StdLib) (log : GoString) :
    ParseRtr lib log =
      if (Split log (byte '"')).length < 20 then
        Outcome.failure RtrMessage.zero (lit "Error parsing RTR message: " ++ log)
      else parseHost lib (segments log) RtrMessage.zero := rfl

theorem segments_length (log : GoString) :
    (segments log).length = log.count (byte '"') + 1 := by
  unfold segments
  rw [List.length_map, Split_length]

/-- The parser returns a record exactly when every check of the source passes, and the record is
then made of the segments and tokens of the line as the source assigns them. -/
theorem ParseRtr_record_iff (lib : StdLib) (log : GoString) (m : RtrMessage) :
    ParseRtr lib log = Outcome.record m ↔
      20 ≤ (segments log).length ∧
      3 ≤ (tokens (segment log 0)).length ∧
      2 ≤ (token (segment log 0) 2).length ∧
      ∃ t : Time, lib.timeParse (inner (token (segment log 0) 2)) = Except.ok t ∧
      3 ≤ (tokens (segment log 1)).length ∧
      ∃ n : Int, Atoi (token (segment log 2) 0) = some n ∧
      3 ≤ (tokens (segment log 2)).length ∧
      Contains (segment log 10) (lit "x_forwarded_for") = true ∧
      (segment log 13 = lit "http" ∨ segment log 13 = lit "https") ∧
      Contains (segment log 14) (lit "vcap_request_id") = true ∧
      ∃ d : Int,
        (if Contains (token (segment log 16) 0) (lit "response_time:") = true then
           ∃ f, lib.parseFloat ((Split (token (segment log 16) 0) (byte ':')).getD 1 []) =
             Except.ok f ∧ d = lib.toDuration f
         else d = 0) ∧
        1 < (tokens (segment log 16)).length ∧
        Contains (token (segment log 16) 1) (lit "app_id") = true ∧
        Contains (segment log 18) (lit "app_index") = true ∧
        m = { host := token (segment log 0) 0,
              timestamp := t,
              method := token (segment log 1) 0,
              path := token (segment log 1) 1,
              protocol := token (segment log 1) 2,
              statusCode := token (segment log 2) 0,
              requestBytesReceived := token (segment log 2) 1,
              bodyBytesSent := token (segment log 2) 2,
              referer := segment log 3,
              userAgent := segment log 5,
              remoteAddr := segment log 7,
              destIpAndPort := segment log 9,
              xForwardedFor := (Split (segment log 11) (byte ',')).getD 0 [],
              xForwardedProto := segment log 13,
              vcapRequestId := segment log 15,
              responseTime := d,
              appId := segment log 17,
              appIndex := segment log 19,
              isSuccess := decide (n < 400) } := by
  rw [ParseRtr_blocks]
  by_cases hlen : (Split log (byte '"')).length < 20
  · rw [if_pos hlen]
    have : ¬ 20 ≤ (segments log).length := by
      unfold segments; rw [List.length_map]; omega
    simp only [reduceCtorEq, false_iff, not_and]
    intro h1
    exact absurd h1 this
  · have h20 : 20 ≤ (segments log).length := by
      unfold segments; rw [List.length_map]; omega
    rw [if_neg hlen, parseHost_record _ _ _ _ h20]
    simp only [h20, true_and, segment, RtrMessage.zero]


theorem parseAppIndex_ne_abort (strs : List GoString) (msg : RtrMessage)
    (h : 20 ≤ strs.length) : parseAppIndex strs msg ≠ Outcome.abort := by
  unfold parseAppIndex
  rw [index_lt _ _ _ (by omega), index_lt _ _ _ (by omega)]
  split <;> simp

theorem parseAppId_ne_abort (strs : List GoString) (strs16 : GoString) (s : List GoString)
    (msg : RtrMessage) (h : 20 ≤ strs.length) :
    parseAppId strs strs16 s msg ≠ Outcome.abort := by
  unfold parseAppId
  rw [index_lt _ _ _ (by omega)]
  split
  · simp
  · exact parseAppIndex_ne_abort _ _ h

theorem parseResponseTime_ne_abort (lib : StdLib) (strs : List GoString) (msg : RtrMessage)
    (h : 20 ≤ strs.length) : parseResponseTime lib strs msg ≠ Outcome.abort := by
  unfold parseResponseTime
  rw [index_lt _ _ _ (by omega)]
  simp only []
  rw [index_lt _ _ _ (tokens_length_pos _)]
  split
  · rename_i hc
    rw [index_lt _ _ _ (Split_length_of_mem _ _ (Contains_mem _ _ _ hc (by decide)))]
    split
    · simp
    · exact parseAppId_ne_abort _ _ _ _ h
  · exact parseAppId_ne_abort _ _ _ _ h

theorem parseRequestId_ne_abort (lib : StdLib) (strs : List GoString) (msg : RtrMessage)
    (h : 20 ≤ strs.length) : parseRequestId lib strs msg ≠ Outcome.abort := by
  unfold parseRequestId
  rw [index_lt _ _ _ (by omega), index_lt _ _ _ (by omega)]
  split
  · simp
  · exact parseResponseTime_ne_abort _ _ _ h

theorem parseForwardedProto_ne_abort (lib : StdLib) (strs : List GoString) (msg : RtrMessage)
    (h : 20 ≤ strs.length) : parseForwardedProto lib strs msg ≠ Outcome.abort := by
  unfold parseForwardedProto
  rw [index_lt _ _ _ (by omega)]
  split
  · simp
  · exact parseRequestId_ne_abort _ _ _ h

theorem parseForwardedFor_ne_abort (lib : StdLib) (strs : List GoString) (msg : RtrMessage)
    (h : 20 ≤ strs.length) : parseForwardedFor lib strs msg ≠ Outcome.abort := by
  unfold parseForwardedFor
  rw [index_lt _ _ _ (by omega), index_lt _ _ _ (by omega),
    index_lt _ _ _ (by rw [Split_length]; omega)]
  split
  · simp
  · exact parseForwardedProto_ne_abort _ _ _ h

theorem parseReferer_ne_abort (lib : StdLib) (strs : List GoString) (msg : RtrMessage)
    (h : 20 ≤ strs.length) : parseReferer lib strs msg ≠ Outcome.abort := by
  unfold parseReferer
  rw [index_lt _ _ _ (by omega), index_lt _ _ _ (by omega), index_lt _ _ _ (by omega),
    index_lt _ _ _ (by omega)]
  exact parseForwardedFor_ne_abort _ _ _ h

theorem parseStatus_ne_abort (lib : StdLib) (strs : List GoString) (msg : RtrMessage)
    (h : 20 ≤ strs.length) : parseStatus lib strs msg ≠ Outcome.abort := by
  unfold parseStatus
  rw [index_lt _ _ _ (by omega)]
  simp only []
  rw [index_lt _ _ _ (tokens_length_pos _)]
  split
  · simp
  · split
    · simp
    · rw [index_lt _ _ _ (by omega), index_lt _ _ _ (by omega)]
      exact parseReferer_ne_abort _ _ _ h

theorem parseMethod_ne_abort (lib : StdLib) (strs : List GoString) (msg : RtrMessage)
    (h : 20 ≤ strs.length) : parseMethod lib strs msg ≠ Outcome.abort := by
  unfold parseMethod
  rw [index_lt _ _ _ (by omega)]
  simp only []
  rw [index_lt _ _ _ (tokens_length_pos _)]
  split
  · simp
  · rw [index_lt _ _ _ (by omega), index_lt _ _ _ (by omega)]
    exact parseStatus_ne_abort _ _ _ h

theorem parseHost_abort_iff (lib : StdLib) (strs : List GoString) (msg : RtrMessage)
    (h : 20 ≤ strs.length) :
    parseHost lib strs msg = Outcome.abort ↔
      3 ≤ (tokens (strs.getD 0 [])).length ∧ (token (strs.getD 0 []) 2).length < 2 := by
  unfold parseHost
  rw [index_lt _ _ _ (by omega)]
  simp only []
  rw [index_lt _ _ _ (tokens_length_pos _)]
  unfold token tokens
  by_cases hl : (Split (strs.getD 0 []) (byte ' ')).length < 3
  · rw [if_pos hl]
    simp only [reduceCtorEq, false_iff, not_and]
    intro h1
    omega
  · rw [if_neg hl, index_lt _ _ _ (by omega)]
    by_cases hs : ((Split (strs.getD 0 []) (byte ' ')).getD 2 []).length < 2
    · rw [slice_short _ _ hs]
      simp only [true_iff]
      exact ⟨by omega, hs⟩
    · rw [slice_inner _ _ (by omega)]
      have hm := parseMethod_ne_abort lib strs
      constructor
      · intro h1
        split at h1
        · simp at h1
        · exact absurd h1 (hm _ h)
      · rintro ⟨_, h1⟩
        exact absurd h1 hs

/-- The parser aborts exactly on the lines of at least 20 segments whose segment 0 has at least
three tokens, the third of fewer than two bytes: the slice `s[2][1 : len(s[2])-1]` of line 168 is
the one expression of `ParseRtr` that can panic. -/
theorem ParseRtr_abort_iff (lib : StdLib) (log : GoString) :
    ParseRtr lib log = Outcome.abort ↔
      20 ≤ (segments log).length ∧ 3 ≤ (tokens (segment log 0)).length ∧
        (token (segment log 0) 2).length < 2 := by
  rw [ParseRtr_blocks]
  by_cases hlen : (Split log (byte '"')).length < 20
  · rw [if_pos hlen]
    have : ¬ 20 ≤ (segments log).length := by
      unfold segments; rw [List.length_map]; omega
    simp only [reduceCtorEq, false_iff, not_and]
    intro h1
    exact absurd h1 this
  · have h20 : 20 ≤ (segments log).length := by
      unfold segments; rw [List.length_map]; omega
    rw [if_neg hlen, parseHost_abort_iff _ _ _ h20]
    simp only [h20, true_and, segment]


/-! ## The claims on the parser -/

/-- What the parser does on a line is one of three things. -/
theorem Outcome_cases (o : Outcome) :
    (∃ m, o = Outcome.record m) ∨ (∃ msg err, o = Outcome.failure msg err) ∨ o = Outcome.abort := by
  cases o with
  | record m => exact Or.inl ⟨m, rfl⟩
  | failure msg err => exact Or.inr (Or.inl ⟨msg, err, rfl⟩)
  | abort => exact Or.inr (Or.inr rfl)

/-- Outside the lines on which the slice of line 168 panics, a line that yields no record yields
an error. -/
theorem ParseRtr_failure_of_not_record (lib : StdLib) (log : GoString)
    (hslice : 3 ≤ (tokens (segment log 0)).length → 2 ≤ (token (segment log 0) 2).length)
    (hrec : ∀ m, ParseRtr lib log ≠ Outcome.record m) :
    ∃ msg err, ParseRtr lib log = Outcome.failure msg err := by
  rcases Outcome_cases (ParseRtr lib log) with ⟨m, h⟩ | h | h
  · exact absurd h (hrec m)
  · exact h
  · rw [ParseRtr_abort_iff] at h
    have := hslice h.2.1
    omega

/-- Claim C1, at a line the code can receive: on an access-log line of 21 segments whose segment
0 has three tokens, the third one the single byte `-` in the place of the timestamp, `ParseRtr`
returns neither a record nor an error; it aborts in the slice `s[2][1 : len(s[2])-1]`. -/
theorem ParseRtr_aborts_on_one_byte_timestamp (lib : StdLib) :
    (segments oneByteTimestampLine).length = 21 ∧
      tokens (segment oneByteTimestampLine 0) = [lit "www.example.com", lit "-", lit "-"] ∧
      ParseRtr lib oneByteTimestampLine = Outcome.abort :=
  ⟨by decide, by decide, (ParseRtr_abort_iff lib _).mpr (by decide)⟩

/-- Claim C3: a line with fewer than 19 quote characters, the empty line included, splits into
fewer than 20 segments and `ParseRtr` returns an error on it, the one of the first check. -/
theorem ParseRtr_fewer_than_19_quotes (lib : StdLib) (log : GoString)
    (h : log.count (byte '"') < 19) :
    (Split log (byte '"')).length < 20 ∧
      ParseRtr lib log =
        Outcome.failure RtrMessage.zero (lit "Error parsing RTR message: " ++ log) := by
  have hlen : (Split log (byte '"')).length < 20 := by
    rw [Split_length]; omega
  refine ⟨hlen, ?_⟩
  rw [ParseRtr_blocks, if_pos hlen]

/-- The first check on the empty line and on a line cut after its third segment. -/
theorem ParseRtr_fewer_than_19_quotes_witness :
    (([] : GoString).count (byte '"') < 19 ∧
      ((Split [] (byte '"')).length < 20 ∧
        ParseRtr refLib [] =
          Outcome.failure RtrMessage.zero (lit "Error parsing RTR message: " ++ []))) ∧
    (truncatedLine.count (byte '"') < 19 ∧
      ((Split truncatedLine (byte '"')).length < 20 ∧
        ParseRtr refLib truncatedLine =
          Outcome.failure RtrMessage.zero
            (lit "Error parsing RTR message: " ++ truncatedLine))) :=
  ⟨⟨by decide, ParseRtr_fewer_than_19_quotes refLib [] (by decide)⟩,
   ⟨by decide, ParseRtr_fewer_than_19_quotes refLib truncatedLine (by decide)⟩⟩


/-! ## The claims on the dispatch loop -/

/-- An iteration that goes on to the next: the run is its calls followed by the run over the
values received afterwards. -/
theorem routeEvents_next (lib : StdLib) (closeConsumer : Option GoString) (ev : Event)
    (rest : List Event) (calls : List Call)
    (h : routeStep lib closeConsumer ev = (calls, Control.next)) :
    routeEvents lib closeConsumer (ev :: rest) =
      (calls ++ (routeEvents lib closeConsumer rest).1,
        (routeEvents lib closeConsumer rest).2) := by
  simp only [routeEvents, h]

theorem tracked_append (xs ys : List Call) : tracked (xs ++ ys) = tracked xs ++ tracked ys := by
  induction xs with
  | nil => rfl
  | cons c xs ih => cases c <;> simp [tracked, ih]

theorem SetProperty_fresh (props : Properties) (key value : GoString)
    (h : key ∉ props.map Prod.fst) : SetProperty props key value = props ++ [(key, value)] := by
  unfold SetProperty
  have : props.any (fun p => decide (p.1 = key)) = false := by
    rw [List.any_eq_false]
    intro p hp
    simp only [decide_eq_true_eq]
    intro e
    exact h (List.mem_map.mpr ⟨p, hp, e⟩)
  rw [this]
  simp

/-- The request telemetry item that `routeEvents` builds from a parsed record and the log
message (lines 71 to 90). -/
theorem routeStep_record (lib : StdLib) (closeConsumer : Option GoString) (message : LogMessage)
    (m : RtrMessage) (hrtr : Contains message.SourceType (lit "RTR") = true)
    (hm : ParseRtr lib message.Message = Outcome.record m) :
    routeStep lib closeConsumer (Event.msg (InboundRecord.logLine message)) =
      ([Call.newLogMessage, Call.parseRtr message.Message,
        Call.track (Telemetry.request
          { name := m.method ++ lit " " ++ m.path,
            method := m.method,
            url := m.xForwardedProto ++ lit "://" ++ m.host ++ m.path,
            timestamp := m.timestamp,
            duration := m.responseTime,
            responseCode := m.statusCode,
            success := m.isSuccess,
            userAgent := m.userAgent,
            locationIp := m.xForwardedFor,
            operationName := m.method ++ lit " " ++ m.path,
            properties :=
              [(lit "request_bytes_received", m.requestBytesReceived),
               (lit "body_bytes_sent", m.bodyBytesSent),
               (lit "referer", m.referer),
               (lit "remote_addr", m.remoteAddr),
               (lit "dest_ip_port", m.destIpAndPort),
               (lit "vcap_request_id", m.vcapRequestId),
               (lit "app_id", m.appId),
               (lit "app_index", m.appIndex),
               (lit "app_name", message.ApplicationName)] })], Control.next) := by
  simp only [routeStep, hrtr, if_true, hm, NewRequestTelemetry]
  simp (disch := (simp only [List.map_cons, List.map_nil]; decide)) only
    [SetProperty_fresh, List.nil_append, List.cons_append]

theorem routeStep_failure (lib : StdLib) (closeConsumer : Option GoString) (message : LogMessage)
    (msg : RtrMessage) (err : GoString)
    (hrtr : Contains message.SourceType (lit "RTR") = true)
    (hm : ParseRtr lib message.Message = Outcome.failure msg err) :
    routeStep lib closeConsumer (Event.msg (InboundRecord.logLine message)) =
      ([Call.newLogMessage, Call.parseRtr message.Message,
        Call.logError (lit "Error parsing RTR message") (some err)], Control.next) := by
  simp only [routeStep, hrtr, if_true, hm]

theorem routeStep_trace (lib : StdLib) (closeConsumer : Option GoString) (message : LogMessage)
    (hrtr : Contains message.SourceType (lit "RTR") = false) :
    routeStep lib closeConsumer (Event.msg (InboundRecord.logLine message)) =
      ([Call.newLogMessage,
        Call.track (Telemetry.trace
          { message := message.Message,
            severity :=
              if message.MessageType = lit "ERR" then SeverityLevel.Error
              else SeverityLevel.Information,
            properties :=
              [(lit "app_id", message.AppID),
               (lit "app_name", message.ApplicationName),
               (lit "source_type", message.SourceType),
               (lit "source_instance", message.SourceInstance)] })], Control.next) := by
  simp only [routeStep, hrtr, NewTraceTelemetry, Bool.false_eq_true, if_false]
  simp (disch := (simp only [List.map_cons, List.map_nil]; decide)) only
    [SetProperty_fresh, List.nil_append, List.cons_append]


/-- Claim C4: one iteration on an inbound record hands to the telemetry sink nothing when the
record is no log line, exactly one trace item when it is a log line whose source type does not
contain `RTR`, exactly one request item when the source type contains `RTR` and `ParseRtr`
returns a record on the message text, and nothing when `ParseRtr` returns an error. In each of
these cases the iteration ends with the loop going on, and the run over the record and the
values received after it is the calls of this iteration followed by the run over those values
alone. -/
theorem dispatch_iteration (lib : StdLib) (closeConsumer : Option GoString)
    (r : InboundRecord) (rest : List Event) :
    (r = InboundRecord.other →
      tracked (routeStep lib closeConsumer (Event.msg r)).1 = [] ∧
      (routeStep lib closeConsumer (Event.msg r)).2 = Control.next ∧
      routeEvents lib closeConsumer (Event.msg r :: rest) =
        ((routeStep lib closeConsumer (Event.msg r)).1 ++
          (routeEvents lib closeConsumer rest).1, (routeEvents lib closeConsumer rest).2)) ∧
    (∀ message, r = InboundRecord.logLine message →
      Contains message.SourceType (lit "RTR") = false →
      (∃ telem, tracked (routeStep lib closeConsumer (Event.msg r)).1 =
        [Telemetry.trace telem]) ∧
      (routeStep lib closeConsumer (Event.msg r)).2 = Control.next ∧
      routeEvents lib closeConsumer (Event.msg r :: rest) =
        ((routeStep lib closeConsumer (Event.msg r)).1 ++
          (routeEvents lib closeConsumer rest).1, (routeEvents lib closeConsumer rest).2)) ∧
    (∀ message m, r = InboundRecord.logLine message →
      Contains message.SourceType (lit "RTR") = true →
      ParseRtr lib message.Message = Outcome.record m →
      (∃ telem, tracked (routeStep lib closeConsumer (Event.msg r)).1 =
        [Telemetry.request telem]) ∧
      (routeStep lib closeConsumer (Event.msg r)).2 = Control.next ∧
      routeEvents lib closeConsumer (Event.msg r :: rest) =
        ((routeStep lib closeConsumer (Event.msg r)).1 ++
          (routeEvents lib closeConsumer rest).1, (routeEvents lib closeConsumer rest).2)) ∧
    (∀ message msg err, r = InboundRecord.logLine message →
      Contains message.SourceType (lit "RTR") = true →
      ParseRtr lib message.Message = Outcome.failure msg err →
      tracked (routeStep lib closeConsumer (Event.msg r)).1 = [] ∧
      (routeStep lib closeConsumer (Event.msg r)).2 = Control.next ∧
      routeEvents lib closeConsumer (Event.msg r :: rest) =
        ((routeStep lib closeConsumer (Event.msg r)).1 ++
          (routeEvents lib closeConsumer rest).1, (routeEvents lib closeConsumer rest).2)) := by
  refine ⟨?_, ?_, ?_, ?_⟩
  · rintro rfl
    have h : routeStep lib closeConsumer (Event.msg InboundRecord.other) = ([], Control.next) :=
      rfl
    rw [routeEvents_next _ _ _ _ _ h, h]
    exact ⟨rfl, rfl, rfl⟩
  · rintro message rfl hrtr
    have h := routeStep_trace lib closeConsumer message hrtr
    rw [routeEvents_next _ _ _ _ _ h, h]
    exact ⟨⟨_, rfl⟩, rfl, rfl⟩
  · rintro message m rfl hrtr hm
    have h := routeStep_record lib closeConsumer message m hrtr hm
    rw [routeEvents_next _ _ _ _ _ h, h]
    exact ⟨⟨_, rfl⟩, rfl, rfl⟩
  · rintro message msg err rfl hrtr hm
    have h := routeStep_failure lib closeConsumer message msg err hrtr hm
    rw [routeEvents_next _ _ _ _ _ h, h]
    exact ⟨rfl, rfl, rfl⟩

set_option maxRecDepth 100000 in
/-- The four cases of an iteration at concrete records: no log line, an application log, the
well-formed router line, a router line cut short. -/
theorem dispatch_iteration_witness :
    (tracked (routeStep refLib none (Event.msg InboundRecord.other)).1 = [] ∧
      (routeStep refLib none (Event.msg InboundRecord.other)).2 = Control.next ∧
      routeEvents refLib none [Event.msg InboundRecord.other, Event.err (lit "EOF")] =
        ((routeStep refLib none (Event.msg InboundRecord.other)).1 ++
          (routeEvents refLib none [Event.err (lit "EOF")]).1,
         (routeEvents refLib none [Event.err (lit "EOF")]).2)) ∧
    (Contains (appMessage (lit "OUT")).SourceType (lit "RTR") = false ∧
      (∃ telem, tracked (routeStep refLib none
        (Event.msg (InboundRecord.logLine (appMessage (lit "OUT"))))).1 =
          [Telemetry.trace telem])) ∧
    ((Contains (rtrMessage goldenLine).SourceType (lit "RTR") = true ∧
      ParseRtr refLib (rtrMessage goldenLine).Message = Outcome.record goldenRecord) ∧
      (∃ telem, tracked (routeStep refLib none
        (Event.msg (InboundRecord.logLine (rtrMessage goldenLine)))).1 =
          [Telemetry.request telem])) ∧
    ((Contains (rtrMessage truncatedLine).SourceType (lit "RTR") = true ∧
      ParseRtr refLib (rtrMessage truncatedLine).Message =
        Outcome.failure RtrMessage.zero (lit "Error parsing RTR message: " ++ truncatedLine)) ∧
      tracked (routeStep refLib none
        (Event.msg (InboundRecord.logLine (rtrMessage truncatedLine)))).1 = [] ∧
      (routeStep refLib none
        (Event.msg (InboundRecord.logLine (rtrMessage truncatedLine)))).2 = Control.next) :=
  ⟨(dispatch_iteration refLib none InboundRecord.other [Event.err (lit "EOF")]).1 rfl,
   ⟨by decide,
    ((dispatch_iteration refLib none (InboundRecord.logLine (appMessage (lit "OUT"))) []).2.1
      _ rfl (by decide)).1⟩,
   ⟨⟨by decide, by decide⟩,
    ((dispatch_iteration refLib none (InboundRecord.logLine (rtrMessage goldenLine)) []).2.2.1
      _ goldenRecord rfl (by decide) (by decide)).1⟩,
   ⟨⟨by decide, by decide⟩,
    (((dispatch_iteration refLib none (InboundRecord.logLine (rtrMessage truncatedLine)) []).2.2.2
      _ RtrMessage.zero (lit "Error parsing RTR message: " ++ truncatedLine) rfl (by decide)
      (by decide)).1),
    (((dispatch_iteration refLib none (InboundRecord.logLine (rtrMessage truncatedLine)) []).2.2.2
      _ RtrMessage.zero (lit "Error parsing RTR message: " ++ truncatedLine) rfl (by decide)
      (by decide)).2.1)⟩⟩


/-- Claim C5: for a log-line record whose source type does not contain `RTR`, the iteration
hands to the sink one trace item: its message is the message text of the record, its severity is
`Error` exactly when the message type is `ERR` and `Information` otherwise, and its property bag
is `app_id`, `app_name`, `source_type`, `source_instance` with the values of the record. -/
theorem trace_telemetry_shape (lib : StdLib) (closeConsumer : Option GoString)
    (message : LogMessage) (h : Contains message.SourceType (lit "RTR") = false) :
    ∃ telem : TraceTelemetry,
      tracked (routeStep lib closeConsumer (Event.msg (InboundRecord.logLine message))).1 =
        [Telemetry.trace telem] ∧
      telem.message = message.Message ∧
      (telem.severity = SeverityLevel.Error ↔ message.MessageType = lit "ERR") ∧
      (message.MessageType ≠ lit "ERR" → telem.severity = SeverityLevel.Information) ∧
      telem.properties =
        [(lit "app_id", message.AppID),
         (lit "app_name", message.ApplicationName),
         (lit "source_type", message.SourceType),
         (lit "source_instance", message.SourceInstance)] := by
  rw [routeStep_trace lib closeConsumer message h]
  refine ⟨_, rfl, rfl, ?_, ?_, rfl⟩
  · by_cases he : message.MessageType = lit "ERR"
    · simp only [he, if_true]
    · simp only [he, if_false, reduceCtorEq]
  · intro he
    simp only [he, if_false]

/-- The trace item of an `ERR` message of source type `rtr` and of an `OUT` message of an
application; `OUT`, `err` and the empty string differ from `ERR`. -/
theorem trace_telemetry_shape_witness :
    (Contains (lit "rtr") (lit "RTR") = false ∧
      ∃ telem : TraceTelemetry,
        tracked (routeStep refLib none (Event.msg (InboundRecord.logLine
          { Message := lit "boom", MessageType := lit "ERR", SourceType := lit "rtr",
            SourceInstance := lit "0", AppID := lit "app-guid",
            ApplicationName := lit "my-app" }))).1 = [Telemetry.trace telem] ∧
        telem.message = lit "boom" ∧
        (telem.severity = SeverityLevel.Error ↔ lit "ERR" = lit "ERR") ∧
        (lit "ERR" ≠ lit "ERR" → telem.severity = SeverityLevel.Information) ∧
        telem.properties =
          [(lit "app_id", lit "app-guid"), (lit "app_name", lit "my-app"),
           (lit "source_type", lit "rtr"), (lit "source_instance", lit "0")]) ∧
    (Contains (appMessage (lit "OUT")).SourceType (lit "RTR") = false ∧
      ∃ telem : TraceTelemetry,
        tracked (routeStep refLib none
          (Event.msg (InboundRecord.logLine (appMessage (lit "OUT"))))).1 =
            [Telemetry.trace telem] ∧
        telem.message = (appMessage (lit "OUT")).Message ∧
        (telem.severity = SeverityLevel.Error ↔ (appMessage (lit "OUT")).MessageType = lit "ERR") ∧
        ((appMessage (lit "OUT")).MessageType ≠ lit "ERR" →
          telem.severity = SeverityLevel.Information) ∧
        telem.properties =
          [(lit "app_id", (appMessage (lit "OUT")).AppID),
           (lit "app_name", (appMessage (lit "OUT")).ApplicationName),
           (lit "source_type", (appMessage (lit "OUT")).SourceType),
           (lit "source_instance", (appMessage (lit "OUT")).SourceInstance)]) ∧
    (lit "OUT" ≠ lit "ERR" ∧ lit "err" ≠ lit "ERR" ∧ ([] : GoString) ≠ lit "ERR") :=
  ⟨⟨by decide, trace_telemetry_shape refLib none _ (by decide)⟩,
   ⟨by decide, trace_telemetry_shape refLib none (appMessage (lit "OUT")) (by decide)⟩,
   by decide, by decide, by decide⟩

/-- Claim C6: for a log-line record tagged `RTR` on whose message text `ParseRtr` returns the
record `m`, the iteration hands to the sink one request item: name `m.method + " " + m.path`,
method, URL `m.xForwardedProto + "://" + m.host + m.path`, timestamp, duration, status code and
success flag of `m`, the user agent and the forwarded-for address on the user and location
context, and a property bag of exactly nine keys, `app_name` from the inbound record and the
other eight from `m`. -/
theorem request_telemetry_shape (lib : StdLib) (closeConsumer : Option GoString)
    (message : LogMessage) (m : RtrMessage)
    (hrtr : Contains message.SourceType (lit "RTR") = true)
    (hm : ParseRtr lib message.Message = Outcome.record m) :
    tracked (routeStep lib closeConsumer (Event.msg (InboundRecord.logLine message))).1 =
      [Telemetry.request
        { name := m.method ++ lit " " ++ m.path,
          method := m.method,
          url := m.xForwardedProto ++ lit "://" ++ m.host ++ m.path,
          timestamp := m.timestamp,
          duration := m.responseTime,
          responseCode := m.statusCode,
          success := m.isSuccess,
          userAgent := m.userAgent,
          locationIp := m.xForwardedFor,
          operationName := m.method ++ lit " " ++ m.path,
          properties :=
            [(lit "request_bytes_received", m.requestBytesReceived),
             (lit "body_bytes_sent", m.bodyBytesSent),
             (lit "referer", m.referer),
             (lit "remote_addr", m.remoteAddr),
             (lit "dest_ip_port", m.destIpAndPort),
             (lit "vcap_request_id", m.vcapRequestId),
             (lit "app_id", m.appId),
             (lit "app_index", m.appIndex),
             (lit "app_name", message.ApplicationName)] }] := by
  rw [routeStep_record lib closeConsumer message m hrtr hm]
  rfl

set_option maxRecDepth 100000 in
/-- The request item of the well-formed router line. -/
theorem request_telemetry_shape_witness :
    (Contains (rtrMessage goldenLine).SourceType (lit "RTR") = true ∧
      ParseRtr refLib (rtrMessage goldenLine).Message = Outcome.record goldenRecord) ∧
    tracked (routeStep refLib none
        (Event.msg (InboundRecord.logLine (rtrMessage goldenLine)))).1 =
      [Telemetry.request
        { name := goldenRecord.method ++ lit " " ++ goldenRecord.path,
          method := goldenRecord.method,
          url := goldenRecord.xForwardedProto ++ lit "://" ++ goldenRecord.host ++
            goldenRecord.path,
          timestamp := goldenRecord.timestamp,
          duration := goldenRecord.responseTime,
          responseCode := goldenRecord.statusCode,
          success := goldenRecord.isSuccess,
          userAgent := goldenRecord.userAgent,
          locationIp := goldenRecord.xForwardedFor,
          operationName := goldenRecord.method ++ lit " " ++ goldenRecord.path,
          properties :=
            [(lit "request_bytes_received", goldenRecord.requestBytesReceived),
             (lit "body_bytes_sent", goldenRecord.bodyBytesSent),
             (lit "referer", goldenRecord.referer),
             (lit "remote_addr", goldenRecord.remoteAddr),
             (lit "dest_ip_port", goldenRecord.destIpAndPort),
             (lit "vcap_request_id", goldenRecord.vcapRequestId),
             (lit "app_id", goldenRecord.appId),
             (lit "app_index", goldenRecord.appIndex),
             (lit "app_name", (rtrMessage goldenLine).ApplicationName)] }] :=
  ⟨⟨by decide, by decide⟩,
   request_telemetry_shape refLib none (rtrMessage goldenLine) goldenRecord (by decide)
     (by decide)⟩

/-- Claim C8: when the error source delivers `e`, the run ends by returning exactly `e`, whatever
is received afterwards and whatever `CloseConsumer` returns. The calls are: the log of `e`; the
scale-up hint, present exactly when the text of `e` contains `close 1008 (policy violation)`;
the log of the closing; one `CloseConsumer`. No telemetry is sent. -/
theorem upstream_error_returns (lib : StdLib) (closeConsumer : Option GoString) (e : GoString)
    (rest : List Event) :
    routeEvents lib closeConsumer (Event.err e :: rest) =
      ([Call.logError (lit "Error while reading from the firehose") (some e)] ++
        (if Contains e (lit "close 1008 (policy violation)") then
           [Call.logError
              (lit ("Disconnected because nozzle couldn\x27t keep up. " ++
                "Please try scaling up the nozzle."))
              none]
         else []) ++
        [Call.logError (lit "Closing connection with traffic controller") none,
         Call.closeConsumer],
       Ending.returned e) ∧
    (Call.logError
        (lit ("Disconnected because nozzle couldn\x27t keep up. " ++
          "Please try scaling up the nozzle."))
        none ∈ (routeEvents lib closeConsumer (Event.err e :: rest)).1 ↔
      Contains e (lit "close 1008 (policy violation)") = true) ∧
    (routeEvents lib closeConsumer (Event.err e :: rest)).1.count Call.closeConsumer = 1 ∧
    tracked (routeEvents lib closeConsumer (Event.err e :: rest)).1 = [] ∧
    ∀ closeResult, routeEvents lib closeResult (Event.err e :: rest) =
      routeEvents lib closeConsumer (Event.err e :: rest) := by
  have hrun : ∀ c, routeEvents lib c (Event.err e :: rest) =
      ([Call.logError (lit "Error while reading from the firehose") (some e)] ++
        (if Contains e (lit "close 1008 (policy violation)") then
           [Call.logError
              (lit ("Disconnected because nozzle couldn\x27t keep up. " ++
                "Please try scaling up the nozzle."))
              none]
         else []) ++
        [Call.logError (lit "Closing connection with traffic controller") none,
         Call.closeConsumer],
       Ending.returned e) := fun c => rfl
  refine ⟨hrun _, ?_, ?_, ?_, fun c => by rw [hrun c, hrun closeConsumer]⟩
  · rw [hrun]
    by_cases hc : Contains e (lit "close 1008 (policy violation)") = true
    · simp [hc]
    · simp only [hc, Bool.false_eq_true, if_false, iff_false]
      intro hmem
      simp only [List.append_nil, List.singleton_append, List.mem_cons, List.mem_nil_iff,
        or_false] at hmem
      rcases hmem with h1 | h1 | h1
      · simp at h1
      · exact absurd h1 (by decide)
      · simp at h1
  · rw [hrun]
    by_cases hc : Contains e (lit "close 1008 (policy violation)") = true
    · simp [hc]
    · simp [hc]
  · rw [hrun]
    by_cases hc : Contains e (lit "close 1008 (policy violation)") = true
    · simp [hc, tracked]
    · simp [hc, tracked]

/-- Claim C9: when a termination signal is received, the run logs the signal, calls
`CloseConsumer` once, logs its error when it returns one, and ends with the exit of the process
in both cases, whatever is received afterwards. No telemetry is sent. -/
theorem signal_terminates (lib : StdLib) (closeConsumer : Option GoString) (s : GoString)
    (rest : List Event) :
    routeEvents lib closeConsumer (Event.signal s :: rest) =
      ([Call.logInfo (lit "exiting") [(lit "signal caught", s)], Call.closeConsumer] ++
        (match closeConsumer with
         | some err => [Call.logError (lit "error closing consumer") (some err)]
         | none => []),
       Ending.exited 1) ∧
    (routeEvents lib closeConsumer (Event.signal s :: rest)).1.count Call.closeConsumer = 1 ∧
    tracked (routeEvents lib closeConsumer (Event.signal s :: rest)).1 = [] ∧
    (routeEvents lib closeConsumer (Event.signal s :: rest)).2 = Ending.exited 1 := by
  have hrun : routeEvents lib closeConsumer (Event.signal s :: rest) =
      ([Call.logInfo (lit "exiting") [(lit "signal caught", s)], Call.closeConsumer] ++
        (match closeConsumer with
         | some err => [Call.logError (lit "error closing consumer") (some err)]
         | none => []),
       Ending.exited 1) := rfl
  rw [hrun]
  cases closeConsumer <;> simp [tracked]


/-! ## The checks of the markers and of the forwarded protocol -/

/-- Every record that the parser returns has the trimmed segment 13 as forwarded protocol, and
it is `http` or `https`. -/
theorem ParseRtr_record_proto (lib : StdLib) (log : GoString) (m : RtrMessage)
    (h : ParseRtr lib log = Outcome.record m) :
    m.xForwardedProto = segment log 13 ∧
      (m.xForwardedProto = lit "http" ∨ m.xForwardedProto = lit "https") := by
  rw [ParseRtr_record_iff] at h
  obtain ⟨_, _, _, t, _, _, n, _, _, _, hp, _, d, _, _, _, _, rfl⟩ := h
  exact ⟨rfl, hp⟩

/-- Outside the lines on which the slice of line 168 panics, a forwarded protocol that is neither
`http` nor `https` makes the parser return an error. -/
theorem ParseRtr_bad_proto (lib : StdLib) (log : GoString)
    (hslice : 3 ≤ (tokens (segment log 0)).length → 2 ≤ (token (segment log 0) 2).length)
    (hproto : segment log 13 ≠ lit "http" ∧ segment log 13 ≠ lit "https") :
    ∃ msg err, ParseRtr lib log = Outcome.failure msg err := by
  apply ParseRtr_failure_of_not_record lib log hslice
  intro m hm
  have := ParseRtr_record_proto lib log m hm
  rw [this.1] at this
  rcases this.2 with e | e
  · exact hproto.1 e
  · exact hproto.2 e

/-- Outside the lines on which the slice of line 168 panics, a missing marker makes the parser
return an error: `x_forwarded_for` in segment 10, `vcap_request_id` in segment 14, `app_id` in
the second token of segment 16, `app_index` in segment 18. -/
theorem ParseRtr_missing_marker (lib : StdLib) (log : GoString)
    (hslice : 3 ≤ (tokens (segment log 0)).length → 2 ≤ (token (segment log 0) 2).length)
    (hmarker : Contains (segment log 10) (lit "x_forwarded_for") = false ∨
      Contains (segment log 14) (lit "vcap_request_id") = false ∨
      (tokens (segment log 16)).length < 2 ∨
      Contains (token (segment log 16) 1) (lit "app_id") = false ∨
      Contains (segment log 18) (lit "app_index") = false) :
    ∃ msg err, ParseRtr lib log = Outcome.failure msg err := by
  apply ParseRtr_failure_of_not_record lib log hslice
  intro m hm
  rw [ParseRtr_record_iff] at hm
  obtain ⟨_, _, _, t, _, _, n, _, _, h10, _, h14, d, _, h16, h16b, h18, _⟩ := hm
  rcases hmarker with h | h | h | h | h
  · rw [h] at h10; exact absurd h10 (by decide)
  · rw [h] at h14; exact absurd h14 (by decide)
  · omega
  · rw [h] at h16b; exact absurd h16b (by decide)
  · rw [h] at h18; exact absurd h18 (by decide)

/-- Claim C7, at a line the code can receive: the line has 21 segments and its trimmed segment 13
is `ftp`, yet `ParseRtr` returns no error; it aborts in the slice of line 168 before it reaches
the check of the forwarded protocol. -/
theorem ParseRtr_bad_proto_aborts (lib : StdLib) :
    (segments ftpOneByteTimestampLine).length = 21 ∧
      segment ftpOneByteTimestampLine 13 = lit "ftp" ∧
      ParseRtr lib ftpOneByteTimestampLine = Outcome.abort :=
  ⟨by decide, by decide, (ParseRtr_abort_iff lib _).mpr (by decide)⟩

/-- Claim C10, at a line the code can receive: the line has 21 segments and none of the four
markers, yet `ParseRtr` returns no error; it aborts in the slice of line 168 before it reaches
the checks of the markers. -/
theorem ParseRtr_missing_markers_aborts (lib : StdLib) :
    (segments unmarkedOneByteTimestampLine).length = 21 ∧
      Contains (segment unmarkedOneByteTimestampLine 10) (lit "x_forwarded_for") = false ∧
      Contains (segment unmarkedOneByteTimestampLine 14) (lit "vcap_request_id") = false ∧
      Contains (token (segment unmarkedOneByteTimestampLine 16) 1) (lit "app_id") = false ∧
      Contains (segment unmarkedOneByteTimestampLine 18) (lit "app_index") = false ∧
      ParseRtr lib unmarkedOneByteTimestampLine = Outcome.abort :=
  ⟨by decide, by decide, by decide, by decide, by decide,
    (ParseRtr_abort_iff lib _).mpr (by decide)⟩


/-! ## Trimming -/

theorem suffix_cons2 (a b : Nat) (s : GoString) : s <:+ a :: b :: s :=
  (List.suffix_cons b s).trans (List.suffix_cons a (b :: s))

theorem suffix_cons3 (a b c : Nat) (s : GoString) : s <:+ a :: b :: c :: s :=
  (List.suffix_cons c s).trans (suffix_cons2 a b (c :: s))

theorem trimLeft_length_le (s : GoString) : (trimLeft s).length ≤ s.length := by
  induction s using trimLeft.induct <;> simp_all [trimLeft] <;> omega

theorem trimRightRev_length_le (s : GoString) : (trimRightRev s).length ≤ s.length := by
  induction s using trimRightRev.induct <;> simp_all [trimRightRev] <;> omega

theorem trimLeft_suffix (s : GoString) : trimLeft s <:+ s := by
  induction s using trimLeft.induct with
  | case1 => exact List.suffix_refl _
  | case2 a h => simp only [trimLeft, h, if_true]; exact List.nil_suffix
  | case3 a h => simp only [trimLeft, h, if_false]; exact List.suffix_refl _
  | case4 a b h ih => simp only [trimLeft, h, if_true] at ih ⊢; exact ih.trans (List.suffix_cons _ _)
  | case5 a b h1 h2 => simp only [trimLeft, h1, h2, if_true, if_false]; exact List.nil_suffix
  | case6 a b h1 h2 => simp only [trimLeft, h1, h2, if_false]; exact List.suffix_refl _
  | case7 a b c rest h ih =>
    rw [trimLeft, if_pos h]; exact ih.trans (List.suffix_cons _ _)
  | case8 a b c rest h1 h2 ih =>
    rw [trimLeft, if_neg h1, if_pos h2]; exact ih.trans (suffix_cons2 _ _ _)
  | case9 a b c rest h1 h2 h3 ih =>
    rw [trimLeft, if_neg h1, if_neg h2, if_pos h3]; exact ih.trans (suffix_cons3 _ _ _ _)
  | case10 a b c rest h1 h2 h3 =>
    rw [trimLeft, if_neg h1, if_neg h2, if_neg h3]

theorem trimRightRev_suffix (s : GoString) : trimRightRev s <:+ s := by
  induction s using trimRightRev.induct with
  | case1 => exact List.suffix_refl _
  | case2 a h => simp only [trimRightRev, h, if_true]; exact List.nil_suffix
  | case3 a h => simp only [trimRightRev, h, if_false]; exact List.suffix_refl _
  | case4 a b h ih =>
    simp only [trimRightRev, h, if_true] at ih ⊢; exact ih.trans (List.suffix_cons _ _)
  | case5 a b h1 h2 => simp only [trimRightRev, h1, h2, if_true, if_false]; exact List.nil_suffix
  | case6 a b h1 h2 => simp only [trimRightRev, h1, h2, if_false]; exact List.suffix_refl _
  | case7 a b c rest h ih =>
    rw [trimRightRev, if_pos h]; exact ih.trans (List.suffix_cons _ _)
  | case8 a b c rest h1 h2 ih =>
    rw [trimRightRev, if_neg h1, if_pos h2]; exact ih.trans (suffix_cons2 _ _ _)
  | case9 a b c rest h1 h2 h3 ih =>
    rw [trimRightRev, if_neg h1, if_neg h2, if_pos h3]; exact ih.trans (suffix_cons3 _ _ _ _)
  | case10 a b c rest h1 h2 h3 =>
    rw [trimRightRev, if_neg h1, if_neg h2, if_neg h3]

/-- A string that `TrimSpace` leaves as it is has no white space at either end. -/
theorem TrimSpace_fixed (s : GoString) (h : TrimSpace s = s) :
    trimLeft s = s ∧ trimRightRev s.reverse = s.reverse := by
  have h1 := trimLeft_suffix s
  have h2 := trimRightRev_suffix (trimLeft s).reverse
  have hl : s.length ≤ (trimLeft s).length := by
    have := h2.length_le
    have e : (TrimSpace s).length = s.length := by rw [h]
    simp only [TrimSpace, List.length_reverse] at e this
    omega
  have e1 : trimLeft s = s := h1.eq_of_length_le hl
  refine ⟨e1, ?_⟩
  unfold TrimSpace at h
  rw [e1] at h
  have := congrArg List.reverse h
  rwa [List.reverse_reverse] at this

theorem space2_ascii_left (a b : Nat) (h : a < 128) : space2 a b = false := by
  simp only [space2, Bool.and_eq_false_imp, beq_iff_eq]
  omega

theorem space2_ascii_right (a b : Nat) (h : b < 128) : space2 a b = false := by
  simp only [space2, Bool.and_eq_false_imp, beq_iff_eq, Bool.or_eq_false_iff, beq_eq_false_iff_ne]
  omega

theorem space3_ascii (a b c : Nat) (h : a < 128 ∨ b < 128 ∨ c < 128) : space3 a b c = false := by
  simp only [space3, Bool.or_eq_false_iff, Bool.and_eq_false_iff, beq_eq_false_iff_ne,
    Bool.decide_eq_false, Bool.not_eq_true', decide_eq_false_iff_not]
  omega




theorem trimLeft_cons_space (c : Nat) (s : GoString) (h : asciiSpace c = true) :
    trimLeft (c :: s) = trimLeft s := by
  match s with
  | [] => simp [trimLeft, h]
  | [b] => simp [trimLeft, h]
  | b :: d :: rest => rw [trimLeft, if_pos h]

theorem trimRightRev_cons_space (c : Nat) (s : GoString) (h : asciiSpace c = true) :
    trimRightRev (c :: s) = trimRightRev s := by
  match s with
  | [] => simp [trimRightRev, h]
  | [b] => simp [trimRightRev, h]
  | b :: d :: rest => rw [trimRightRev, if_pos h]

/-- When `x :: s` does not begin with a white-space rune, `trimLeft` leaves it as it is. -/
theorem trimLeft_of_head (x : Nat) (s : GoString) (hx : asciiSpace x = false)
    (hs : ∀ y t, s = y :: t → space2 x y = false ∧ ∀ z u, t = z :: u → space3 x y z = false) :
    trimLeft (x :: s) = x :: s := by
  match s with
  | [] => simp [trimLeft, hx]
  | [y] => simp [trimLeft, hx, (hs y [] rfl).1]
  | y :: z :: u =>
    rw [trimLeft]
    simp [hx, (hs y (z :: u) rfl).1, (hs y (z :: u) rfl).2 z u rfl]

/-- When `trimLeft` leaves `x :: s` as it is, it does not begin with a white-space rune. -/
theorem trimLeft_head_of_fixed (x : Nat) (s : GoString) (h : trimLeft (x :: s) = x :: s) :
    asciiSpace x = false ∧
      ∀ y t, s = y :: t → space2 x y = false ∧ ∀ z u, t = z :: u → space3 x y z = false := by
  have hlen := trimLeft_length_le
  match s with
  | [] =>
    simp only [trimLeft] at h
    split at h
    · simp at h
    · rename_i hx
      exact ⟨by simpa using hx, fun y t e => by simp at e⟩
  | [y] =>
    simp only [trimLeft] at h
    split at h
    · have := hlen [y]
      simp only [trimLeft] at this
      rw [h] at this
      simp at this
    · rename_i hx
      split at h
      · simp at h
      · rename_i h2
        refine ⟨by simpa using hx, fun y1 t e => ?_⟩
        simp only [List.cons.injEq] at e
        obtain ⟨rfl, rfl⟩ := e
        exact ⟨by simpa using h2, fun z u e => by simp at e⟩
  | y :: z :: u =>
    rw [trimLeft] at h
    split at h
    · have := hlen (y :: z :: u)
      rw [h] at this
      simp only [List.length_cons] at this
      omega
    · rename_i hx
      split at h
      · have := hlen (z :: u)
        rw [h] at this
        simp only [List.length_cons] at this
        omega
      · rename_i h2
        split at h
        · have := hlen u
          rw [h] at this
          simp only [List.length_cons] at this
          omega
        · rename_i h3
          refine ⟨by simpa using hx, fun y1 t e => ?_⟩
          simp only [List.cons.injEq] at e
          obtain ⟨rfl, rfl⟩ := e
          refine ⟨by simpa using h2, fun z1 u1 e => ?_⟩
          simp only [List.cons.injEq] at e
          obtain ⟨rfl, rfl⟩ := e
          simpa using h3

/-- When the reversed string `c :: s` does not begin with the last byte of a white-space rune,
`trimRightRev` leaves it as it is. -/
theorem trimRightRev_of_head (c : Nat) (s : GoString) (hc : asciiSpace c = false)
    (hs : ∀ b t, s = b :: t → space2 b c = false ∧ ∀ a u, t = a :: u → space3 a b c = false) :
    trimRightRev (c :: s) = c :: s := by
  match s with
  | [] => simp [trimRightRev, hc]
  | [b] => simp [trimRightRev, hc, (hs b [] rfl).1]
  | b :: a :: u =>
    rw [trimRightRev]
    simp [hc, (hs b (a :: u) rfl).1, (hs b (a :: u) rfl).2 a u rfl]

/-- When `trimRightRev` leaves the reversed string `c :: s` as it is, the string does not end
with a white-space rune. -/
theorem trimRightRev_head_of_fixed (c : Nat) (s : GoString)
    (h : trimRightRev (c :: s) = c :: s) :
    asciiSpace c = false ∧
      ∀ b t, s = b :: t → space2 b c = false ∧ ∀ a u, t = a :: u → space3 a b c = false := by
  have hlen := trimRightRev_length_le
  match s with
  | [] =>
    simp only [trimRightRev] at h
    split at h
    · simp at h
    · rename_i hx
      exact ⟨by simpa using hx, fun y t e => by simp at e⟩
  | [y] =>
    simp only [trimRightRev] at h
    split at h
    · have := hlen [y]
      simp only [trimRightRev] at this
      rw [h] at this
      simp at this
    · rename_i hx
      split at h
      · simp at h
      · rename_i h2
        refine ⟨by simpa using hx, fun y1 t e => ?_⟩
        simp only [List.cons.injEq] at e
        obtain ⟨rfl, rfl⟩ := e
        exact ⟨by simpa using h2, fun z u e => by simp at e⟩
  | y :: z :: u =>
    rw [trimRightRev] at h
    split at h
    · have := hlen (y :: z :: u)
      rw [h] at this
      simp only [List.length_cons] at this
      omega
    · rename_i hx
      split at h
      · have := hlen (z :: u)
        rw [h] at this
        simp only [List.length_cons] at this
        omega
      · rename_i h2
        split at h
        · have := hlen u
          rw [h] at this
          simp only [List.length_cons] at this
          omega
        · rename_i h3
          refine ⟨by simpa using hx, fun y1 t e => ?_⟩
          simp only [List.cons.injEq] at e
          obtain ⟨rfl, rfl⟩ := e
          refine ⟨by simpa using h2, fun z1 u1 e => ?_⟩
          simp only [List.cons.injEq] at e
          obtain ⟨rfl, rfl⟩ := e
          simpa using h3


theorem trimLeft_cons_ascii (x : Nat) (s : GoString) (hx : x < 128)
    (hs : asciiSpace x = false) : trimLeft (x :: s) = x :: s :=
  trimLeft_of_head x s hs fun y _ _ =>
    ⟨space2_ascii_left x y hx, fun z _ _ => space3_ascii x y z (Or.inl hx)⟩

theorem trimRightRev_cons_ascii (c : Nat) (s : GoString) (hc : c < 128)
    (hs : asciiSpace c = false) : trimRightRev (c :: s) = c :: s :=
  trimRightRev_of_head c s hs fun b _ _ =>
    ⟨space2_ascii_right b c hc, fun a _ _ => space3_ascii a b c (Or.inr (Or.inr hc))⟩

/-- A string without white space at its front keeps none when an ASCII byte follows it. -/
theorem trimLeft_append_ascii (a : GoString) (c : Nat) (b : GoString) (ha : a ≠ [])
    (h : trimLeft a = a) (hc : c < 128) : trimLeft (a ++ c :: b) = a ++ c :: b := by
  match a with
  | [] => exact absurd rfl ha
  | x :: a1 =>
    have hx := trimLeft_head_of_fixed x a1 h
    rw [List.cons_append]
    apply trimLeft_of_head x _ hx.1
    intro y t e
    match a1 with
    | [] =>
      simp only [List.nil_append, List.cons.injEq] at e
      obtain ⟨rfl, rfl⟩ := e
      exact ⟨space2_ascii_right x c hc, fun z _ _ => space3_ascii x c z (Or.inr (Or.inl hc))⟩
    | y1 :: a2 =>
      simp only [List.cons_append, List.cons.injEq] at e
      obtain ⟨rfl, rfl⟩ := e
      refine ⟨(hx.2 y1 a2 rfl).1, fun z u e => ?_⟩
      match a2 with
      | [] =>
        simp only [List.nil_append, List.cons.injEq] at e
        obtain ⟨rfl, rfl⟩ := e
        exact space3_ascii x y1 c (Or.inr (Or.inr hc))
      | z1 :: a3 =>
        simp only [List.cons_append, List.cons.injEq] at e
        obtain ⟨rfl, rfl⟩ := e
        exact (hx.2 y1 (z1 :: a3) rfl).2 z1 a3 rfl

/-- A reversed string without white space at the end of the string keeps none when an ASCII
byte precedes the string. -/
theorem trimRightRev_append_ascii (a : GoString) (c : Nat) (b : GoString) (ha : a ≠ [])
    (h : trimRightRev a = a) (hc : c < 128) : trimRightRev (a ++ c :: b) = a ++ c :: b := by
  match a with
  | [] => exact absurd rfl ha
  | x :: a1 =>
    have hx := trimRightRev_head_of_fixed x a1 h
    rw [List.cons_append]
    apply trimRightRev_of_head x _ hx.1
    intro y t e
    match a1 with
    | [] =>
      simp only [List.nil_append, List.cons.injEq] at e
      obtain ⟨rfl, rfl⟩ := e
      exact ⟨space2_ascii_left c x hc, fun z _ _ => space3_ascii z c x (Or.inr (Or.inl hc))⟩
    | y1 :: a2 =>
      simp only [List.cons_append, List.cons.injEq] at e
      obtain ⟨rfl, rfl⟩ := e
      refine ⟨(hx.2 y1 a2 rfl).1, fun z u e => ?_⟩
      match a2 with
      | [] =>
        simp only [List.nil_append, List.cons.injEq] at e
        obtain ⟨rfl, rfl⟩ := e
        exact space3_ascii c y1 x (Or.inl hc)
      | z1 :: a3 =>
        simp only [List.cons_append, List.cons.injEq] at e
        obtain ⟨rfl, rfl⟩ := e
        exact (hx.2 y1 (z1 :: a3) rfl).2 z1 a3 rfl

theorem TrimSpace_of (s l core : GoString) (hl : trimLeft s = l)
    (hr : trimRightRev l.reverse = core.reverse) : TrimSpace s = core := by
  unfold TrimSpace
  rw [hl, hr, List.reverse_reverse]


/-! ## The round trip on the wire format -/

theorem digitsValue_bytes (ds : GoString) (acc n : Nat) (h : digitsValue ds acc = some n) :
    ∀ c ∈ ds, 48 ≤ c ∧ c ≤ 57 := by
  induction ds generalizing acc with
  | nil => intro c hc; simp at hc
  | cons d ds ih =>
    simp only [digitsValue] at h
    split at h
    · rename_i hd
      intro c hc
      simp only [List.mem_cons] at hc
      rcases hc with rfl | hc
      · exact hd
      · exact ih _ h c hc
    · simp at h

theorem splitSign_cases (s : GoString) :
    (∃ c, (c = 43 ∨ c = 45) ∧ s = c :: (splitSign s).2) ∨ (splitSign s).2 = s := by
  unfold splitSign
  split
  · exact Or.inl ⟨43, Or.inl rfl, rfl⟩
  · exact Or.inl ⟨45, Or.inr rfl, rfl⟩
  · exact Or.inr rfl

/-- A string that `Atoi` accepts is not empty and is made of signs and digits. -/
theorem Atoi_bytes (s : GoString) (n : Int) (h : Atoi s = some n) :
    s ≠ [] ∧ ∀ c ∈ s, 43 ≤ c ∧ c ≤ 57 := by
  unfold Atoi at h
  simp only [] at h
  split at h
  · simp at h
  · rename_i hne
    split at h
    · simp at h
    · rename_i v hv
      have hd := digitsValue_bytes _ _ _ hv
      rcases splitSign_cases s with ⟨c, hc, hs⟩ | hs
      · refine ⟨by rw [hs]; simp, fun b hb => ?_⟩
        rw [hs] at hb
        simp only [List.mem_cons] at hb
        rcases hb with rfl | hb
        · omega
        · have := hd b hb
          omega
      · rw [hs] at hd hne
        refine ⟨fun e => hne e, fun b hb => ?_⟩
        have := hd b hb
        omega


theorem Split_append_left (a b : GoString) (sep : Nat) (h : sep ∉ a) :
    Split (a ++ b) sep = (a ++ (Split b sep).headD []) :: (Split b sep).tail := by
  induction a with
  | nil =>
    have hne := Split_ne_nil b sep
    cases hs : Split b sep with
    | nil => exact absurd hs hne
    | cons p ps => simp [hs]
  | cons c a ih =>
    simp only [List.mem_cons, not_or] at h
    simp only [List.cons_append]
    rw [Split_cons_ne _ _ _ (Ne.symm h.1), ih h.2]
    simp

theorem rtrLine_split (host ts method path protocol status reqBytes bodyBytes referer ua remote
    dest xff proto reqid rt appid idx : GoString)
    (hhost : byte '"' ∉ host) (hts : byte '"' ∉ ts) (hmethod : byte '"' ∉ method)
    (hpath : byte '"' ∉ path) (hprotocol : byte '"' ∉ protocol) (hstatus : byte '"' ∉ status)
    (hreq : byte '"' ∉ reqBytes) (hbody : byte '"' ∉ bodyBytes) (hreferer : byte '"' ∉ referer)
    (hua : byte '"' ∉ ua) (hremote : byte '"' ∉ remote) (hdest : byte '"' ∉ dest)
    (hxff : byte '"' ∉ xff) (hproto : byte '"' ∉ proto) (hreqid : byte '"' ∉ reqid)
    (hrt : byte '"' ∉ rt) (happid : byte '"' ∉ appid) (hidx : byte '"' ∉ idx) :
    Split (rtrLine host ts method path protocol status reqBytes bodyBytes referer ua remote dest
        xff proto reqid rt appid idx) (byte '"') =
      [host ++ (lit " - [" ++ (ts ++ lit "] ")),
       method ++ (lit " " ++ (path ++ (lit " " ++ protocol))),
       lit " " ++ (status ++ (lit " " ++ (reqBytes ++ (lit " " ++ (bodyBytes ++ lit " "))))),
       referer, lit " ", ua, lit " ", remote, lit " ", dest, lit " x_forwarded_for:", xff,
       lit " x_forwarded_proto:", proto, lit " vcap_request_id:", reqid,
       lit " response_time:" ++ (rt ++ lit " app_id:"), appid, lit " app_index:", idx, []] := by
  have h1 : byte '"' ∉ lit " - [" := by decide
  have h2 : byte '"' ∉ lit "] " := by decide
  have h3 : byte '"' ∉ lit " " := by decide
  have h4 : byte '"' ∉ lit " x_forwarded_for:" := by decide
  have h5 : byte '"' ∉ lit " x_forwarded_proto:" := by decide
  have h6 : byte '"' ∉ lit " vcap_request_id:" := by decide
  have h7 : byte '"' ∉ lit " response_time:" := by decide
  have h8 : byte '"' ∉ lit " app_id:" := by decide
  have h9 : byte '"' ∉ lit " app_index:" := by decide
  simp only [rtrLine, quoted, List.append_assoc, List.cons_append, List.nil_append]
  simp (disch := assumption) only [Split_append_left, Split_cons_sep, Split_nil, List.headD_cons,
    List.tail_cons, List.append_nil]


theorem trimLeft_spaces (sp s : GoString) (h : ∀ c ∈ sp, asciiSpace c = true) :
    trimLeft (sp ++ s) = trimLeft s := by
  induction sp with
  | nil => rfl
  | cons c sp ih =>
    rw [List.cons_append, trimLeft_cons_space _ _ (h c (List.mem_cons_self _ _))]
    exact ih fun d hd => h d (List.mem_cons_of_mem _ hd)

theorem trimRightRev_spaces (sp s : GoString) (h : ∀ c ∈ sp, asciiSpace c = true) :
    trimRightRev (sp ++ s) = trimRightRev s := by
  induction sp with
  | nil => rfl
  | cons c sp ih =>
    rw [List.cons_append, trimRightRev_cons_space _ _ (h c (List.mem_cons_self _ _))]
    exact ih fun d hd => h d (List.mem_cons_of_mem _ hd)

/-- The function `TrimSpace` on a core between ASCII spaces, when the core has no white space at
either end. -/
theorem TrimSpace_core (sp1 core sp2 : GoString) (h1 : ∀ c ∈ sp1, asciiSpace c = true)
    (h2 : ∀ c ∈ sp2, asciiSpace c = true) (hl : trimLeft (core ++ sp2) = core ++ sp2)
    (hr : trimRightRev core.reverse = core.reverse) :
    TrimSpace (sp1 ++ (core ++ sp2)) = core := by
  apply TrimSpace_of _ (core ++ sp2)
  · rw [trimLeft_spaces _ _ h1, hl]
  · rw [List.reverse_append, trimRightRev_spaces _ _ (by simpa using h2), hr]

theorem segment0_trim (host ts : GoString) (hhost : IsToken host) :
    TrimSpace (host ++ (lit " - [" ++ (ts ++ lit "] "))) =
      host ++ (lit " - [" ++ (ts ++ lit "]")) := by
  have e : host ++ (lit " - [" ++ (ts ++ lit "] ")) =
      [] ++ ((host ++ (lit " - [" ++ (ts ++ lit "]"))) ++ lit " ") := by
    rw [show lit "] " = lit "]" ++ lit " " from by decide]
    simp only [List.nil_append, List.append_assoc]
  rw [e]
  apply TrimSpace_core
  · intro c hc; simp at hc
  · decide
  · have : (host ++ (lit " - [" ++ (ts ++ lit "]"))) ++ lit " " =
        host ++ 32 :: (lit "- [" ++ (ts ++ (lit "]" ++ lit " "))) := by
      rw [show lit " - [" = 32 :: lit "- [" from by decide]
      simp only [List.append_assoc, List.cons_append]
    rw [this]
    exact trimLeft_append_ascii _ _ _ hhost.1 (TrimSpace_fixed _ hhost.2.2.2).1 (by decide)
  · have : (host ++ (lit " - [" ++ (ts ++ lit "]"))).reverse =
        93 :: (ts.reverse ++ ((lit " - [").reverse ++ host.reverse)) := by
      rw [show lit "]" = [93] from by decide]
      simp only [List.reverse_append, List.reverse_cons, List.reverse_nil, List.nil_append,
        List.append_assoc, List.singleton_append, List.cons_append]
    rw [this]
    exact trimRightRev_cons_ascii _ _ (by decide) (by decide)

theorem segment1_trim (method path protocol : GoString) (hmethod : IsToken method)
    (hprotocol : IsToken protocol) :
    TrimSpace (method ++ (lit " " ++ (path ++ (lit " " ++ protocol)))) =
      method ++ (lit " " ++ (path ++ (lit " " ++ protocol))) := by
  have e : method ++ (lit " " ++ (path ++ (lit " " ++ protocol))) =
      [] ++ ((method ++ (lit " " ++ (path ++ (lit " " ++ protocol)))) ++ []) := by
    simp only [List.nil_append, List.append_nil]
  conv_lhs => rw [e]
  apply TrimSpace_core
  · intro c hc; simp at hc
  · intro c hc; simp at hc
  · rw [List.append_nil, show lit " " = [32] from by decide]
    simp only [List.singleton_append]
    exact trimLeft_append_ascii _ _ _ hmethod.1 (TrimSpace_fixed _ hmethod.2.2.2).1 (by decide)
  · have : (method ++ (lit " " ++ (path ++ (lit " " ++ protocol)))).reverse =
        protocol.reverse ++ 32 :: (path.reverse ++ ((lit " ").reverse ++ method.reverse)) := by
      rw [show lit " " = [32] from by decide]
      simp only [List.reverse_append, List.reverse_cons, List.reverse_nil, List.nil_append,
        List.append_assoc, List.singleton_append, List.cons_append]
    rw [this]
    exact trimRightRev_append_ascii _ _ _ (by simpa using hprotocol.1)
      (TrimSpace_fixed _ hprotocol.2.2.2).2 (by decide)

theorem segment2_trim (status reqBytes bodyBytes : GoString) (n : Int)
    (hstatus : Atoi status = some n) (hbody : IsToken bodyBytes) :
    TrimSpace (lit " " ++ (status ++ (lit " " ++ (reqBytes ++ (lit " " ++
        (bodyBytes ++ lit " ")))))) =
      status ++ (lit " " ++ (reqBytes ++ (lit " " ++ bodyBytes))) := by
  have e : lit " " ++ (status ++ (lit " " ++ (reqBytes ++ (lit " " ++ (bodyBytes ++ lit " "))))) =
      lit " " ++ ((status ++ (lit " " ++ (reqBytes ++ (lit " " ++ bodyBytes)))) ++ lit " ") := by
    simp only [List.append_assoc]
  rw [e]
  apply TrimSpace_core
  · decide
  · decide
  · obtain ⟨hne, hb⟩ := Atoi_bytes status n hstatus
    match status, hne, hb with
    | c :: rest, _, hb =>
      have := hb c (List.mem_cons_self _ _)
      simp only [List.cons_append]
      apply trimLeft_cons_ascii _ _ (by omega)
      simp only [asciiSpace, Bool.or_eq_false_iff, beq_eq_false_iff_ne]
      omega
  · have : (status ++ (lit " " ++ (reqBytes ++ (lit " " ++ bodyBytes)))).reverse =
        bodyBytes.reverse ++ 32 :: (reqBytes.reverse ++ ((lit " ").reverse ++ status.reverse)) := by
      rw [show lit " " = [32] from by decide]
      simp only [List.reverse_append, List.reverse_cons, List.reverse_nil, List.nil_append,
        List.append_assoc, List.singleton_append, List.cons_append]
    rw [this]
    exact trimRightRev_append_ascii _ _ _ (by simpa using hbody.1)
      (TrimSpace_fixed _ hbody.2.2.2).2 (by decide)

theorem segment16_trim (rt : GoString) :
    TrimSpace (lit " response_time:" ++ (rt ++ lit " app_id:")) =
      lit "response_time:" ++ (rt ++ lit " app_id:") := by
  have e : lit " response_time:" ++ (rt ++ lit " app_id:") =
      lit " " ++ ((lit "response_time:" ++ (rt ++ lit " app_id:")) ++ []) := by
    rw [show lit " response_time:" = lit " " ++ lit "response_time:" from by decide]
    simp only [List.append_assoc, List.append_nil]
  rw [e]
  apply TrimSpace_core
  · decide
  · intro c hc; simp at hc
  · rw [List.append_nil, show lit "response_time:" = 114 :: lit "esponse_time:" from by decide]
    simp only [List.cons_append]
    exact trimLeft_cons_ascii _ _ (by decide) (by decide)
  · have : (lit "response_time:" ++ (rt ++ lit " app_id:")).reverse =
        58 :: ((lit " app_id").reverse ++ (rt.reverse ++ (lit "response_time:").reverse)) := by
      rw [show lit " app_id:" = lit " app_id" ++ [58] from by decide]
      simp only [List.reverse_append, List.reverse_cons, List.reverse_nil, List.nil_append,
        List.append_assoc, List.singleton_append, List.cons_append]
    rw [this]
    exact trimRightRev_cons_ascii _ _ (by decide) (by decide)


theorem tokens_three (a b c : GoString) (ha : byte ' ' ∉ a) (hb : byte ' ' ∉ b)
    (hc : byte ' ' ∉ c) :
    Split (a ++ (lit " " ++ (b ++ (lit " " ++ c)))) (byte ' ') = [a, b, c] := by
  rw [show lit " " = [byte ' '] from by decide]
  simp only [List.singleton_append]
  rw [Split_append _ _ _ ha, Split_append _ _ _ hb, Split_of_not_mem _ _ hc]

theorem tokens_segment0 (host ts : GoString) (hhost : byte ' ' ∉ host) (hts : byte ' ' ∉ ts) :
    Split (host ++ (lit " - [" ++ (ts ++ lit "]"))) (byte ' ') =
      [host, lit "-", lit "[" ++ (ts ++ lit "]")] := by
  have e : host ++ (lit " - [" ++ (ts ++ lit "]")) =
      host ++ (lit " " ++ (lit "-" ++ (lit " " ++ (lit "[" ++ (ts ++ lit "]"))))) := by
    rw [show lit " - [" = lit " " ++ (lit "-" ++ (lit " " ++ lit "[")) from by decide]
    simp only [List.append_assoc]
  rw [e]
  apply tokens_three _ _ _ hhost (by decide)
  simp only [List.mem_append, not_or]
  exact ⟨by decide, hts, by decide⟩

theorem tokens_segment16 (rt : GoString) (hrt : byte ' ' ∉ rt) :
    Split (lit "response_time:" ++ (rt ++ lit " app_id:")) (byte ' ') =
      [lit "response_time:" ++ rt, lit "app_id:"] := by
  have e : lit "response_time:" ++ (rt ++ lit " app_id:") =
      (lit "response_time:" ++ rt) ++ byte ' ' :: lit "app_id:" := by
    rw [show lit " app_id:" = byte ' ' :: lit "app_id:" from by decide]
    simp only [List.append_assoc]
  rw [e, Split_append _ _ _ (by
    simp only [List.mem_append, not_or]
    exact ⟨by decide, hrt⟩), Split_of_not_mem _ _ (by decide)]

theorem response_time_value (rt : GoString) (hrt : byte ':' ∉ rt) :
    Split (lit "response_time:" ++ rt) (byte ':') = [lit "response_time", rt] := by
  have e : lit "response_time:" ++ rt = lit "response_time" ++ byte ':' :: rt := by
    rw [show lit "response_time:" = lit "response_time" ++ [byte ':'] from by decide]
    simp only [List.append_assoc, List.singleton_append]
  rw [e, Split_append _ _ _ (by decide), Split_of_not_mem _ _ hrt]

theorem Contains_append_self (a s : GoString) : Contains (a ++ s) a = true := by
  match h : a ++ s with
  | [] =>
    have : a = [] := (List.append_eq_nil.mp h).1
    subst this
    rfl
  | c :: r =>
    simp only [Contains, Bool.or_eq_true, List.isPrefixOf_iff_prefix]
    left
    rw [← h]
    exact List.prefix_append a s

theorem inner_brackets (ts : GoString) : inner (lit "[" ++ (ts ++ lit "]")) = ts := by
  unfold inner
  rw [show lit "[" = [91] from by decide, show lit "]" = [93] from by decide]
  simp only [List.singleton_append, List.length_cons, List.length_append, List.length_nil,
    Nat.add_sub_cancel, List.drop_succ_cons, List.drop_zero]
  have : ts.length + (0 + 1) = (ts.length) + 1 := by omega
  rw [this, List.take_succ_cons, List.drop_succ_cons, List.drop_zero]
  simp


/-- Claim C2, amended: the round trip on the wire format. When host, method, path, protocol,
request bytes and body bytes are tokens, the status is accepted by `Atoi` as the integer `n`
(an optional sign, decimal digits, a value in the range of `int`), `ts` is accepted by the
layout as `t`, the quoted fields have no quote and no white space at either end, `xff` has no
comma either, `proto` is `http` or `https`, and `rt` is accepted by `ParseFloat` as `f` (and has
no space, quote or colon), `ParseRtr` on the line succeeds and returns the record of these
fields, with timestamp `t`, success flag `n < 400` and response time the duration of `f`. -/
theorem ParseRtr_round_trip (lib : StdLib)
    (host ts method path protocol status reqBytes bodyBytes referer ua remote dest xff proto
      reqid rt appid idx : GoString) (t : Time) (n : Int) (f : Float64)
    (hhost : IsToken host) (hmethod : IsToken method) (hpath : IsToken path)
    (hprotocol : IsToken protocol) (hreq : IsToken reqBytes) (hbody : IsToken bodyBytes)
    (hstatus : Atoi status = some n)
    (hts : lib.timeParse ts = Except.ok t ∧ byte ' ' ∉ ts ∧ byte '"' ∉ ts)
    (hreferer : IsField referer) (hua : IsField ua) (hremote : IsField remote)
    (hdest : IsField dest) (hreqid : IsField reqid) (happid : IsField appid)
    (hidx : IsField idx) (hxff : IsField xff ∧ byte ',' ∉ xff)
    (hproto : proto = lit "http" ∨ proto = lit "https")
    (hrt : lib.parseFloat rt = Except.ok f ∧ byte ' ' ∉ rt ∧ byte '"' ∉ rt ∧ byte ':' ∉ rt) :
    ParseRtr lib (rtrLine host ts method path protocol status reqBytes bodyBytes referer ua
        remote dest xff proto reqid rt appid idx) =
      Outcome.record
        { host := host, timestamp := t, method := method, path := path, protocol := protocol,
          statusCode := status, requestBytesReceived := reqBytes, bodyBytesSent := bodyBytes,
          referer := referer, userAgent := ua, remoteAddr := remote, destIpAndPort := dest,
          xForwardedFor := xff, xForwardedProto := proto, vcapRequestId := reqid,
          responseTime := lib.toDuration f, appId := appid, appIndex := idx,
          isSuccess := decide (n < 400) } := by
  obtain ⟨hsne, hsb⟩ := Atoi_bytes status n hstatus
  have hs34 : byte '"' ∉ status := fun h => by
    have := hsb _ h
    simp only [byte] at this
    revert this
    decide
  have hs32 : byte ' ' ∉ status := fun h => by
    have := hsb _ h
    revert this
    decide
  have hp34 : byte '"' ∉ proto := by
    rcases hproto with rfl | rfl <;> decide
  have hpt : TrimSpace proto = proto := by
    rcases hproto with rfl | rfl <;> decide
  have hsplit := rtrLine_split host ts method path protocol status reqBytes bodyBytes referer ua
    remote dest xff proto reqid rt appid idx hhost.2.2.1 hts.2.2 hmethod.2.2.1 hpath.2.2.1
    hprotocol.2.2.1 hs34 hreq.2.2.1 hbody.2.2.1 hreferer.1 hua.1 hremote.1 hdest.1 hxff.1.1 hp34
    hreqid.1 hrt.2.2.1 happid.1 hidx.1
  have hseg : segments (rtrLine host ts method path protocol status reqBytes bodyBytes referer ua
      remote dest xff proto reqid rt appid idx) =
      [host ++ (lit " - [" ++ (ts ++ lit "]")),
       method ++ (lit " " ++ (path ++ (lit " " ++ protocol))),
       status ++ (lit " " ++ (reqBytes ++ (lit " " ++ bodyBytes))),
       referer, [], ua, [], remote, [], dest, lit "x_forwarded_for:", xff,
       lit "x_forwarded_proto:", proto, lit "vcap_request_id:", reqid,
       lit "response_time:" ++ (rt ++ lit " app_id:"), appid, lit "app_index:", idx, []] := by
    unfold segments
    rw [hsplit]
    simp only [List.map_cons, List.map_nil, segment0_trim host ts hhost,
      segment1_trim method path protocol hmethod hprotocol,
      segment2_trim status reqBytes bodyBytes n hstatus hbody, segment16_trim rt,
      hreferer.2, hua.2, hremote.2, hdest.2, hxff.1.2, hpt, hreqid.2, happid.2, hidx.2,
      show TrimSpace (lit " ") = [] from by decide,
      show TrimSpace (lit " x_forwarded_for:") = lit "x_forwarded_for:" from by decide,
      show TrimSpace (lit " x_forwarded_proto:") = lit "x_forwarded_proto:" from by decide,
      show TrimSpace (lit " vcap_request_id:") = lit "vcap_request_id:" from by decide,
      show TrimSpace (lit " app_index:") = lit "app_index:" from by decide,
      show TrimSpace [] = [] from by decide]
  rw [ParseRtr_record_iff]
  simp only [segment, hseg, List.getD_cons_zero, List.getD_cons_succ, List.length_cons,
    List.length_nil, token, tokens, tokens_segment0 host ts hhost.2.1 hts.2.1,
    tokens_three method path protocol hmethod.2.1 hpath.2.1 hprotocol.2.1,
    tokens_three status reqBytes bodyBytes hs32 hreq.2.1 hbody.2.1,
    tokens_segment16 rt hrt.2.1, response_time_value rt hrt.2.2.2, inner_brackets,
    Contains_append_self, Split_of_not_mem xff _ hxff.2, if_true]
  refine ⟨by omega, by omega, ?_, t, hts.1, by omega, n, hstatus, by omega, by decide, hproto,
    by decide, lib.toDuration f, ⟨f, hrt.1, rfl⟩, by omega, by decide, by decide, rfl⟩
  simp only [List.length_append]
  have h1 : (lit "[").length = 1 := by decide
  have h2 : (lit "]").length = 1 := by decide
  omega


set_option maxRecDepth 100000 in
/-- The round trip at the fields of the well-formed line. -/
theorem ParseRtr_round_trip_witness :
    (IsToken (lit "www.example.com") ∧ IsToken (lit "GET") ∧ IsToken (lit "/path") ∧
      IsToken (lit "HTTP/1.1") ∧ IsToken (lit "0") ∧ IsToken (lit "1234") ∧
      Atoi (lit "200") = some 200 ∧
      refLib.timeParse (lit "2017-01-01T12:00:00.000+0000") =
        Except.ok { year := 2017, month := 1, day := 1, hour := 12, minute := 0, second := 0,
                    nanosecond := 0, zoneOffset := 0 } ∧
      IsField (lit "-") ∧ IsField (lit "Mozilla/5.0") ∧ IsField (lit "10.0.0.1:1234") ∧
      IsField (lit "10.0.1.2:61000") ∧ IsField (lit "abc-123") ∧ IsField (lit "app-guid") ∧
      IsField (lit "10.0.0.1") ∧
      refLib.parseFloat (lit "0.001500") = Except.ok { bits := 4564560351926583034 }) ∧
    ParseRtr refLib goldenLine =
      Outcome.record
        { host := lit "www.example.com",
          timestamp := { year := 2017, month := 1, day := 1, hour := 12, minute := 0,
                         second := 0, nanosecond := 0, zoneOffset := 0 },
          method := lit "GET", path := lit "/path", protocol := lit "HTTP/1.1",
          statusCode := lit "200", requestBytesReceived := lit "0",
          bodyBytesSent := lit "1234", referer := lit "-", userAgent := lit "Mozilla/5.0",
          remoteAddr := lit "10.0.0.1:1234", destIpAndPort := lit "10.0.1.2:61000",
          xForwardedFor := lit "10.0.0.1", xForwardedProto := lit "https",
          vcapRequestId := lit "abc-123",
          responseTime := refLib.toDuration { bits := 4564560351926583034 },
          appId := lit "app-guid", appIndex := lit "0", isSuccess := decide ((200 : Int) < 400) } :=
  ⟨by decide,
   ParseRtr_round_trip refLib (lit "www.example.com") (lit "2017-01-01T12:00:00.000+0000")
     (lit "GET") (lit "/path") (lit "HTTP/1.1") (lit "200") (lit "0") (lit "1234") (lit "-")
     (lit "Mozilla/5.0") (lit "10.0.0.1:1234") (lit "10.0.1.2:61000") (lit "10.0.0.1")
     (lit "https") (lit "abc-123") (lit "0.001500") (lit "app-guid") (lit "0")
     { year := 2017, month := 1, day := 1, hour := 12, minute := 0, second := 0,
       nanosecond := 0, zoneOffset := 0 }
     200 { bits := 4564560351926583034 }
     (by decide) (by decide) (by decide) (by decide) (by decide) (by decide) (by decide)
     (by decide) (by decide) (by decide) (by decide) (by decide) (by decide) (by decide)
     (by decide) (by decide) (by decide) (by decide)⟩

set_option maxRecDepth 100000 in
/-- Claim C2 as stated fails: the well-formed line with the status `9223372036854775808`, a
decimal integer, is rejected with the error of the status check, as `Atoi` does not accept an
integer outside the range of `int`. -/
theorem ParseRtr_round_trip_fails_on_huge_status :
    (lit "9223372036854775808").all isDigit = true ∧
    IsToken (lit "9223372036854775808") ∧
    ParseRtr refLib hugeStatusLine =
      Outcome.failure
        { RtrMessage.zero with
          host := lit "www.example.com",
          timestamp := { year := 2017, month := 1, day := 1, hour := 12, minute := 0,
                         second := 0, nanosecond := 0, zoneOffset := 0 },
          method := lit "GET", path := lit "/path", protocol := lit "HTTP/1.1",
          statusCode := lit "9223372036854775808" }
        (lit "Error parsing success: [9223372036854775808 0 1234]") := by
  decide

/-! ## The pieces of a split and of a trim -/

theorem Split_mem_not_sep (s : GoString) (sep : Nat) :
    ∀ p ∈ Split s sep, sep ∉ p := by
  induction s with
  | nil => simp [Split]
  | cons c rest ih =>
    by_cases h : c = sep
    · subst h
      rw [Split_cons_sep]
      intro p hp
      simp only [List.mem_cons] at hp
      rcases hp with rfl | hp
      · simp
      · exact ih p hp
    · rw [Split_cons_ne _ _ _ h]
      have hne := Split_ne_nil rest sep
      cases hs : Split rest sep with
      | nil => exact absurd hs hne
      | cons piece pieces =>
        rw [hs] at ih
        intro p hp
        simp only [List.headD_cons, List.tail_cons, List.mem_cons] at hp
        rcases hp with rfl | hp
        · simp only [List.mem_cons, not_or]
          exact ⟨Ne.symm h, ih piece (List.mem_cons_self _ _)⟩
        · exact ih p (List.mem_cons_of_mem _ hp)

theorem Split_mem_subset (s : GoString) (sep : Nat) :
    ∀ p ∈ Split s sep, ∀ c ∈ p, c ∈ s := by
  induction s with
  | nil => simp [Split]
  | cons c rest ih =>
    by_cases h : c = sep
    · subst h
      rw [Split_cons_sep]
      intro p hp
      simp only [List.mem_cons] at hp
      rcases hp with rfl | hp
      · simp
      · exact fun d hd => List.mem_cons_of_mem _ (ih p hp d hd)
    · rw [Split_cons_ne _ _ _ h]
      have hne := Split_ne_nil rest sep
      cases hs : Split rest sep with
      | nil => exact absurd hs hne
      | cons piece pieces =>
        rw [hs] at ih
        intro p hp
        simp only [List.headD_cons, List.tail_cons, List.mem_cons] at hp
        rcases hp with rfl | hp
        · intro d hd
          simp only [List.mem_cons] at hd ⊢
          rcases hd with rfl | hd
          · exact Or.inl rfl
          · exact Or.inr (ih piece (List.mem_cons_self _ _) d hd)
        · exact fun d hd => List.mem_cons_of_mem _ (ih p (List.mem_cons_of_mem _ hp) d hd)

/-- The first piece of a split is the string up to its first separator. -/
theorem Split_first (s : GoString) (sep : Nat) :
    (Split s sep).getD 0 [] = s.takeWhile (fun c => decide (c ≠ sep)) := by
  induction s with
  | nil => rfl
  | cons c rest ih =>
    by_cases h : c = sep
    · subst h
      rw [Split_cons_sep]
      simp
    · rw [Split_cons_ne _ _ _ h]
      have hne := Split_ne_nil rest sep
      cases hs : Split rest sep with
      | nil => exact absurd hs hne
      | cons piece pieces =>
        rw [hs] at ih
        simp only [List.getD_cons_zero] at ih
        simp [List.takeWhile_cons, h, ih]

theorem getD_mem_or_nil (xs : List GoString) (i : Nat) :
    xs.getD i [] ∈ xs ∨ xs.getD i [] = [] := by
  by_cases h : i < xs.length
  · left
    rw [List.getD_eq_getElem _ _ h]
    exact List.getElem_mem _
  · right
    exact List.getD_eq_default _ _ (by omega)

/-- No piece of a split holds the separator, whatever its index. -/
theorem Split_getD_not_sep (s : GoString) (sep : Nat) (i : Nat) :
    sep ∉ (Split s sep).getD i [] := by
  rcases getD_mem_or_nil (Split s sep) i with h | h
  · exact Split_mem_not_sep s sep _ h
  · rw [h]; simp

theorem Split_getD_subset (s : GoString) (sep : Nat) (i : Nat) :
    ∀ c ∈ (Split s sep).getD i [], c ∈ s := by
  rcases getD_mem_or_nil (Split s sep) i with h | h
  · exact Split_mem_subset s sep _ h
  · rw [h]; simp

/-- The function `TrimSpace` returns a contiguous block of its argument. -/
theorem TrimSpace_block (s : GoString) : TrimSpace s <:+: s := by
  unfold TrimSpace
  have h1 := trimLeft_suffix s
  have h2 := trimRightRev_suffix (trimLeft s).reverse
  have h3 := List.reverse_prefix.mpr h2
  rw [List.reverse_reverse] at h3
  exact h3.isInfix.trans h1.isInfix

theorem TrimSpace_subset (s : GoString) : ∀ c ∈ TrimSpace s, c ∈ s :=
  fun _ hc => (TrimSpace_block s).subset hc

/-! ## The fields of a record -/

/-- Every record that the parser returns has the first token of the trimmed segment 2 as status
code; `Atoi` accepts it, and the success flag says whether its value is below 400. -/
theorem ParseRtr_record_status (lib : StdLib) (log : GoString) (m : RtrMessage)
    (h : ParseRtr lib log = Outcome.record m) :
    m.statusCode = token (segment log 2) 0 ∧
      ∃ n : Int, Atoi m.statusCode = some n ∧ (m.isSuccess = true ↔ n < 400) := by
  rw [ParseRtr_record_iff] at h
  obtain ⟨_, _, _, t, _, _, n, hn, _, _, _, _, d, _, _, _, _, rfl⟩ := h
  exact ⟨rfl, n, hn, by simp⟩

/-- Outside the lines on which the slice of line 168 panics, a status that `Atoi` rejects, or a
segment 2 of fewer than three tokens, makes the parser return an error. -/
theorem ParseRtr_bad_status (lib : StdLib) (log : GoString)
    (hslice : 3 ≤ (tokens (segment log 0)).length → 2 ≤ (token (segment log 0) 2).length)
    (hbad : Atoi (token (segment log 2) 0) = none ∨ (tokens (segment log 2)).length < 3) :
    ∃ msg err, ParseRtr lib log = Outcome.failure msg err := by
  apply ParseRtr_failure_of_not_record lib log hslice
  intro m hm
  rw [ParseRtr_record_iff] at hm
  obtain ⟨_, _, _, t, _, _, n, hn, h3, _⟩ := hm
  rcases hbad with h | h
  · rw [h] at hn; exact absurd hn (by simp)
  · omega

/-- The status codes around the limit: 399 and the signed codes `-1` and `+200` are below 400,
400 is not. -/
theorem Atoi_status_examples :
    Atoi (lit "399") = some 399 ∧ Atoi (lit "400") = some 400 ∧ Atoi (lit "-1") = some (-1) ∧
      Atoi (lit "+200") = some 200 ∧ Atoi (lit "abc") = none ∧ Atoi (lit "") = none := by
  decide

/-- Claim C11, at a line the code can receive: the line has 21 segments and the first token of
its trimmed segment 2 is `abc`, which is no integer, yet `ParseRtr` returns no error; it aborts
in the slice of line 168 before it reaches the check of the status. -/
theorem ParseRtr_bad_status_aborts (lib : StdLib) :
    (segments badStatusOneByteTimestampLine).length = 21 ∧
      token (segment badStatusOneByteTimestampLine 2) 0 = lit "abc" ∧
      Atoi (token (segment badStatusOneByteTimestampLine 2) 0) = none ∧
      ParseRtr lib badStatusOneByteTimestampLine = Outcome.abort :=
  ⟨by decide, by decide, by decide, (ParseRtr_abort_iff lib _).mpr (by decide)⟩

/-- Claim C12: on every line on which `ParseRtr` succeeds, the forwarded-for address is the first
piece of the trimmed segment 11 split on commas, that is the segment up to its first comma, the
whole of it when it has none; it holds no comma. -/
theorem ParseRtr_record_forwarded_for (lib : StdLib) (log : GoString) (m : RtrMessage)
    (h : ParseRtr lib log = Outcome.record m) :
    m.xForwardedFor = (Split (segment log 11) (byte ',')).getD 0 [] ∧
      m.xForwardedFor = (segment log 11).takeWhile (fun c => decide (c ≠ byte ',')) ∧
      (byte ',' ∉ segment log 11 → m.xForwardedFor = segment log 11) ∧
      byte ',' ∉ m.xForwardedFor := by
  rw [ParseRtr_record_iff] at h
  obtain ⟨_, _, _, t, _, _, n, _, _, _, _, _, d, _, _, _, _, rfl⟩ := h
  refine ⟨rfl, Split_first _ _, fun hc => ?_, Split_getD_not_sep _ _ _⟩
  show (Split (segment log 11) (byte ',')).getD 0 [] = segment log 11
  rw [Split_of_not_mem _ _ hc]
  rfl

set_option maxRecDepth 100000 in
/-- The forwarded-for list `10.0.0.1, 10.0.0.2` yields `10.0.0.1`. -/
theorem ParseRtr_record_forwarded_for_witness :
    (ParseRtr refLib forwardedListLine = Outcome.record goldenRecord ∧
      segment forwardedListLine 11 = lit "10.0.0.1, 10.0.0.2" ∧
      goldenRecord.xForwardedFor = lit "10.0.0.1") ∧
    (goldenRecord.xForwardedFor = (Split (segment forwardedListLine 11) (byte ',')).getD 0 [] ∧
      goldenRecord.xForwardedFor =
        (segment forwardedListLine 11).takeWhile (fun c => decide (c ≠ byte ',')) ∧
      (byte ',' ∉ segment forwardedListLine 11 →
        goldenRecord.xForwardedFor = segment forwardedListLine 11) ∧
      byte ',' ∉ goldenRecord.xForwardedFor) :=
  ⟨by decide, ParseRtr_record_forwarded_for refLib forwardedListLine goldenRecord (by decide)⟩

theorem token_no_space (s : GoString) (i : Nat) : byte ' ' ∉ token s i :=
  Split_getD_not_sep s (byte ' ') i

theorem segment_no_quote (log : GoString) (i : Nat) : byte '"' ∉ segment log i := by
  unfold segment segments
  rw [List.getD_eq_getElem?_getD, List.getElem?_map]
  cases h : (Split log (byte '"'))[i]? with
  | none => simp
  | some p =>
    simp only [Option.map_some', Option.getD_some]
    intro hc
    have h1 := TrimSpace_subset p _ hc
    have h2 : p ∈ Split log (byte '"') := List.getElem?_mem h
    exact Split_mem_not_sep _ _ p h2 h1

theorem token_no_quote (log : GoString) (i j : Nat) : byte '"' ∉ token (segment log i) j :=
  fun h => segment_no_quote log i (Split_getD_subset _ _ _ _ h)

theorem segment_eq_trim (log : GoString) (i : Nat) :
    segment log i = TrimSpace ((Split log (byte '"')).getD i []) ∨
      (Split log (byte '"')).length ≤ i := by
  by_cases h : i < (Split log (byte '"')).length
  · left
    unfold segment segments
    rw [List.getD_eq_getElem _ _ (by rw [List.length_map]; exact h), List.getD_eq_getElem _ _ h,
      List.getElem_map]
  · right
    omega

/-- Claim C17: on every line on which `ParseRtr` succeeds, referer, user agent, remote address,
destination, request id, application id and application index are the pieces 3, 5, 7, 9, 15, 17
and 19 of the line split on the quote, each trimmed by `TrimSpace`, hence a contiguous block of
the piece; host, method, path and protocol are token 0 of segment 0 and tokens 0, 1, 2 of
segment 1, and none of them holds a space or a quote. -/
theorem ParseRtr_record_fields (lib : StdLib) (log : GoString) (m : RtrMessage)
    (h : ParseRtr lib log = Outcome.record m) :
    (m.referer = TrimSpace ((Split log (byte '"')).getD 3 []) ∧
      m.userAgent = TrimSpace ((Split log (byte '"')).getD 5 []) ∧
      m.remoteAddr = TrimSpace ((Split log (byte '"')).getD 7 []) ∧
      m.destIpAndPort = TrimSpace ((Split log (byte '"')).getD 9 []) ∧
      m.vcapRequestId = TrimSpace ((Split log (byte '"')).getD 15 []) ∧
      m.appId = TrimSpace ((Split log (byte '"')).getD 17 []) ∧
      m.appIndex = TrimSpace ((Split log (byte '"')).getD 19 [])) ∧
    (m.referer <:+: (Split log (byte '"')).getD 3 [] ∧
      m.userAgent <:+: (Split log (byte '"')).getD 5 [] ∧
      m.remoteAddr <:+: (Split log (byte '"')).getD 7 [] ∧
      m.destIpAndPort <:+: (Split log (byte '"')).getD 9 [] ∧
      m.vcapRequestId <:+: (Split log (byte '"')).getD 15 [] ∧
      m.appId <:+: (Split log (byte '"')).getD 17 [] ∧
      m.appIndex <:+: (Split log (byte '"')).getD 19 []) ∧
    (m.host = token (segment log 0) 0 ∧ m.method = token (segment log 1) 0 ∧
      m.path = token (segment log 1) 1 ∧ m.protocol = token (segment log 1) 2) ∧
    (byte ' ' ∉ m.host ∧ byte '"' ∉ m.host ∧ byte ' ' ∉ m.method ∧ byte '"' ∉ m.method ∧
      byte ' ' ∉ m.path ∧ byte '"' ∉ m.path ∧ byte ' ' ∉ m.protocol ∧
      byte '"' ∉ m.protocol) := by
  rw [ParseRtr_record_iff] at h
  obtain ⟨h20, _, _, t, _, _, n, _, _, _, _, _, d, _, _, _, _, rfl⟩ := h
  have hlen : 20 ≤ (Split log (byte '"')).length := by
    unfold segments at h20; rwa [List.length_map] at h20
  have e : ∀ i, i < 20 → segment log i = TrimSpace ((Split log (byte '"')).getD i []) := by
    intro i hi
    rcases segment_eq_trim log i with h | h
    · exact h
    · omega
  refine ⟨⟨e 3 (by omega), e 5 (by omega), e 7 (by omega), e 9 (by omega), e 15 (by omega),
    e 17 (by omega), e 19 (by omega)⟩, ⟨?_, ?_, ?_, ?_, ?_, ?_, ?_⟩, ⟨rfl, rfl, rfl, rfl⟩,
    ⟨token_no_space _ _, token_no_quote _ _ _, token_no_space _ _, token_no_quote _ _ _,
      token_no_space _ _, token_no_quote _ _ _, token_no_space _ _, token_no_quote _ _ _⟩⟩
  · show segment log 3 <:+: _
    rw [e 3 (by omega)]; exact TrimSpace_block _
  · show segment log 5 <:+: _
    rw [e 5 (by omega)]; exact TrimSpace_block _
  · show segment log 7 <:+: _
    rw [e 7 (by omega)]; exact TrimSpace_block _
  · show segment log 9 <:+: _
    rw [e 9 (by omega)]; exact TrimSpace_block _
  · show segment log 15 <:+: _
    rw [e 15 (by omega)]; exact TrimSpace_block _
  · show segment log 17 <:+: _
    rw [e 17 (by omega)]; exact TrimSpace_block _
  · show segment log 19 <:+: _
    rw [e 19 (by omega)]; exact TrimSpace_block _

/-! ## The blocks of the parser without index expressions

On at least 20 segments every index expression of a block is in range, and the block is a chain
of checks on `strs.getD i []`. -/

theorem parseAppIndex_eq (strs : List GoString) (msg : RtrMessage) (h : 20 ≤ strs.length) :
    parseAppIndex strs msg =
      if Contains (strs.getD 18 []) (lit "app_index") = false then
        Outcome.failure msg (lit "Error parsing app index: " ++ strs.getD 18 [])
      else Outcome.record { msg with appIndex := strs.getD 19 [] } := by
  unfold parseAppIndex
  rw [index_lt _ _ _ (by omega), index_lt _ _ _ (by omega)]

theorem parseAppId_eq (strs : List GoString) (strs16 : GoString) (s : List GoString)
    (msg : RtrMessage) (h : 20 ≤ strs.length) :
    parseAppId strs strs16 s msg =
      if (decide (1 < s.length) && Contains (s.getD 1 []) (lit "app_id")) = false then
        Outcome.failure msg (lit "Error parsing app id: " ++ strs16)
      else parseAppIndex strs { msg with appId := strs.getD 17 [] } := by
  unfold parseAppId
  rw [index_lt _ _ _ (by omega)]

theorem parseResponseTime_eq (lib : StdLib) (strs : List GoString) (msg : RtrMessage)
    (h : 20 ≤ strs.length) :
    parseResponseTime lib strs msg =
      if Contains (token (strs.getD 16 []) 0) (lit "response_time:") = true then
        match lib.parseFloat ((Split (token (strs.getD 16 []) 0) (byte ':')).getD 1 []) with
        | Except.error e => Outcome.failure msg (lit "Error parsing response time: " ++ e)
        | Except.ok responseTime =>
          parseAppId strs (strs.getD 16 []) (tokens (strs.getD 16 []))
            { msg with responseTime := lib.toDuration responseTime }
      else parseAppId strs (strs.getD 16 []) (tokens (strs.getD 16 [])) msg := by
  unfold parseResponseTime
  rw [index_lt _ _ _ (by omega)]
  simp only []
  rw [index_lt _ _ _ (tokens_length_pos _)]
  unfold token tokens
  by_cases hc : Contains ((Split (strs.getD 16 []) (byte ' ')).getD 0 []) (lit "response_time:")
      = true
  · rw [if_pos hc, if_pos hc,
      index_lt _ _ _ (Split_length_of_mem _ _ (Contains_mem _ _ _ hc (by decide)))]
  · rw [if_neg hc, if_neg hc]

theorem parseRequestId_eq (lib : StdLib) (strs : List GoString) (msg : RtrMessage)
    (h : 20 ≤ strs.length) :
    parseRequestId lib strs msg =
      if Contains (strs.getD 14 []) (lit "vcap_request_id") = false then
        Outcome.failure msg (lit "Error parsing vcap_request_id: " ++ strs.getD 14 [])
      else parseResponseTime lib strs { msg with vcapRequestId := strs.getD 15 [] } := by
  unfold parseRequestId
  rw [index_lt _ _ _ (by omega), index_lt _ _ _ (by omega)]

theorem parseForwardedProto_eq (lib : StdLib) (strs : List GoString) (msg : RtrMessage)
    (h : 20 ≤ strs.length) :
    parseForwardedProto lib strs msg =
      if strs.getD 13 [] ≠ lit "http" ∧ strs.getD 13 [] ≠ lit "https" then
        Outcome.failure msg (lit "Error parsing x_forwarded_proto: " ++ strs.getD 13 [])
      else
        parseRequestId lib strs
          { msg with xForwardedProto :=
              if strs.getD 13 [] = lit "http" then lit "http" else lit "https" } := by
  unfold parseForwardedProto
  rw [index_lt _ _ _ (by omega)]

theorem parseForwardedFor_eq (lib : StdLib) (strs : List GoString) (msg : RtrMessage)
    (h : 20 ≤ strs.length) :
    parseForwardedFor lib strs msg =
      if Contains (strs.getD 10 []) (lit "x_forwarded_for") = false then
        Outcome.failure msg (lit "Error parsing x_forwarded_for: " ++ strs.getD 10 [])
      else
        parseForwardedProto lib strs
          { msg with xForwardedFor := (Split (strs.getD 11 []) (byte ',')).getD 0 [] } := by
  unfold parseForwardedFor
  rw [index_lt _ _ _ (by omega), index_lt _ _ _ (by omega),
    index_lt _ _ _ (by rw [Split_length]; omega)]

theorem parseReferer_eq (lib : StdLib) (strs : List GoString) (msg : RtrMessage)
    (h : 20 ≤ strs.length) :
    parseReferer lib strs msg =
      parseForwardedFor lib strs
        { msg with referer := strs.getD 3 [], userAgent := strs.getD 5 [],
                   remoteAddr := strs.getD 7 [], destIpAndPort := strs.getD 9 [] } := by
  unfold parseReferer
  rw [index_lt _ _ _ (by omega), index_lt _ _ _ (by omega), index_lt _ _ _ (by omega),
    index_lt _ _ _ (by omega)]

theorem parseStatus_eq (lib : StdLib) (strs : List GoString) (msg : RtrMessage)
    (h : 20 ≤ strs.length) :
    parseStatus lib strs msg =
      match Atoi (token (strs.getD 2 []) 0) with
      | none =>
        Outcome.failure { msg with statusCode := token (strs.getD 2 []) 0 }
          (lit "Error parsing success: " ++ fmtStrings (tokens (strs.getD 2 [])))
      | some n =>
        if (tokens (strs.getD 2 [])).length < 3 then
          Outcome.failure
            { msg with statusCode := token (strs.getD 2 []) 0, isSuccess := decide (n < 400) }
            (lit "Error parsing bytes received and sent: " ++
              fmtStrings (tokens (strs.getD 2 [])))
        else
          parseReferer lib strs
            { msg with statusCode := token (strs.getD 2 []) 0, isSuccess := decide (n < 400),
                       requestBytesReceived := token (strs.getD 2 []) 1,
                       bodyBytesSent := token (strs.getD 2 []) 2 } := by
  unfold parseStatus
  rw [index_lt _ _ _ (by omega)]
  simp only []
  rw [index_lt _ _ _ (tokens_length_pos _)]
  unfold token tokens
  cases ha : Atoi ((Split (strs.getD 2 []) (byte ' ')).getD 0 []) with
  | none => rfl
  | some n =>
    simp only []
    by_cases hl : (Split (strs.getD 2 []) (byte ' ')).length < 3
    · rw [if_pos hl, if_pos hl]
    · rw [if_neg hl, if_neg hl, index_lt _ _ _ (by omega), index_lt _ _ _ (by omega)]

theorem parseMethod_eq (lib : StdLib) (strs : List GoString) (msg : RtrMessage)
    (h : 20 ≤ strs.length) :
    parseMethod lib strs msg =
      if (tokens (strs.getD 1 [])).length < 3 then
        Outcome.failure { msg with method := token (strs.getD 1 []) 0 }
          (lit "Error parsing path and protocol: " ++ fmtStrings (tokens (strs.getD 1 [])))
      else
        parseStatus lib strs
          { msg with method := token (strs.getD 1 []) 0, path := token (strs.getD 1 []) 1,
                     protocol := token (strs.getD 1 []) 2 } := by
  unfold parseMethod
  rw [index_lt _ _ _ (by omega)]
  simp only []
  rw [index_lt _ _ _ (tokens_length_pos _)]
  unfold token tokens
  by_cases hl : (Split (strs.getD 1 []) (byte ' ')).length < 3
  · rw [if_pos hl, if_pos hl]
  · rw [if_neg hl, if_neg hl, index_lt _ _ _ (by omega), index_lt _ _ _ (by omega)]

theorem parseHost_eq (lib : StdLib) (strs : List GoString) (msg : RtrMessage)
    (h : 20 ≤ strs.length) :
    parseHost lib strs msg =
      if (tokens (strs.getD 0 [])).length < 3 then
        Outcome.failure { msg with host := token (strs.getD 0 []) 0 }
          (lit "Error parsing timestamp: " ++ fmtStrings (tokens (strs.getD 0 [])))
      else if (token (strs.getD 0 []) 2).length < 2 then Outcome.abort
      else
        match lib.timeParse (inner (token (strs.getD 0 []) 2)) with
        | Except.error e =>
          Outcome.failure { msg with host := token (strs.getD 0 []) 0 }
            (lit "Error parsing timestamp: " ++ e)
        | Except.ok t =>
          parseMethod lib strs { msg with host := token (strs.getD 0 []) 0, timestamp := t } := by
  unfold parseHost
  rw [index_lt _ _ _ (by omega)]
  simp only []
  rw [index_lt _ _ _ (tokens_length_pos _)]
  unfold token tokens
  by_cases hl : (Split (strs.getD 0 []) (byte ' ')).length < 3
  · rw [if_pos hl, if_pos hl]
  · rw [if_neg hl, if_neg hl, index_lt _ _ _ (by omega)]
    by_cases hs : ((Split (strs.getD 0 []) (byte ' ')).getD 2 []).length < 2
    · rw [slice_short _ _ hs, if_pos hs]
    · rw [slice_inner _ _ (by omega), if_neg hs]

/-! ## The errors of the parser -/

theorem parseAppIndex_failure (lib : StdLib) (strs : List GoString) (msg m : RtrMessage)
    (err : GoString) (h : 20 ≤ strs.length)
    (hf : parseAppIndex strs msg = Outcome.failure m err) :
    err ∈ segmentErrorTexts lib strs := by
  rw [parseAppIndex_eq _ _ h] at hf
  split at hf
  · simp only [Outcome.failure.injEq] at hf
    rw [← hf.2]
    simp only [segmentErrorTexts, List.mem_cons, true_or, or_true]
  · simp at hf

theorem parseAppId_failure (lib : StdLib) (strs : List GoString) (msg m : RtrMessage)
    (err : GoString) (h : 20 ≤ strs.length)
    (hf : parseAppId strs (strs.getD 16 []) (tokens (strs.getD 16 [])) msg =
      Outcome.failure m err) :
    err ∈ segmentErrorTexts lib strs := by
  rw [parseAppId_eq _ _ _ _ h] at hf
  split at hf
  · simp only [Outcome.failure.injEq] at hf
    rw [← hf.2]
    simp only [segmentErrorTexts, List.mem_cons, true_or, or_true]
  · exact parseAppIndex_failure lib _ _ _ _ h hf

theorem parseResponseTime_failure (lib : StdLib) (strs : List GoString) (msg m : RtrMessage)
    (err : GoString) (h : 20 ≤ strs.length)
    (hf : parseResponseTime lib strs msg = Outcome.failure m err) :
    err ∈ segmentErrorTexts lib strs := by
  rw [parseResponseTime_eq _ _ _ h] at hf
  split at hf
  · split at hf
    · rename_i e he
      simp only [Outcome.failure.injEq] at hf
      rw [← hf.2]
      simp only [segmentErrorTexts, List.mem_cons, he, errorText, true_or, or_true]
    · exact parseAppId_failure lib _ _ _ _ h hf
  · exact parseAppId_failure lib _ _ _ _ h hf

theorem parseRequestId_failure (lib : StdLib) (strs : List GoString) (msg m : RtrMessage)
    (err : GoString) (h : 20 ≤ strs.length)
    (hf : parseRequestId lib strs msg = Outcome.failure m err) :
    err ∈ segmentErrorTexts lib strs := by
  rw [parseRequestId_eq _ _ _ h] at hf
  split at hf
  · simp only [Outcome.failure.injEq] at hf
    rw [← hf.2]
    simp only [segmentErrorTexts, List.mem_cons, true_or, or_true]
  · exact parseResponseTime_failure lib _ _ _ _ h hf

theorem parseForwardedProto_failure (lib : StdLib) (strs : List GoString) (msg m : RtrMessage)
    (err : GoString) (h : 20 ≤ strs.length)
    (hf : parseForwardedProto lib strs msg = Outcome.failure m err) :
    err ∈ segmentErrorTexts lib strs := by
  rw [parseForwardedProto_eq _ _ _ h] at hf
  split at hf
  · simp only [Outcome.failure.injEq] at hf
    rw [← hf.2]
    simp only [segmentErrorTexts, List.mem_cons, true_or, or_true]
  · exact parseRequestId_failure lib _ _ _ _ h hf

theorem parseForwardedFor_failure (lib : StdLib) (strs : List GoString) (msg m : RtrMessage)
    (err : GoString) (h : 20 ≤ strs.length)
    (hf : parseForwardedFor lib strs msg = Outcome.failure m err) :
    err ∈ segmentErrorTexts lib strs := by
  rw [parseForwardedFor_eq _ _ _ h] at hf
  split at hf
  · simp only [Outcome.failure.injEq] at hf
    rw [← hf.2]
    simp only [segmentErrorTexts, List.mem_cons, true_or, or_true]
  · exact parseForwardedProto_failure lib _ _ _ _ h hf

theorem parseReferer_failure (lib : StdLib) (strs : List GoString) (msg m : RtrMessage)
    (err : GoString) (h : 20 ≤ strs.length)
    (hf : parseReferer lib strs msg = Outcome.failure m err) :
    err ∈ segmentErrorTexts lib strs := by
  rw [parseReferer_eq _ _ _ h] at hf
  exact parseForwardedFor_failure lib _ _ _ _ h hf

theorem parseStatus_failure (lib : StdLib) (strs : List GoString) (msg m : RtrMessage)
    (err : GoString) (h : 20 ≤ strs.length)
    (hf : parseStatus lib strs msg = Outcome.failure m err) :
    err ∈ segmentErrorTexts lib strs := by
  rw [parseStatus_eq _ _ _ h] at hf
  split at hf
  · simp only [Outcome.failure.injEq] at hf
    rw [← hf.2]
    simp only [segmentErrorTexts, List.mem_cons, true_or, or_true]
  · split at hf
    · simp only [Outcome.failure.injEq] at hf
      rw [← hf.2]
      simp only [segmentErrorTexts, List.mem_cons, true_or, or_true]
    · exact parseReferer_failure lib _ _ _ _ h hf

theorem parseMethod_failure (lib : StdLib) (strs : List GoString) (msg m : RtrMessage)
    (err : GoString) (h : 20 ≤ strs.length)
    (hf : parseMethod lib strs msg = Outcome.failure m err) :
    err ∈ segmentErrorTexts lib strs := by
  rw [parseMethod_eq _ _ _ h] at hf
  split at hf
  · simp only [Outcome.failure.injEq] at hf
    rw [← hf.2]
    simp only [segmentErrorTexts, List.mem_cons, true_or, or_true]
  · exact parseStatus_failure lib _ _ _ _ h hf

theorem parseHost_failure (lib : StdLib) (strs : List GoString) (msg m : RtrMessage)
    (err : GoString) (h : 20 ≤ strs.length)
    (hf : parseHost lib strs msg = Outcome.failure m err) :
    err ∈ segmentErrorTexts lib strs := by
  rw [parseHost_eq _ _ _ h] at hf
  split at hf
  · simp only [Outcome.failure.injEq] at hf
    rw [← hf.2]
    simp only [segmentErrorTexts, List.mem_cons, true_or, or_true]
  · split at hf
    · simp at hf
    · split at hf
      · rename_i e he
        simp only [Outcome.failure.injEq] at hf
        rw [← hf.2]
        simp only [segmentErrorTexts, List.mem_cons, he, errorText, true_or, or_true]
      · exact parseMethod_failure lib _ _ _ _ h hf

/-- The error that the parser returns: on fewer than 20 segments the one of the first check,
which holds the line; otherwise one of the errors of the later checks, which hold tokens,
a segment or the text of a library error. -/
theorem ParseRtr_failure_text (lib : StdLib) (log : GoString) (msg : RtrMessage)
    (err : GoString) (h : ParseRtr lib log = Outcome.failure msg err) :
    ((segments log).length < 20 ∧ err = lit "Error parsing RTR message: " ++ log) ∨
      (20 ≤ (segments log).length ∧ err ∈ segmentErrorTexts lib (segments log)) := by
  rw [ParseRtr_blocks] at h
  split at h
  · rename_i hlen
    left
    simp only [Outcome.failure.injEq] at h
    refine ⟨by unfold segments; rw [List.length_map]; exact hlen, h.2.symm⟩
  · rename_i hlen
    right
    have h20 : 20 ≤ (segments log).length := by
      unfold segments; rw [List.length_map]; omega
    exact ⟨h20, parseHost_failure lib _ _ _ _ h20 h⟩

theorem Contains_append_right (a s : GoString) : Contains (a ++ s) s = true := by
  induction a with
  | nil =>
    have := Contains_append_self s []
    rwa [List.append_nil] at this
  | cons c a ih =>
    rw [List.cons_append]
    simp only [Contains, Bool.or_eq_true]
    exact Or.inr ih

/-- Claim C15, amended: when `ParseRtr` fails on the message of a log-line record tagged `RTR`,
the iteration logs one error entry, which carries the error that `ParseRtr` returned. On fewer
than 20 segments that error is `Error parsing RTR message: ` followed by the line, so it holds
the full message text; otherwise it is one of the errors of the later checks, made of the name
of the field and of the tokens of a segment, a segment, or the text of a library error. -/
theorem parse_failure_log_entry (lib : StdLib) (closeConsumer : Option GoString)
    (message : LogMessage) (msg : RtrMessage) (err : GoString)
    (hrtr : Contains message.SourceType (lit "RTR") = true)
    (hfail : ParseRtr lib message.Message = Outcome.failure msg err) :
    routeStep lib closeConsumer (Event.msg (InboundRecord.logLine message)) =
      ([Call.newLogMessage, Call.parseRtr message.Message,
        Call.logError (lit "Error parsing RTR message") (some err)], Control.next) ∧
    (((segments message.Message).length < 20 ∧
        err = lit "Error parsing RTR message: " ++ message.Message ∧
        Contains err message.Message = true) ∨
      (20 ≤ (segments message.Message).length ∧
        err ∈ segmentErrorTexts lib (segments message.Message))) := by
  refine ⟨routeStep_failure lib closeConsumer message msg err hrtr hfail, ?_⟩
  rcases ParseRtr_failure_text lib _ _ _ hfail with ⟨h1, h2⟩ | h
  · left
    refine ⟨h1, h2, ?_⟩
    rw [h2]
    exact Contains_append_right _ _
  · exact Or.inr h

set_option maxRecDepth 100000 in
/-- The error entry of a line cut short holds the line; the one of a line with the forwarded
protocol `ftp` is among the errors of the later checks. -/
theorem parse_failure_log_entry_witness :
    ((Contains (rtrMessage truncatedLine).SourceType (lit "RTR") = true ∧
      ParseRtr refLib (rtrMessage truncatedLine).Message =
        Outcome.failure RtrMessage.zero (lit "Error parsing RTR message: " ++ truncatedLine)) ∧
      routeStep refLib none (Event.msg (InboundRecord.logLine (rtrMessage truncatedLine))) =
        ([Call.newLogMessage, Call.parseRtr (rtrMessage truncatedLine).Message,
          Call.logError (lit "Error parsing RTR message")
            (some (lit "Error parsing RTR message: " ++ truncatedLine))], Control.next)) ∧
    ((Contains (rtrMessage ftpLine).SourceType (lit "RTR") = true ∧
      ParseRtr refLib (rtrMessage ftpLine).Message =
        Outcome.failure { goldenRecord with
            xForwardedProto := [], vcapRequestId := [], responseTime := 0, appId := [],
            appIndex := [] }
          (lit "Error parsing x_forwarded_proto: ftp")) ∧
      routeStep refLib none (Event.msg (InboundRecord.logLine (rtrMessage ftpLine))) =
        ([Call.newLogMessage, Call.parseRtr (rtrMessage ftpLine).Message,
          Call.logError (lit "Error parsing RTR message")
            (some (lit "Error parsing x_forwarded_proto: ftp"))], Control.next)) :=
  ⟨⟨⟨by decide, by decide⟩,
    (parse_failure_log_entry refLib none (rtrMessage truncatedLine) RtrMessage.zero
      (lit "Error parsing RTR message: " ++ truncatedLine) (by decide) (by decide)).1⟩,
   ⟨⟨by decide, by decide⟩,
    (parse_failure_log_entry refLib none (rtrMessage ftpLine)
      { goldenRecord with
          xForwardedProto := [], vcapRequestId := [], responseTime := 0, appId := [],
          appIndex := [] }
      (lit "Error parsing x_forwarded_proto: ftp") (by decide) (by decide)).1⟩⟩

set_option maxRecDepth 100000 in
/-- Claim C15 as stated fails: on the well-formed line with the forwarded protocol `ftp`, the
error entry that the iteration logs is `Error parsing x_forwarded_proto: ftp` under the action
`Error parsing RTR message`; neither text contains the line. -/
theorem parse_failure_log_entry_without_line :
    Contains (rtrMessage ftpLine).SourceType (lit "RTR") = true ∧
    (routeStep refLib none (Event.msg (InboundRecord.logLine (rtrMessage ftpLine)))).1 =
      [Call.newLogMessage, Call.parseRtr ftpLine,
        Call.logError (lit "Error parsing RTR message")
          (some (lit "Error parsing x_forwarded_proto: ftp"))] ∧
    Contains (lit "Error parsing x_forwarded_proto: ftp") ftpLine = false ∧
    Contains (lit "Error parsing RTR message") ftpLine = false := by
  decide

/-- Claim C16: on an inbound record that is no log line an iteration makes no call at all, so it
sends no telemetry, writes no log entry, does not close the subscription and invokes neither the
parser nor the constructor of the log message with its metadata resolver; the loop goes on, and
the run is the run over the values received afterwards. -/
theorem non_log_record_no_op (lib : StdLib) (closeConsumer : Option GoString)
    (r : InboundRecord) (rest : List Event)
    (h : ∀ message, r ≠ InboundRecord.logLine message) :
    routeStep lib closeConsumer (Event.msg r) = ([], Control.next) ∧
      routeEvents lib closeConsumer (Event.msg r :: rest) =
        routeEvents lib closeConsumer rest := by
  cases r with
  | logLine message => exact absurd rfl (h message)
  | other =>
    have hs : routeStep lib closeConsumer (Event.msg InboundRecord.other) =
        ([], Control.next) := rfl
    refine ⟨hs, ?_⟩
    rw [routeEvents_next _ _ _ _ _ hs]
    rfl

/-- The iteration on a record that is no log line, followed by an error. -/
theorem non_log_record_no_op_witness :
    (∀ message, InboundRecord.other ≠ InboundRecord.logLine message) ∧
      (routeStep refLib none (Event.msg InboundRecord.other) = ([], Control.next) ∧
        routeEvents refLib none [Event.msg InboundRecord.other, Event.err (lit "EOF")] =
          routeEvents refLib none [Event.err (lit "EOF")]) :=
  ⟨fun _ h => InboundRecord.noConfusion h,
   non_log_record_no_op refLib none InboundRecord.other [Event.err (lit "EOF")]
     (fun _ h => InboundRecord.noConfusion h)⟩

set_option maxRecDepth 100000 in
/-- A line of claim C17: the fields of the record of the well-formed line. -/
theorem ParseRtr_record_fields_witness :
    ParseRtr refLib goldenLine = Outcome.record goldenRecord ∧
      (goldenRecord.referer = TrimSpace ((Split goldenLine (byte '"')).getD 3 []) ∧
        goldenRecord.userAgent = TrimSpace ((Split goldenLine (byte '"')).getD 5 []) ∧
        goldenRecord.remoteAddr = TrimSpace ((Split goldenLine (byte '"')).getD 7 []) ∧
        goldenRecord.destIpAndPort = TrimSpace ((Split goldenLine (byte '"')).getD 9 []) ∧
        goldenRecord.vcapRequestId = TrimSpace ((Split goldenLine (byte '"')).getD 15 []) ∧
        goldenRecord.appId = TrimSpace ((Split goldenLine (byte '"')).getD 17 []) ∧
        goldenRecord.appIndex = TrimSpace ((Split goldenLine (byte '"')).getD 19 [])) :=
  ⟨by decide, (ParseRtr_record_fields refLib goldenLine goldenRecord (by decide)).1⟩

/-! ## The response time and the application id -/

/-- A line that passes every check before the response time reaches the block of the response
time with the fields read so far and the response time unset. -/
theorem ParseRtr_to_response_time (lib : StdLib) (log : GoString) (t : Time) (n : Int)
    (h20 : 20 ≤ (segments log).length)
    (h0 : 3 ≤ (tokens (segment log 0)).length)
    (h0b : 2 ≤ (token (segment log 0) 2).length)
    (ht : lib.timeParse (inner (token (segment log 0) 2)) = Except.ok t)
    (h1 : 3 ≤ (tokens (segment log 1)).length)
    (hn : Atoi (token (segment log 2) 0) = some n)
    (h2 : 3 ≤ (tokens (segment log 2)).length)
    (h10 : Contains (segment log 10) (lit "x_forwarded_for") = true)
    (h13 : segment log 13 = lit "http" ∨ segment log 13 = lit "https")
    (h14 : Contains (segment log 14) (lit "vcap_request_id") = true) :
    ParseRtr lib log =
      parseResponseTime lib (segments log)
        { host := token (segment log 0) 0,
          timestamp := t,
          method := token (segment log 1) 0,
          path := token (segment log 1) 1,
          protocol := token (segment log 1) 2,
          statusCode := token (segment log 2) 0,
          requestBytesReceived := token (segment log 2) 1,
          bodyBytesSent := token (segment log 2) 2,
          referer := segment log 3,
          userAgent := segment log 5,
          remoteAddr := segment log 7,
          destIpAndPort := segment log 9,
          xForwardedFor := (Split (segment log 11) (byte ',')).getD 0 [],
          xForwardedProto := segment log 13,
          vcapRequestId := segment log 15,
          responseTime := 0,
          appId := [],
          appIndex := [],
          isSuccess := decide (n < 400) } := by
  have hlen : ¬ (Split log (byte '"')).length < 20 := by
    unfold segments at h20; rw [List.length_map] at h20; omega
  unfold segment at *
  rw [ParseRtr_blocks, if_neg hlen, parseHost_eq lib _ _ h20, if_neg (by omega),
    if_neg (by omega), ht]
  simp only []
  rw [parseMethod_eq lib _ _ h20, if_neg (by omega), parseStatus_eq lib _ _ h20, hn]
  simp only []
  rw [if_neg (by omega), parseReferer_eq lib _ _ h20, parseForwardedFor_eq lib _ _ h20,
    if_neg (by rw [h10]; decide), parseForwardedProto_eq lib _ _ h20]
  have hp : ¬ ((segments log).getD 13 [] ≠ lit "http" ∧ (segments log).getD 13 [] ≠ lit "https") := by
    rcases h13 with h | h
    · exact fun hh => hh.1 h
    · exact fun hh => hh.2 h
  rw [if_neg hp, parseRequestId_eq lib _ _ h20, if_neg (by rw [h14]; decide)]
  have hx : (if (segments log).getD 13 [] = lit "http" then lit "http" else lit "https") =
      (segments log).getD 13 [] := by
    rcases h13 with h | h
    · rw [if_pos h, h]
    · rw [h]; decide
  rw [hx]
  rfl

/-- Claim C14: on a line that satisfies every other requirement of `ParseRtr`, a first token of
segment 16 without `response_time:` still gives a record, with the response time 0, once the
second token holds `app_id`; a second token that is missing or lacks `app_id` makes `ParseRtr`
fail, and with a valid latency token it fails with `Error parsing app id: ` followed by
segment 16, after the response time was set. -/
theorem latency_app_id_asymmetry (lib : StdLib) (log : GoString) (t : Time) (n : Int)
    (h20 : 20 ≤ (segments log).length)
    (h0 : 3 ≤ (tokens (segment log 0)).length)
    (h0b : 2 ≤ (token (segment log 0) 2).length)
    (ht : lib.timeParse (inner (token (segment log 0) 2)) = Except.ok t)
    (h1 : 3 ≤ (tokens (segment log 1)).length)
    (hn : Atoi (token (segment log 2) 0) = some n)
    (h2 : 3 ≤ (tokens (segment log 2)).length)
    (h10 : Contains (segment log 10) (lit "x_forwarded_for") = true)
    (h13 : segment log 13 = lit "http" ∨ segment log 13 = lit "https")
    (h14 : Contains (segment log 14) (lit "vcap_request_id") = true)
    (h18 : Contains (segment log 18) (lit "app_index") = true) :
    (Contains (token (segment log 16) 0) (lit "response_time:") = false →
      1 < (tokens (segment log 16)).length →
      Contains (token (segment log 16) 1) (lit "app_id") = true →
      ∃ m, ParseRtr lib log = Outcome.record m ∧ m.responseTime = 0) ∧
    ((tokens (segment log 16)).length < 2 ∨
        Contains (token (segment log 16) 1) (lit "app_id") = false →
      (∃ msg err, ParseRtr lib log = Outcome.failure msg err) ∧
      ∀ f, Contains (token (segment log 16) 0) (lit "response_time:") = true →
        lib.parseFloat ((Split (token (segment log 16) 0) (byte ':')).getD 1 []) =
          Except.ok f →
        ∃ msg, ParseRtr lib log =
            Outcome.failure msg (lit "Error parsing app id: " ++ segment log 16) ∧
          msg.responseTime = lib.toDuration f) := by
  constructor
  · intro hm hl ha
    refine ⟨_, (ParseRtr_record_iff lib log _).mpr ⟨h20, h0, h0b, t, ht, h1, n, hn, h2, h10,
      h13, h14, 0, ?_, hl, ha, h18, rfl⟩, rfl⟩
    rw [if_neg (by rw [hm]; decide)]
  · intro hbad
    have hc : (decide (1 < (tokens ((segments log).getD 16 [])).length) &&
        Contains ((tokens ((segments log).getD 16 [])).getD 1 []) (lit "app_id")) = false := by
      rcases hbad with h | h
      · rw [Bool.and_eq_false_iff]
        left
        unfold segment at h
        simp only [decide_eq_false_iff_not]
        omega
      · rw [Bool.and_eq_false_iff]
        right
        exact h
    have hpre := ParseRtr_to_response_time lib log t n h20 h0 h0b ht h1 hn h2 h10 h13 h14
    constructor
    · apply ParseRtr_failure_of_not_record lib log (fun _ => h0b)
      intro m hm
      rw [ParseRtr_record_iff] at hm
      obtain ⟨_, _, _, _, _, _, _, _, _, _, _, _, _, _, hl, ha, _⟩ := hm
      rcases hbad with h | h
      · omega
      · rw [ha] at h; exact Bool.noConfusion h
    · intro f hm hf
      unfold segment at hm hf
      rw [hpre, parseResponseTime_eq lib _ _ h20, if_pos hm, hf]
      simp only []
      rw [parseAppId_eq _ _ _ _ h20, if_pos hc]
      exact ⟨_, rfl, rfl⟩

set_option maxRecDepth 100000 in
/-- The two sides of claim C14 on concrete lines: the well-formed line with `latency:` in the
place of `response_time:` gives the record of the well-formed line with the response time 0; the
well-formed line with `app:` in the place of `app_id:` fails on the application id, with the
response time already set. -/
theorem latency_app_id_asymmetry_witness :
    (ParseRtr refLib noLatencyLine = Outcome.record { goldenRecord with responseTime := 0 } ∧
      ∃ m, ParseRtr refLib noLatencyLine = Outcome.record m ∧ m.responseTime = 0) ∧
    (ParseRtr refLib noAppIdLine =
        Outcome.failure { goldenRecord with appId := [], appIndex := [] }
          (lit "Error parsing app id: response_time:0.001500 app:") ∧
      ∃ msg, ParseRtr refLib noAppIdLine =
          Outcome.failure msg (lit "Error parsing app id: " ++ segment noAppIdLine 16) ∧
        msg.responseTime = refLib.toDuration ⟨4564560351926583034⟩) :=
  ⟨⟨by decide,
    (latency_app_id_asymmetry refLib noLatencyLine goldenRecord.timestamp 200 (by decide)
      (by decide) (by decide) (by decide) (by decide) (by decide) (by decide) (by decide)
      (by decide) (by decide) (by decide)).1 (by decide) (by decide) (by decide)⟩,
   ⟨by decide,
    ((latency_app_id_asymmetry refLib noAppIdLine goldenRecord.timestamp 200 (by decide)
      (by decide) (by decide) (by decide) (by decide) (by decide) (by decide) (by decide)
      (by decide) (by decide) (by decide)).2 (Or.inr (by decide))).2 ⟨4564560351926583034⟩
      (by decide) (by decide)⟩⟩

set_option maxRecDepth 100000 in
/-- Claim C13 as stated fails. On the well-formed line with `response_time:0.000065` the record
has the response time 64,999 ns, while 0.000065 × 1,000,000,000 is 65,000: the binary64 number
nearest to 0.000065 is below it, and so is its binary64 product with 1,000,000,000. On the
well-formed line with `response_time:1.5:zzz` the text after the colon, `1.5:zzz`, does not parse
as a number, and `ParseRtr` returns a record, having parsed `1.5`. -/
theorem response_time_not_exact :
    (token (segment roundingLine 16) 0 = lit "response_time:0.000065" ∧
      ParseRtr refLib roundingLine =
        Outcome.record { goldenRecord with responseTime := 64999 } ∧
      specNanos (lit "0.000065") = some 65000) ∧
    (token (segment secondColonLine 16) 0 = lit "response_time:1.5:zzz" ∧
      refLib.parseFloat (lit "1.5:zzz") =
        Except.error (lit "strconv.ParseFloat: parsing \"1.5:zzz\"") ∧
      ParseRtr refLib secondColonLine =
        Outcome.record { goldenRecord with responseTime := 1500000000 }) := by
  decide

/-! ## The segments that the parser reads -/

theorem parseAppIndex_congr (strs1 strs2 : List GoString) (msg : RtrMessage)
    (h1 : 20 ≤ strs1.length) (h2 : 20 ≤ strs2.length)
    (h : ∀ i ∈ laterSegments, strs1.getD i [] = strs2.getD i []) :
    parseAppIndex strs1 msg = parseAppIndex strs2 msg := by
  rw [parseAppIndex_eq _ _ h1, parseAppIndex_eq _ _ h2, h 18 (by decide), h 19 (by decide)]

theorem parseAppId_congr (strs1 strs2 : List GoString) (strs16 : GoString)
    (s : List GoString) (msg : RtrMessage)
    (h1 : 20 ≤ strs1.length) (h2 : 20 ≤ strs2.length)
    (h : ∀ i ∈ laterSegments, strs1.getD i [] = strs2.getD i []) :
    parseAppId strs1 strs16 s msg = parseAppId strs2 strs16 s msg := by
  rw [parseAppId_eq _ _ _ _ h1, parseAppId_eq _ _ _ _ h2, h 17 (by decide),
    parseAppIndex_congr strs1 strs2 _ h1 h2 h]

theorem parseResponseTime_congr (lib : StdLib) (strs1 strs2 : List GoString)
    (msg : RtrMessage) (h1 : 20 ≤ strs1.length) (h2 : 20 ≤ strs2.length)
    (h : ∀ i ∈ laterSegments, strs1.getD i [] = strs2.getD i []) :
    parseResponseTime lib strs1 msg = parseResponseTime lib strs2 msg := by
  have e := fun strs16 s m => parseAppId_congr strs1 strs2 strs16 s m h1 h2 h
  rw [parseResponseTime_eq _ _ _ h1, parseResponseTime_eq _ _ _ h2, h 16 (by decide)]
  simp only [e]

theorem parseRequestId_congr (lib : StdLib) (strs1 strs2 : List GoString)
    (msg : RtrMessage) (h1 : 20 ≤ strs1.length) (h2 : 20 ≤ strs2.length)
    (h : ∀ i ∈ laterSegments, strs1.getD i [] = strs2.getD i []) :
    parseRequestId lib strs1 msg = parseRequestId lib strs2 msg := by
  rw [parseRequestId_eq _ _ _ h1, parseRequestId_eq _ _ _ h2, h 14 (by decide),
    h 15 (by decide), parseResponseTime_congr lib strs1 strs2 _ h1 h2 h]

theorem parseForwardedProto_congr (lib : StdLib) (strs1 strs2 : List GoString)
    (msg : RtrMessage) (h1 : 20 ≤ strs1.length) (h2 : 20 ≤ strs2.length)
    (h : ∀ i ∈ laterSegments, strs1.getD i [] = strs2.getD i []) :
    parseForwardedProto lib strs1 msg = parseForwardedProto lib strs2 msg := by
  rw [parseForwardedProto_eq _ _ _ h1, parseForwardedProto_eq _ _ _ h2, h 13 (by decide),
    parseRequestId_congr lib strs1 strs2 _ h1 h2 h]

theorem parseForwardedFor_congr (lib : StdLib) (strs1 strs2 : List GoString)
    (msg : RtrMessage) (h1 : 20 ≤ strs1.length) (h2 : 20 ≤ strs2.length)
    (h : ∀ i ∈ laterSegments, strs1.getD i [] = strs2.getD i []) :
    parseForwardedFor lib strs1 msg = parseForwardedFor lib strs2 msg := by
  rw [parseForwardedFor_eq _ _ _ h1, parseForwardedFor_eq _ _ _ h2, h 10 (by decide),
    h 11 (by decide), parseForwardedProto_congr lib strs1 strs2 _ h1 h2 h]

theorem parseReferer_congr (lib : StdLib) (strs1 strs2 : List GoString)
    (msg : RtrMessage) (h1 : 20 ≤ strs1.length) (h2 : 20 ≤ strs2.length)
    (h : ∀ i ∈ laterSegments, strs1.getD i [] = strs2.getD i []) :
    parseReferer lib strs1 msg = parseReferer lib strs2 msg := by
  rw [parseReferer_eq _ _ _ h1, parseReferer_eq _ _ _ h2, h 3 (by decide), h 5 (by decide),
    h 7 (by decide), h 9 (by decide), parseForwardedFor_congr lib strs1 strs2 _ h1 h2 h]

theorem parseStatus_congr (lib : StdLib) (strs1 strs2 : List GoString)
    (msg : RtrMessage) (h1 : 20 ≤ strs1.length) (h2 : 20 ≤ strs2.length)
    (h : ∀ i ∈ laterSegments, strs1.getD i [] = strs2.getD i []) :
    parseStatus lib strs1 msg = parseStatus lib strs2 msg := by
  have e := fun m => parseReferer_congr lib strs1 strs2 m h1 h2 h
  rw [parseStatus_eq _ _ _ h1, parseStatus_eq _ _ _ h2, h 2 (by decide)]
  simp only [e]

theorem parseMethod_congr (lib : StdLib) (strs1 strs2 : List GoString)
    (msg : RtrMessage) (h1 : 20 ≤ strs1.length) (h2 : 20 ≤ strs2.length)
    (h : ∀ i ∈ laterSegments, strs1.getD i [] = strs2.getD i []) :
    parseMethod lib strs1 msg = parseMethod lib strs2 msg := by
  rw [parseMethod_eq _ _ _ h1, parseMethod_eq _ _ _ h2, h 1 (by decide),
    parseStatus_congr lib strs1 strs2 _ h1 h2 h]

/-- The first block reads segment 0 through the number of its tokens, its token 0 and, of its
token 2, the length and what is between the first and the last byte. -/
theorem parseHost_congr (lib : StdLib) (strs1 strs2 : List GoString)
    (msg : RtrMessage) (h1 : 20 ≤ strs1.length) (h2 : 20 ≤ strs2.length)
    (h : ∀ i ∈ laterSegments, strs1.getD i [] = strs2.getD i [])
    (hl : (tokens (strs1.getD 0 [])).length < 3 ↔ (tokens (strs2.getD 0 [])).length < 3)
    (hf : (tokens (strs1.getD 0 [])).length < 3 →
      fmtStrings (tokens (strs1.getD 0 [])) = fmtStrings (tokens (strs2.getD 0 [])))
    (h0 : token (strs1.getD 0 []) 0 = token (strs2.getD 0 []) 0)
    (hs : (token (strs1.getD 0 []) 2).length < 2 ↔ (token (strs2.getD 0 []) 2).length < 2)
    (hi : inner (token (strs1.getD 0 []) 2) = inner (token (strs2.getD 0 []) 2)) :
    parseHost lib strs1 msg = parseHost lib strs2 msg := by
  have e := fun m => parseMethod_congr lib strs1 strs2 m h1 h2 h
  rw [parseHost_eq _ _ _ h1, parseHost_eq _ _ _ h2, h0, hi]
  by_cases c : (tokens (strs1.getD 0 [])).length < 3
  · rw [if_pos c, if_pos (hl.mp c), hf c]
  · rw [if_neg c, if_neg (fun c2 => c (hl.mpr c2))]
    by_cases d : (token (strs1.getD 0 []) 2).length < 2
    · rw [if_pos d, if_pos (hs.mp d)]
    · rw [if_neg d, if_neg (fun d2 => d (hs.mpr d2))]
      simp only [e]

/-- Claim C18: two lines of at least 20 segments each that agree on the trimmed segments 0-3,
5, 7, 9-11 and 13-19 have the same outcome of `ParseRtr`: the same record, or the same failure
with the same partial record and the same error. The segments 4, 6, 8, 12 and those from index
20 on are free, and so is the number of segments from 20 on; in particular segment 12 need not
contain `x_forwarded_proto`. -/
theorem ParseRtr_ignores_unread_segments (lib : StdLib) (log1 log2 : GoString)
    (h1 : 20 ≤ (segments log1).length) (h2 : 20 ≤ (segments log2).length)
    (h : ∀ i ∈ readSegments, segment log1 i = segment log2 i) :
    ParseRtr lib log1 = ParseRtr lib log2 := by
  have g1 : ¬ (Split log1 (byte '"')).length < 20 := by
    unfold segments at h1; rw [List.length_map] at h1; omega
  have g2 : ¬ (Split log2 (byte '"')).length < 20 := by
    unfold segments at h2; rw [List.length_map] at h2; omega
  unfold segment at h
  have e0 := h 0 (by decide)
  rw [ParseRtr_blocks, ParseRtr_blocks, if_neg g1, if_neg g2]
  apply parseHost_congr lib _ _ _ h1 h2
    (fun i hi => h i (List.mem_cons_of_mem _ hi))
  · rw [e0]
  · intro _; rw [e0]
  · rw [e0]
  · rw [e0]
  · rw [e0]

set_option maxRecDepth 100000 in
/-- The well-formed line and the line that differs from it in the segments 4, 6, 8, 12 and 20
have the same record. -/
theorem ParseRtr_ignores_unread_segments_witness :
    (20 ≤ (segments goldenLine).length ∧ 20 ≤ (segments unreadVariantLine).length ∧
      (∀ i ∈ readSegments, segment goldenLine i = segment unreadVariantLine i)) ∧
    (segment unreadVariantLine 4 = lit "four" ∧ segment unreadVariantLine 6 = lit "six" ∧
      segment unreadVariantLine 8 = lit "eight" ∧ segment unreadVariantLine 12 = lit "zzz:" ∧
      segment unreadVariantLine 20 = lit "twenty") ∧
    ParseRtr refLib unreadVariantLine = Outcome.record goldenRecord ∧
    ParseRtr refLib goldenLine = ParseRtr refLib unreadVariantLine :=
  ⟨⟨by decide, by decide, by decide⟩, by decide, by decide,
    ParseRtr_ignores_unread_segments refLib goldenLine unreadVariantLine (by decide)
      (by decide) (by decide)⟩

/-! ## The bytes around the timestamp -/

/-- Trimming at the front stops at the latest at a single-byte character that is no white
space. -/
theorem trimLeft_append_cons (a : GoString) (x : Nat) (m : GoString) (hx : x < 128)
    (hs : asciiSpace x = false) : trimLeft (a ++ x :: m) = trimLeft a ++ x :: m := by
  have hxm : trimLeft (x :: m) = x :: m := trimLeft_cons_ascii x m hx hs
  induction a using trimLeft.induct with
  | case1 => exact hxm
  | case2 a h =>
    rw [List.singleton_append, trimLeft_cons_space _ _ h, hxm]
    simp only [trimLeft, h, if_true, List.nil_append]
  | case3 a h =>
    have h0 : asciiSpace a = false := by simpa using h
    rw [List.singleton_append]
    simp only [trimLeft, h, if_false, List.singleton_append]
    exact trimLeft_of_head a _ h0 fun y t e => by
      simp only [List.cons.injEq] at e
      obtain ⟨rfl, rfl⟩ := e
      exact ⟨space2_ascii_right a x hx, fun z _ _ => space3_ascii a x z (Or.inr (Or.inl hx))⟩
  | case4 a b h ih =>
    have e : [a, b] ++ x :: m = a :: ([b] ++ x :: m) := rfl
    rw [e, trimLeft_cons_space _ _ h, ih, trimLeft_cons_space _ _ h]
  | case5 a b h1 h2 =>
    have e : [a, b] ++ x :: m = a :: b :: x :: m := rfl
    have l : trimLeft (a :: b :: x :: m) = x :: m := by
      rw [trimLeft, if_neg h1, if_pos h2, hxm]
    have r : trimLeft [a, b] = [] := by
      rw [trimLeft, if_neg h1, if_pos h2]
    rw [e, l, r]
    rfl
  | case6 a b h1 h2 =>
    have e : [a, b] ++ x :: m = a :: b :: x :: m := rfl
    have h3 : ¬ space3 a b x = true := by
      rw [space3_ascii a b x (Or.inr (Or.inr hx))]; exact Bool.false_ne_true
    have l : trimLeft (a :: b :: x :: m) = a :: b :: x :: m := by
      rw [trimLeft, if_neg h1, if_neg h2, if_neg h3]
    have r : trimLeft [a, b] = [a, b] := by
      rw [trimLeft, if_neg h1, if_neg h2]
    rw [e, l, r]
    rfl
  | case7 a b c rest h ih =>
    have e : (a :: b :: c :: rest) ++ x :: m = a :: ((b :: c :: rest) ++ x :: m) := rfl
    rw [e, trimLeft_cons_space _ _ h, ih, trimLeft_cons_space _ _ h]
  | case8 a b c rest h1 h2 ih =>
    have e : (a :: b :: c :: rest) ++ x :: m = a :: b :: c :: (rest ++ x :: m) := rfl
    rw [e, trimLeft, if_neg h1, if_pos h2]
    rw [show c :: (rest ++ x :: m) = (c :: rest) ++ x :: m from rfl, ih]
    rw [trimLeft, if_neg h1, if_pos h2]
  | case9 a b c rest h1 h2 h3 ih =>
    have e : (a :: b :: c :: rest) ++ x :: m = a :: b :: c :: (rest ++ x :: m) := rfl
    rw [e, trimLeft, if_neg h1, if_neg h2, if_pos h3, ih]
    rw [trimLeft, if_neg h1, if_neg h2, if_pos h3]
  | case10 a b c rest h1 h2 h3 =>
    have e : (a :: b :: c :: rest) ++ x :: m = a :: b :: c :: (rest ++ x :: m) := rfl
    rw [e, trimLeft, if_neg h1, if_neg h2, if_neg h3]
    rw [trimLeft, if_neg h1, if_neg h2, if_neg h3]
    rfl

/-- Trimming at the end stops at the latest at a single-byte character that is no white
space. -/
theorem trimRightRev_append_cons (a : GoString) (x : Nat) (m : GoString) (hx : x < 128)
    (hs : asciiSpace x = false) :
    trimRightRev (a ++ x :: m) = trimRightRev a ++ x :: m := by
  have hxm : trimRightRev (x :: m) = x :: m := trimRightRev_cons_ascii x m hx hs
  induction a using trimRightRev.induct with
  | case1 => exact hxm
  | case2 a h =>
    rw [List.singleton_append, trimRightRev_cons_space _ _ h, hxm]
    simp only [trimRightRev, h, if_true, List.nil_append]
  | case3 a h =>
    have h0 : asciiSpace a = false := by simpa using h
    rw [List.singleton_append]
    simp only [trimRightRev, h, if_false, List.singleton_append]
    exact trimRightRev_of_head a _ h0 fun y t e => by
      simp only [List.cons.injEq] at e
      obtain ⟨rfl, rfl⟩ := e
      exact ⟨space2_ascii_left x a hx, fun z _ _ => space3_ascii z x a (Or.inr (Or.inl hx))⟩
  | case4 a b h ih =>
    have e : [a, b] ++ x :: m = a :: ([b] ++ x :: m) := rfl
    rw [e, trimRightRev_cons_space _ _ h, ih, trimRightRev_cons_space _ _ h]
  | case5 a b h1 h2 =>
    have e : [a, b] ++ x :: m = a :: b :: x :: m := rfl
    have l : trimRightRev (a :: b :: x :: m) = x :: m := by
      rw [trimRightRev, if_neg h1, if_pos h2, hxm]
    have r : trimRightRev [a, b] = [] := by
      rw [trimRightRev, if_neg h1, if_pos h2]
    rw [e, l, r]
    rfl
  | case6 a b h1 h2 =>
    have e : [a, b] ++ x :: m = a :: b :: x :: m := rfl
    have h3 : ¬ space3 x b a = true := by
      rw [space3_ascii x b a (Or.inl hx)]; exact Bool.false_ne_true
    have l : trimRightRev (a :: b :: x :: m) = a :: b :: x :: m := by
      rw [trimRightRev, if_neg h1, if_neg h2, if_neg h3]
    have r : trimRightRev [a, b] = [a, b] := by
      rw [trimRightRev, if_neg h1, if_neg h2]
    rw [e, l, r]
    rfl
  | case7 a b c rest h ih =>
    have e : (a :: b :: c :: rest) ++ x :: m = a :: ((b :: c :: rest) ++ x :: m) := rfl
    rw [e, trimRightRev_cons_space _ _ h, ih, trimRightRev_cons_space _ _ h]
  | case8 a b c rest h1 h2 ih =>
    have e : (a :: b :: c :: rest) ++ x :: m = a :: b :: c :: (rest ++ x :: m) := rfl
    rw [e, trimRightRev, if_neg h1, if_pos h2]
    rw [show c :: (rest ++ x :: m) = (c :: rest) ++ x :: m from rfl, ih]
    rw [trimRightRev, if_neg h1, if_pos h2]
  | case9 a b c rest h1 h2 h3 ih =>
    have e : (a :: b :: c :: rest) ++ x :: m = a :: b :: c :: (rest ++ x :: m) := rfl
    rw [e, trimRightRev, if_neg h1, if_neg h2, if_pos h3, ih]
    rw [trimRightRev, if_neg h1, if_neg h2, if_pos h3]
  | case10 a b c rest h1 h2 h3 =>
    have e : (a :: b :: c :: rest) ++ x :: m = a :: b :: c :: (rest ++ x :: m) := rfl
    rw [e, trimRightRev, if_neg h1, if_neg h2, if_neg h3]
    rw [trimRightRev, if_neg h1, if_neg h2, if_neg h3]
    rfl

/-- The function `TrimSpace` around two single-byte characters that are no white space: what
is between them stays, and what is before and after them is trimmed on its own. -/
theorem TrimSpace_around (a m w : GoString) (x y : Nat) (hx : x < 128)
    (hxs : asciiSpace x = false) (hy : y < 128) (hys : asciiSpace y = false) :
    TrimSpace (a ++ x :: (m ++ y :: w)) =
      trimLeft a ++ x :: (m ++ y :: (trimRightRev w.reverse).reverse) := by
  apply TrimSpace_of _ (trimLeft a ++ x :: (m ++ y :: w))
  · exact trimLeft_append_cons a x _ hx hxs
  · have e : (trimLeft a ++ x :: (m ++ y :: w)).reverse =
        w.reverse ++ y :: (m.reverse ++ x :: (trimLeft a).reverse) := by
      simp only [List.reverse_append, List.reverse_cons, List.append_assoc,
        List.singleton_append, List.cons_append, List.nil_append]
    rw [e, trimRightRev_append_cons _ y _ hy hys]
    simp only [List.reverse_append, List.reverse_cons, List.append_assoc,
      List.singleton_append, List.cons_append, List.nil_append, List.reverse_reverse]

theorem inner_between (x y : Nat) (mid : GoString) : inner (x :: (mid ++ [y])) = mid := by
  unfold inner
  simp only [List.length_cons, List.length_append, List.length_nil, Nat.add_sub_cancel]
  have : mid.length + (0 + 1) = mid.length + 1 := by omega
  rw [this, List.take_succ_cons, List.drop_succ_cons, List.drop_zero]
  simp

/-- What `TrimSpace` leaves of a text that is empty or begins with a space is empty or begins
with a space. -/
theorem trimmed_rest (w : GoString) (hw : w = [] ∨ ∃ v, w = byte ' ' :: v) :
    (Split (trimRightRev w.reverse).reverse (byte ' ')).headD [] = [] := by
  have hp : (trimRightRev w.reverse).reverse <+: w := by
    have h := List.reverse_prefix.mpr (trimRightRev_suffix w.reverse)
    rwa [List.reverse_reverse] at h
  rcases hw with rfl | ⟨v, rfl⟩
  · rfl
  · obtain ⟨t, ht⟩ := hp
    cases hr : (trimRightRev (byte ' ' :: v).reverse).reverse with
    | nil => rfl
    | cons c u =>
      rw [hr] at ht
      simp only [List.cons_append, List.cons.injEq] at ht
      rw [ht.1, Split_cons_sep]
      rfl

/-- The segments of a line around the third token of its segment 0. -/
theorem delimitedLine_segments (a mid w r : GoString) (x y : Nat)
    (haq : byte '"' ∉ a) (hmidq : byte '"' ∉ mid) (hwq : byte '"' ∉ w)
    (hx : IsPlainByte x) (hy : IsPlainByte y) :
    segments (delimitedLine a x mid y w r) =
      (trimLeft a ++ x :: (mid ++ y :: (trimRightRev w.reverse).reverse)) ::
        (Split r (byte '"')).map TrimSpace := by
  have e : delimitedLine a x mid y w r = (a ++ x :: (mid ++ y :: w)) ++ byte '"' :: r := by
    unfold delimitedLine
    simp only [List.append_assoc, List.cons_append]
  have hq : byte '"' ∉ a ++ x :: (mid ++ y :: w) := by
    simp only [List.mem_append, List.mem_cons, not_or]
    exact ⟨haq, Ne.symm hx.2.2, hmidq, Ne.symm hy.2.2, hwq⟩
  unfold segments
  rw [e, Split_append _ _ _ hq, List.map_cons, TrimSpace_around a mid w x y hx.1 hx.2.1 hy.1
    hy.2.1]

/-- The tokens of segment 0 of a line around the third token of that segment. -/
theorem delimitedLine_tokens (T0 T1 mid w : GoString) (x y : Nat)
    (hT0 : byte ' ' ∉ T0) (hT1 : byte ' ' ∉ T1) (hmid : byte ' ' ∉ mid)
    (hw : (Split w (byte ' ')).headD [] = [])
    (hx : IsPlainByte x) (hy : IsPlainByte y) :
    tokens ((T0 ++ byte ' ' :: (T1 ++ [byte ' '])) ++ x :: (mid ++ y :: w)) =
      T0 :: T1 :: (x :: (mid ++ [y])) :: (Split w (byte ' ')).tail := by
  have hxs : x ≠ byte ' ' := by
    intro h; have := hx.2.1; rw [h] at this; exact absurd this (by decide)
  have hys : y ≠ byte ' ' := by
    intro h; have := hy.2.1; rw [h] at this; exact absurd this (by decide)
  have e : (T0 ++ byte ' ' :: (T1 ++ [byte ' '])) ++ x :: (mid ++ y :: w) =
      T0 ++ byte ' ' :: (T1 ++ byte ' ' :: ((x :: (mid ++ [y])) ++ w)) := by
    simp only [List.append_assoc, List.cons_append, List.nil_append]
  have hp : byte ' ' ∉ x :: (mid ++ [y]) := by
    simp only [List.mem_append, List.mem_cons, List.mem_singleton, not_or, List.mem_nil_iff,
      or_false]
    exact ⟨Ne.symm hxs, hmid, Ne.symm hys⟩
  unfold tokens
  rw [e, Split_append _ _ _ hT0, Split_append _ _ _ hT1, Split_append_left _ _ _ hp, hw,
    List.append_nil]

/-- On a line of at least 20 segments whose segment 0 has, after two tokens, a third token made
of a single-byte character `x1` that is no white space and no quote, the bytes `mid` without a
space or a quote, and such a character `y1`, the parser drops `x1` and `y1` and parses `mid`;
the line that differs only in those two bytes, each replaced by another such character, has the
same outcome. -/
theorem delimitedLine_outcome (lib : StdLib) (a mid w r T0 T1 : GoString)
    (x1 y1 x2 y2 : Nat)
    (ha : trimLeft a = T0 ++ byte ' ' :: (T1 ++ [byte ' ']))
    (hT0 : byte ' ' ∉ T0) (hT1 : byte ' ' ∉ T1) (haq : byte '"' ∉ a)
    (hmid : byte ' ' ∉ mid) (hmidq : byte '"' ∉ mid)
    (hw : w = [] ∨ ∃ v, w = byte ' ' :: v) (hwq : byte '"' ∉ w)
    (hx1 : IsPlainByte x1) (hy1 : IsPlainByte y1)
    (hx2 : IsPlainByte x2) (hy2 : IsPlainByte y2)
    (h20 : 20 ≤ (segments (delimitedLine a x1 mid y1 w r)).length) :
    token (segment (delimitedLine a x1 mid y1 w r) 0) 2 = x1 :: (mid ++ [y1]) ∧
    token (segment (delimitedLine a x2 mid y2 w r) 0) 2 = x2 :: (mid ++ [y2]) ∧
    (∀ m, ParseRtr lib (delimitedLine a x1 mid y1 w r) = Outcome.record m →
      lib.timeParse mid = Except.ok m.timestamp) ∧
    ParseRtr lib (delimitedLine a x1 mid y1 w r) =
      ParseRtr lib (delimitedLine a x2 mid y2 w r) := by
  have s1 := delimitedLine_segments a mid w r x1 y1 haq hmidq hwq hx1 hy1
  have s2 := delimitedLine_segments a mid w r x2 y2 haq hmidq hwq hx2 hy2
  have t1 := delimitedLine_tokens T0 T1 mid _ x1 y1 hT0 hT1 hmid (trimmed_rest w hw) hx1 hy1
  have t2 := delimitedLine_tokens T0 T1 mid _ x2 y2 hT0 hT1 hmid (trimmed_rest w hw) hx2 hy2
  rw [ha] at s1 s2
  have g1 : segment (delimitedLine a x1 mid y1 w r) 0 =
      (T0 ++ byte ' ' :: (T1 ++ [byte ' '])) ++
        x1 :: (mid ++ y1 :: (trimRightRev w.reverse).reverse) := by
    unfold segment; rw [s1]; rfl
  have g2 : segment (delimitedLine a x2 mid y2 w r) 0 =
      (T0 ++ byte ' ' :: (T1 ++ [byte ' '])) ++
        x2 :: (mid ++ y2 :: (trimRightRev w.reverse).reverse) := by
    unfold segment; rw [s2]; rfl
  have k1 : token (segment (delimitedLine a x1 mid y1 w r) 0) 2 = x1 :: (mid ++ [y1]) := by
    unfold token; rw [g1, t1]; rfl
  have k2 : token (segment (delimitedLine a x2 mid y2 w r) 0) 2 = x2 :: (mid ++ [y2]) := by
    unfold token; rw [g2, t2]; rfl
  have h20b : 20 ≤ (segments (delimitedLine a x2 mid y2 w r)).length := by
    rw [s2]; rw [s1] at h20; exact h20
  refine ⟨k1, k2, ?_, ?_⟩
  · intro m hm
    rw [ParseRtr_record_iff] at hm
    obtain ⟨_, _, _, t, ht, _, _, _, _, _, _, _, _, _, _, _, _, rfl⟩ := hm
    rw [k1, inner_between] at ht
    exact ht
  · have n1 : ¬ (Split (delimitedLine a x1 mid y1 w r) (byte '"')).length < 20 := by
      unfold segments at h20; rw [List.length_map] at h20; omega
    have n2 : ¬ (Split (delimitedLine a x2 mid y2 w r) (byte '"')).length < 20 := by
      unfold segments at h20b; rw [List.length_map] at h20b; omega
    unfold segment at g1 g2 k1 k2
    rw [ParseRtr_blocks, ParseRtr_blocks, if_neg n1, if_neg n2]
    apply parseHost_congr lib _ _ _ h20 h20b
    · intro i hi
      have hi0 : i ≠ 0 := by
        intro h0; rw [h0] at hi; exact absurd hi (by decide)
      obtain ⟨j, rfl⟩ := Nat.exists_eq_succ_of_ne_zero hi0
      rw [s1, s2]
      rfl
    · rw [g1, g2, t1, t2]
      simp only [List.length_cons]
    · intro hlt
      rw [g1, t1] at hlt
      simp only [List.length_cons] at hlt
      omega
    · unfold token
      rw [g1, g2, t1, t2]
      rfl
    · rw [k1, k2]
      simp only [List.length_cons, List.length_append, List.length_nil]
    · rw [k1, k2, inner_between, inner_between]

/-- Claim C19, amended: `ParseRtr` does not check that the timestamp token is enclosed in
brackets. Every record has the timestamp that `time.Parse` reads from the third token of
segment 0 without its first and its last byte, whatever they are. Two lines of at least 20
segments have the same outcome (the same record, or the same failure with the same partial
record and error) when they agree on the later segments that the parser reads, on the first
token of segment 0, and on what is between the first and the last byte of the third token of
segment 0. So two lines of at least 20 segments that differ only in those two bytes, each a
single-byte character that is no white space and no quote replaced by another such character,
have the same outcome. -/
theorem ParseRtr_ignores_timestamp_delimiters (lib : StdLib) :
    (∀ log m, ParseRtr lib log = Outcome.record m →
      2 ≤ (token (segment log 0) 2).length ∧
        lib.timeParse (inner (token (segment log 0) 2)) = Except.ok m.timestamp) ∧
    (∀ log1 log2, 20 ≤ (segments log1).length → 20 ≤ (segments log2).length →
      (∀ i ∈ laterSegments, segment log1 i = segment log2 i) →
      3 ≤ (tokens (segment log1 0)).length → 3 ≤ (tokens (segment log2 0)).length →
      token (segment log1 0) 0 = token (segment log2 0) 0 →
      2 ≤ (token (segment log1 0) 2).length → 2 ≤ (token (segment log2 0) 2).length →
      inner (token (segment log1 0) 2) = inner (token (segment log2 0) 2) →
      ParseRtr lib log1 = ParseRtr lib log2) ∧
    (∀ (a mid w r T0 T1 : GoString) (x1 y1 x2 y2 : Nat),
      trimLeft a = T0 ++ byte ' ' :: (T1 ++ [byte ' ']) →
      byte ' ' ∉ T0 → byte ' ' ∉ T1 → byte '"' ∉ a →
      byte ' ' ∉ mid → byte '"' ∉ mid →
      (w = [] ∨ ∃ v, w = byte ' ' :: v) → byte '"' ∉ w →
      IsPlainByte x1 → IsPlainByte y1 → IsPlainByte x2 → IsPlainByte y2 →
      20 ≤ (segments (delimitedLine a x1 mid y1 w r)).length →
      token (segment (delimitedLine a x1 mid y1 w r) 0) 2 = x1 :: (mid ++ [y1]) ∧
      token (segment (delimitedLine a x2 mid y2 w r) 0) 2 = x2 :: (mid ++ [y2]) ∧
      ParseRtr lib (delimitedLine a x1 mid y1 w r) =
        ParseRtr lib (delimitedLine a x2 mid y2 w r)) := by
  refine ⟨?_, ?_, ?_⟩
  · intro log m hm
    rw [ParseRtr_record_iff] at hm
    obtain ⟨_, _, h2, t, ht, _, _, _, _, _, _, _, _, _, _, _, _, rfl⟩ := hm
    exact ⟨h2, ht⟩
  · intro log1 log2 h1 h2 h l1 l2 h0 b1 b2 hi
    have n1 : ¬ (Split log1 (byte '"')).length < 20 := by
      unfold segments at h1; rw [List.length_map] at h1; omega
    have n2 : ¬ (Split log2 (byte '"')).length < 20 := by
      unfold segments at h2; rw [List.length_map] at h2; omega
    unfold segment at h l1 l2 h0 b1 b2 hi
    rw [ParseRtr_blocks, ParseRtr_blocks, if_neg n1, if_neg n2]
    apply parseHost_congr lib _ _ _ h1 h2 h _ _ h0 _ hi
    · constructor <;> intro c <;> omega
    · intro c; omega
    · constructor <;> intro c <;> omega
  · intro a mid w r T0 T1 x1 y1 x2 y2 ha hT0 hT1 haq hmid hmidq hw hwq hx1 hy1 hx2 hy2 h20
    have h := delimitedLine_outcome lib a mid w r T0 T1 x1 y1 x2 y2 ha hT0 hT1 haq hmid hmidq
      hw hwq hx1 hy1 hx2 hy2 h20
    exact ⟨h.1, h.2.1, h.2.2.2⟩

set_option maxRecDepth 100000 in
/-- The well-formed line with `x` and `y` in the place of the brackets of the timestamp is
accepted exactly like the well-formed line. -/
theorem ParseRtr_ignores_timestamp_delimiters_witness :
    (goldenLine = delimitedLine (lit "www.example.com - ") (byte '[')
        (lit "2017-01-01T12:00:00.000+0000") (byte ']') (lit " ") goldenRest ∧
      xyLine = delimitedLine (lit "www.example.com - ") (byte 'x')
        (lit "2017-01-01T12:00:00.000+0000") (byte 'y') (lit " ") goldenRest) ∧
    ParseRtr refLib xyLine = Outcome.record goldenRecord ∧
    (token (segment (delimitedLine (lit "www.example.com - ") (byte '[')
        (lit "2017-01-01T12:00:00.000+0000") (byte ']') (lit " ") goldenRest) 0) 2 =
        byte '[' :: (lit "2017-01-01T12:00:00.000+0000" ++ [byte ']']) ∧
      token (segment (delimitedLine (lit "www.example.com - ") (byte 'x')
        (lit "2017-01-01T12:00:00.000+0000") (byte 'y') (lit " ") goldenRest) 0) 2 =
        byte 'x' :: (lit "2017-01-01T12:00:00.000+0000" ++ [byte 'y']) ∧
      ParseRtr refLib
          (delimitedLine (lit "www.example.com - ") (byte '[')
            (lit "2017-01-01T12:00:00.000+0000") (byte ']') (lit " ") goldenRest) =
        ParseRtr refLib
          (delimitedLine (lit "www.example.com - ") (byte 'x')
            (lit "2017-01-01T12:00:00.000+0000") (byte 'y') (lit " ") goldenRest)) :=
  ⟨⟨by decide, by decide⟩, by decide,
    (ParseRtr_ignores_timestamp_delimiters refLib).2.2 (lit "www.example.com - ")
      (lit "2017-01-01T12:00:00.000+0000") (lit " ") goldenRest (lit "www.example.com")
      (lit "-") (byte '[') (byte ']') (byte 'x') (byte 'y') (by decide) (by decide)
      (by decide) (by decide) (by decide) (by decide) (Or.inr ⟨[], by decide⟩) (by decide)
      (by decide) (by decide) (by decide) (by decide) (by decide)⟩

set_option maxRecDepth 100000 in
/-- Claim C19 as stated fails on lines of fewer than 20 segments. The line cut after its third
segment and the same line with `x` and `y` in the place of the brackets differ only in the first
and the last byte of the third token of segment 0, and `ParseRtr` returns two errors, each one
made of its own line. -/
theorem ParseRtr_timestamp_delimiters_in_error :
    (token (segment truncatedLine 0) 2 = lit "[2017-01-01T12:00:00.000+0000]" ∧
      token (segment truncatedXyLine 0) 2 = lit "x2017-01-01T12:00:00.000+0000y" ∧
      truncatedLine = lit "www.example.com - " ++ byte '[' ::
        (lit "2017-01-01T12:00:00.000+0000" ++ byte ']' ::
          lit " \"GET /path HTTP/1.1\" 200 0 1234") ∧
      truncatedXyLine = lit "www.example.com - " ++ byte 'x' ::
        (lit "2017-01-01T12:00:00.000+0000" ++ byte 'y' ::
          lit " \"GET /path HTTP/1.1\" 200 0 1234")) ∧
    ParseRtr refLib truncatedLine =
      Outcome.failure RtrMessage.zero (lit "Error parsing RTR message: " ++ truncatedLine) ∧
    ParseRtr refLib truncatedXyLine =
      Outcome.failure RtrMessage.zero (lit "Error parsing RTR message: " ++ truncatedXyLine) ∧
    ParseRtr refLib truncatedLine ≠ ParseRtr refLib truncatedXyLine := by
  decide

/-! ## The arithmetic of the response time

The reference library rounds to nearest, ties to even, as binary64 does. -/

theorem bitLenAux_zero (fuel : Nat) : bitLenAux fuel 0 = 0 := by
  cases fuel <;> simp [bitLenAux]

theorem bitLenAux_spec (fuel : Nat) : ∀ n : Nat, n ≤ fuel → 0 < n →
    2 ^ (bitLenAux fuel n - 1) ≤ n ∧ n < 2 ^ bitLenAux fuel n ∧ 0 < bitLenAux fuel n := by
  induction fuel with
  | zero => intro n h hn; omega
  | succ fuel ih =>
    intro n h hn
    have hne : n ≠ 0 := by omega
    rw [bitLenAux, if_neg hne]
    by_cases h2 : n / 2 = 0
    · rw [h2, bitLenAux_zero]
      have : n = 1 := by omega
      subst this
      simp
    · obtain ⟨a, b, c⟩ := ih (n / 2) (by omega) (by omega)
      have e : 2 ^ bitLenAux fuel (n / 2) = 2 * 2 ^ (bitLenAux fuel (n / 2) - 1) := by
        rw [← pow_succ']
        congr 1
        omega
      refine ⟨?_, ?_, by omega⟩
      · rw [Nat.add_sub_cancel, e]
        omega
      · rw [pow_succ]
        omega

theorem bitLen_spec (n : Nat) (hn : 0 < n) :
    2 ^ (bitLen n - 1) ≤ n ∧ n < 2 ^ bitLen n ∧ 0 < bitLen n :=
  bitLenAux_spec n n (Nat.le_refl n) hn

theorem roundHalfEven_spec (num den : Nat) (hden : 0 < den) :
    2 * (roundHalfEven num den * den) ≤ 2 * num + den ∧
      2 * num ≤ 2 * (roundHalfEven num den * den) + den ∧
      ((2 * (roundHalfEven num den * den) = 2 * num + den ∨
        2 * num = 2 * (roundHalfEven num den * den) + den) →
        roundHalfEven num den % 2 = 0) := by
  have hq := Nat.div_add_mod num den
  have hr := Nat.mod_lt num hden
  have e1 : (num / den + 1) * den = den * (num / den) + den := by ring
  have e2 : num / den * den = den * (num / den) := by ring
  unfold roundHalfEven
  simp only []
  split_ifs with h1 h2 h3
  · rw [e2]; omega
  · rw [e1]; omega
  · rw [e2]; omega
  · rw [e1]; omega

theorem roundHalfEven_rat (num den : Nat) (hden : 0 < den) :
    |(roundHalfEven num den : ℚ) - (num : ℚ) / den| ≤ 1 / 2 ∧
      (|(roundHalfEven num den : ℚ) - (num : ℚ) / den| = 1 / 2 →
        roundHalfEven num den % 2 = 0) := by
  obtain ⟨h1, h2, h3⟩ := roundHalfEven_spec num den hden
  have hd : (0 : ℚ) < den := by exact_mod_cast hden
  have h1q : (2 : ℚ) * (roundHalfEven num den * den) ≤ 2 * num + den := by exact_mod_cast h1
  have h2q : (2 : ℚ) * num ≤ 2 * (roundHalfEven num den * den) + den := by exact_mod_cast h2
  have hX : (num : ℚ) / den * den = num := div_mul_cancel₀ _ (ne_of_gt hd)
  set X : ℚ := (num : ℚ) / den with hXdef
  set r : ℚ := (roundHalfEven num den : ℚ) with hrdef
  have hle : r - X ≤ 1 / 2 := by
    by_contra hc
    push_neg at hc
    have : (1 / 2) * (den : ℚ) < (r - X) * den := mul_lt_mul_of_pos_right hc hd
    nlinarith
  have hge : -(1 / 2) ≤ r - X := by
    by_contra hc
    push_neg at hc
    have : (r - X) * den < -(1 / 2) * (den : ℚ) := mul_lt_mul_of_pos_right hc hd
    nlinarith
  refine ⟨abs_le.mpr ⟨hge, hle⟩, ?_⟩
  intro heq
  apply h3
  rcases abs_eq (by norm_num : (0 : ℚ) ≤ 1 / 2) |>.mp heq with h | h
  · left
    have : (2 : ℚ) * (r * den) = 2 * num + den := by
      have : r = X + 1 / 2 := by linarith
      rw [this]; nlinarith
    rw [hrdef] at this
    exact_mod_cast this
  · right
    have : (2 : ℚ) * num = 2 * (r * den) + den := by
      have : r = X - 1 / 2 := by linarith
      rw [this]; nlinarith
    rw [hrdef] at this
    exact_mod_cast this

theorem nearest_integer (r k : Nat) (X : ℚ) (h : |(r : ℚ) - X| ≤ 1 / 2)
    (he : |(r : ℚ) - X| = 1 / 2 → r % 2 = 0) :
    |(r : ℚ) - X| ≤ |(k : ℚ) - X| ∧ (|(k : ℚ) - X| = |(r : ℚ) - X| → k = r ∨ r % 2 = 0) := by
  by_cases hkr : k = r
  · subst hkr
    exact ⟨le_refl _, fun _ => Or.inl rfl⟩
  · have h1 : (1 : ℚ) ≤ |(k : ℚ) - r| := by
      have hz : (k : ℤ) - r ≠ 0 := by
        intro h0
        apply hkr
        have : (k : ℤ) = r := by omega
        exact_mod_cast this
      have : (1 : ℤ) ≤ |(k : ℤ) - r| := Int.one_le_abs hz
      have h2 : ((1 : ℤ) : ℚ) ≤ ((|(k : ℤ) - r| : ℤ) : ℚ) := by exact_mod_cast this
      simpa using h2
    have h2 : |(k : ℚ) - r| ≤ |(k : ℚ) - X| + |(r : ℚ) - X| := by
      have := abs_sub_le (k : ℚ) X r
      rwa [abs_sub_comm X (r : ℚ)] at this
    have h3 : 1 / 2 ≤ |(k : ℚ) - X| := by linarith
    refine ⟨by linarith, fun heq => Or.inr (he ?_)⟩
    linarith

theorem abs_scale (a X T : ℚ) (hT : 0 < T) : |a * T - X * T| = T * |a - X| := by
  rw [← sub_mul, abs_mul, abs_of_pos hT, mul_comm]

theorem dyadic_shift (m : Nat) (p q : Int) (h : p ≤ q) :
    dyadic m q = ((m * 2 ^ (q - p).toNat : Nat) : ℚ) * (2 : ℚ) ^ p := by
  unfold dyadic
  have e : q = p + ((q - p).toNat : Int) := by
    rw [Int.toNat_of_nonneg (by omega)]; ring
  have h2 : (2 : ℚ) ≠ 0 := by norm_num
  conv_lhs => rw [e]
  rw [zpow_add₀ h2, zpow_natCast]
  push_cast
  ring

/-- Rounding the scaled value to the nearest integer, ties to even, rounds to nearest even. -/
theorem nearestEven_of_round (x : ℚ) (p : Int) (r : Nat) (hp : -1074 ≤ p)
    (hX : x * (2 : ℚ) ^ (-p) < 2 ^ 53)
    (hlow : -1074 < p → (2 : ℚ) ^ 52 ≤ x * (2 : ℚ) ^ (-p))
    (hr : |(r : ℚ) - x * (2 : ℚ) ^ (-p)| ≤ 1 / 2)
    (he : |(r : ℚ) - x * (2 : ℚ) ^ (-p)| = 1 / 2 → r % 2 = 0) :
    IsNearestEven x (if r = 2 ^ 53 then 2 ^ 52 else r) (if r = 2 ^ 53 then p + 1 else p) ∧
      dyadic (if r = 2 ^ 53 then 2 ^ 52 else r) (if r = 2 ^ 53 then p + 1 else p) =
        (r : ℚ) * (2 : ℚ) ^ p := by
  have h2 : (2 : ℚ) ≠ 0 := by norm_num
  have hT : (0 : ℚ) < (2 : ℚ) ^ p := zpow_pos (by norm_num) p
  set X : ℚ := x * (2 : ℚ) ^ (-p) with hXdef
  have hx : x = X * (2 : ℚ) ^ p := by
    rw [hXdef, mul_assoc, ← zpow_add₀ h2]; simp
  have habs := abs_le.mp hr
  have hr53 : r ≤ 2 ^ 53 := by
    by_contra hc
    push_neg at hc
    have : ((2 ^ 53 + 1 : Nat) : ℚ) ≤ (r : ℚ) := by exact_mod_cast hc
    push_cast at this
    linarith [habs.2]
  have hval : dyadic (if r = 2 ^ 53 then 2 ^ 52 else r) (if r = 2 ^ 53 then p + 1 else p) =
      (r : ℚ) * (2 : ℚ) ^ p := by
    unfold dyadic
    by_cases h : r = 2 ^ 53
    · rw [if_pos h, if_pos h, h, zpow_add_one₀ h2]
      push_cast
      ring
    · rw [if_neg h, if_neg h]
  have hdist : |(r : ℚ) * (2 : ℚ) ^ p - x| = (2 : ℚ) ^ p * |(r : ℚ) - X| := by
    rw [hx]; exact abs_scale _ _ _ hT
  have heven : r % 2 = 0 → (if r = 2 ^ 53 then 2 ^ 52 else r) % 2 = 0 := by
    intro h
    by_cases hc : r = 2 ^ 53
    · rw [if_pos hc]; norm_num
    · rw [if_neg hc]; exact h
  refine ⟨⟨⟨?_, ?_⟩, ?_, ?_⟩, hval⟩
  · by_cases h : r = 2 ^ 53
    · rw [if_pos h]; norm_num
    · rw [if_neg h]; omega
  · by_cases h : r = 2 ^ 53
    · rw [if_pos h]; omega
    · rw [if_neg h]; exact hp
  · by_cases h : r = 2 ^ 53
    · left; rw [if_pos h]
    · rw [if_neg h, if_neg h]
      by_cases hp2 : p = -1074
      · right; exact hp2
      · left
        have hl := hlow (by omega)
        by_contra hc
        push_neg at hc
        have : ((r + 1 : Nat) : ℚ) ≤ ((2 ^ 52 : Nat) : ℚ) := by exact_mod_cast hc
        push_cast at this
        linarith [habs.1]
  · intro m' p' hb
    rw [hval, hdist]
    by_cases hpp : p ≤ p'
    · rw [dyadic_shift m' p p' hpp, hx, abs_scale _ _ _ hT]
      obtain ⟨n1, n2⟩ := nearest_integer r (m' * 2 ^ (p' - p).toNat) X hr he
      refine ⟨mul_le_mul_of_nonneg_left n1 (le_of_lt hT), fun heq => ?_⟩
      have heq2 := mul_left_cancel₀ (ne_of_gt hT) heq
      rcases n2 heq2 with h | h
      · left; rw [h]
      · right; exact heven h
    · push_neg at hpp
      have hl := hlow (by have := hb.2; omega)
      have hY : dyadic m' p' < (2 : ℚ) ^ 52 * (2 : ℚ) ^ p := by
        unfold dyadic
        have hm : (m' : ℚ) < 2 ^ 53 := by exact_mod_cast hb.1
        have hz : (2 : ℚ) ^ p' ≤ (2 : ℚ) ^ (p - 1) :=
          zpow_le_zpow_right₀ (by norm_num) (by omega)
        have hz0 : (0 : ℚ) < (2 : ℚ) ^ p' := zpow_pos (by norm_num) p'
        have hz1 : (2 : ℚ) ^ (p - 1) = (2 : ℚ) ^ p / 2 := by
          rw [zpow_sub_one₀ h2]; ring
        have hm0 : (0 : ℚ) ≤ (m' : ℚ) := Nat.cast_nonneg _
        calc (m' : ℚ) * (2 : ℚ) ^ p' ≤ (m' : ℚ) * ((2 : ℚ) ^ p / 2) := by
              rw [← hz1]; exact mul_le_mul_of_nonneg_left hz hm0
          _ < 2 ^ 53 * ((2 : ℚ) ^ p / 2) := by
              apply mul_lt_mul_of_pos_right hm
              positivity
          _ = (2 : ℚ) ^ 52 * (2 : ℚ) ^ p := by ring
      obtain ⟨n1, _⟩ := nearest_integer r (2 ^ 52) X hr he
      have n1b : |(r : ℚ) - X| ≤ X - 2 ^ 52 := by
        have e : |((2 ^ 52 : Nat) : ℚ) - X| = X - 2 ^ 52 := by
          push_cast
          rw [abs_sub_comm]
          exact abs_of_nonneg (by linarith)
        rw [e] at n1
        exact n1
      have hlt : (2 : ℚ) ^ p * |(r : ℚ) - X| < |dyadic m' p' - x| := by
        have e : |dyadic m' p' - x| = x - dyadic m' p' := by
          rw [abs_sub_comm]
          apply abs_of_nonneg
          rw [hx]
          nlinarith
        rw [e, hx]
        nlinarith
      exact ⟨le_of_lt hlt, fun heq => absurd heq (ne_of_gt hlt)⟩

theorem zpow_neg_split (p : Int) :
    (2 : ℚ) ^ (-p) = ((2 ^ (-p).toNat : Nat) : ℚ) / ((2 ^ p.toNat : Nat) : ℚ) := by
  have h2 : (2 : ℚ) ≠ 0 := by norm_num
  rcases le_total 0 p with h | h
  · have e1 : (-p).toNat = 0 := Int.toNat_eq_zero.mpr (by omega)
    have e2 : ((p.toNat : Nat) : Int) = p := Int.toNat_of_nonneg h
    rw [e1, zpow_neg]
    conv_lhs => rw [← e2]
    rw [zpow_natCast]
    push_cast
    ring
  · have e1 : p.toNat = 0 := Int.toNat_eq_zero.mpr h
    have e2 : (((-p).toNat : Nat) : Int) = -p := Int.toNat_of_nonneg (by omega)
    rw [e1]
    conv_lhs => rw [← e2]
    rw [zpow_natCast]
    push_cast
    ring

/-- The quotient that `nearest64` rounds is the value scaled by `2 ^ (-p)`. -/
theorem scaled_quotient (num den : Nat) (p : Int) :
    ((num * 2 ^ (-p).toNat : Nat) : ℚ) / ((den * 2 ^ p.toNat : Nat) : ℚ) =
      (num : ℚ) / den * (2 : ℚ) ^ (-p) := by
  rw [zpow_neg_split]
  push_cast
  rw [div_mul_div_comm]

theorem scaled_den_pos (den : Nat) (p : Int) (hd : 0 < den) : 0 < den * 2 ^ p.toNat :=
  Nat.mul_pos hd (Nat.pow_pos (by norm_num))

/-- The exponent that `nearest64` reaches before the bound at -1074 puts the scaled value in
the range of 53-bit integers. -/
theorem nearest64_exponent (num den : Nat) (hn : 0 < num) (hd : 0 < den) (p1 : Int)
    (hp1 : p1 = if 2 ^ 53 * (den * 2 ^ ((bitLen num : Int) - (bitLen den : Int) - 53).toNat) ≤
        num * 2 ^ (-((bitLen num : Int) - (bitLen den : Int) - 53)).toNat
      then (bitLen num : Int) - (bitLen den : Int) - 53 + 1
      else (bitLen num : Int) - (bitLen den : Int) - 53) :
    (2 : ℚ) ^ 52 ≤ (num : ℚ) / den * (2 : ℚ) ^ (-p1) ∧
      (num : ℚ) / den * (2 : ℚ) ^ (-p1) < 2 ^ 53 := by
  have h2 : (2 : ℚ) ≠ 0 := by norm_num
  obtain ⟨n1, n2, n3⟩ := bitLen_spec num hn
  obtain ⟨d1, d2, d3⟩ := bitLen_spec den hd
  set bn := bitLen num
  set bd := bitLen den
  set p0 : Int := (bn : Int) - (bd : Int) - 53 with hp0
  have hdq : (0 : ℚ) < den := by exact_mod_cast hd
  have hnq : (0 : ℚ) < num := by exact_mod_cast hn
  have n1q : (2 : ℚ) ^ ((bn : Int) - 1) ≤ num := by
    have : ((2 ^ (bn - 1) : Nat) : ℚ) ≤ num := by exact_mod_cast n1
    have e : ((bn : Int) - 1) = ((bn - 1 : Nat) : Int) := by omega
    rw [e, zpow_natCast]
    exact_mod_cast this
  have n2q : (num : ℚ) < (2 : ℚ) ^ (bn : Int) := by
    have : (num : ℚ) < ((2 ^ bn : Nat) : ℚ) := by exact_mod_cast n2
    rw [zpow_natCast]
    exact_mod_cast this
  have d1q : (2 : ℚ) ^ ((bd : Int) - 1) ≤ den := by
    have : ((2 ^ (bd - 1) : Nat) : ℚ) ≤ den := by exact_mod_cast d1
    have e : ((bd : Int) - 1) = ((bd - 1 : Nat) : Int) := by omega
    rw [e, zpow_natCast]
    exact_mod_cast this
  have d2q : (den : ℚ) < (2 : ℚ) ^ (bd : Int) := by
    have : (den : ℚ) < ((2 ^ bd : Nat) : ℚ) := by exact_mod_cast d2
    rw [zpow_natCast]
    exact_mod_cast this
  have hs : (0 : ℚ) < (2 : ℚ) ^ (-p0) := zpow_pos (by norm_num) _
  -- the scaled value at `p0` lies strictly between `2 ^ 52` and `2 ^ 54`
  have up : (num : ℚ) / den * (2 : ℚ) ^ (-p0) < 2 ^ 54 := by
    have e : (2 : ℚ) ^ (54 : Nat) = (2 : ℚ) ^ (bn : Int) / (2 : ℚ) ^ ((bd : Int) - 1) *
        (2 : ℚ) ^ (-p0) := by
      rw [← zpow_sub₀ h2, ← zpow_add₀ h2, ← zpow_natCast]
      congr 1
      rw [hp0]; push_cast; ring
    rw [e]
    apply mul_lt_mul_of_pos_right _ hs
    have hpos : (0 : ℚ) < (2 : ℚ) ^ ((bd : Int) - 1) := zpow_pos (by norm_num) _
    calc (num : ℚ) / den ≤ (num : ℚ) / (2 : ℚ) ^ ((bd : Int) - 1) :=
          div_le_div_of_nonneg_left (le_of_lt hnq) hpos d1q
      _ < (2 : ℚ) ^ (bn : Int) / (2 : ℚ) ^ ((bd : Int) - 1) :=
          div_lt_div_of_pos_right n2q hpos
  have low : (2 : ℚ) ^ 52 < (num : ℚ) / den * (2 : ℚ) ^ (-p0) := by
    have e : (2 : ℚ) ^ (52 : Nat) = (2 : ℚ) ^ ((bn : Int) - 1) / (2 : ℚ) ^ (bd : Int) *
        (2 : ℚ) ^ (-p0) := by
      rw [← zpow_sub₀ h2, ← zpow_add₀ h2, ← zpow_natCast]
      congr 1
      rw [hp0]; push_cast; ring
    rw [e]
    apply mul_lt_mul_of_pos_right _ hs
    have hpos : (0 : ℚ) < (2 : ℚ) ^ (bd : Int) := zpow_pos (by norm_num) _
    have hpos2 : (0 : ℚ) < (2 : ℚ) ^ ((bn : Int) - 1) := zpow_pos (by norm_num) _
    calc (2 : ℚ) ^ ((bn : Int) - 1) / (2 : ℚ) ^ (bd : Int)
        < (2 : ℚ) ^ ((bn : Int) - 1) / den := div_lt_div_of_pos_left hpos2 hdq d2q
      _ ≤ (num : ℚ) / den := div_le_div_of_nonneg_right n1q (le_of_lt hdq)
  have hcond : (2 ^ 53 * (den * 2 ^ p0.toNat) ≤ num * 2 ^ (-p0).toNat) ↔
      (2 : ℚ) ^ 53 ≤ (num : ℚ) / den * (2 : ℚ) ^ (-p0) := by
    rw [← scaled_quotient, le_div_iff₀ (by exact_mod_cast scaled_den_pos den p0 hd)]
    constructor
    · intro h; exact_mod_cast h
    · intro h; exact_mod_cast h
  by_cases hc : 2 ^ 53 * (den * 2 ^ p0.toNat) ≤ num * 2 ^ (-p0).toNat
  · rw [if_pos hc] at hp1
    have hq := hcond.mp hc
    have e : (2 : ℚ) ^ (-p1) = (2 : ℚ) ^ (-p0) / 2 := by
      rw [hp1, show -(p0 + 1) = -p0 - 1 by ring, zpow_sub_one₀ h2]; ring
    rw [e]
    constructor
    · have : (num : ℚ) / den * ((2 : ℚ) ^ (-p0) / 2) =
          ((num : ℚ) / den * (2 : ℚ) ^ (-p0)) / 2 := by ring
      rw [this]; linarith
    · have : (num : ℚ) / den * ((2 : ℚ) ^ (-p0) / 2) =
          ((num : ℚ) / den * (2 : ℚ) ^ (-p0)) / 2 := by ring
      rw [this]; linarith
  · rw [if_neg hc] at hp1
    have hq : ¬ (2 : ℚ) ^ 53 ≤ (num : ℚ) / den * (2 : ℚ) ^ (-p0) := fun h => hc (hcond.mpr h)
    push_neg at hq
    rw [hp1]
    exact ⟨le_of_lt low, hq⟩

/-- The function `nearest64` rounds to nearest, ties to even, and its result stands for
`m * 2 ^ p` with the rounded integer `m` at the chosen exponent. -/
theorem nearest64_spec (num den : Nat) (hn : 0 < num) (hd : 0 < den) :
    IsNearestEven ((num : ℚ) / den) (nearest64 num den).1 (nearest64 num den).2 := by
  have h2 : (2 : ℚ) ≠ 0 := by norm_num
  set p1 : Int :=
    if 2 ^ 53 * (den * 2 ^ ((bitLen num : Int) - (bitLen den : Int) - 53).toNat) ≤
        num * 2 ^ (-((bitLen num : Int) - (bitLen den : Int) - 53)).toNat
      then (bitLen num : Int) - (bitLen den : Int) - 53 + 1
      else (bitLen num : Int) - (bitLen den : Int) - 53 with hp1
  obtain ⟨lo, hi⟩ := nearest64_exponent num den hn hd p1 hp1
  set p : Int := max p1 (-1074) with hp
  have hpge : -1074 ≤ p := le_max_right _ _
  have hxpos : (0 : ℚ) < (num : ℚ) / den := by
    apply div_pos <;> exact_mod_cast (by assumption)
  have hX : (num : ℚ) / den * (2 : ℚ) ^ (-p) < 2 ^ 53 := by
    have hle : (2 : ℚ) ^ (-p) ≤ (2 : ℚ) ^ (-p1) :=
      zpow_le_zpow_right₀ (by norm_num) (by have := le_max_left p1 (-1074); omega)
    calc (num : ℚ) / den * (2 : ℚ) ^ (-p) ≤ (num : ℚ) / den * (2 : ℚ) ^ (-p1) :=
          mul_le_mul_of_nonneg_left hle (le_of_lt hxpos)
      _ < 2 ^ 53 := hi
  have hlow : -1074 < p → (2 : ℚ) ^ 52 ≤ (num : ℚ) / den * (2 : ℚ) ^ (-p) := by
    intro h
    have e : p = p1 := by
      rcases max_choice p1 (-1074) with h1 | h1
      · exact h1
      · rw [hp, h1] at h; omega
    rw [e]; exact lo
  obtain ⟨r1, r2⟩ := roundHalfEven_rat (num * 2 ^ (-p).toNat) (den * 2 ^ p.toNat)
    (scaled_den_pos den p hd)
  rw [scaled_quotient] at r1 r2
  have key := (nearestEven_of_round ((num : ℚ) / den) p _ hpge hX hlow r1 r2).1
  have e : nearest64 num den =
      (if roundHalfEven (num * 2 ^ (-p).toNat) (den * 2 ^ p.toNat) = 2 ^ 53 then
          ((2 ^ 52 : Nat), p + 1)
        else (roundHalfEven (num * 2 ^ (-p).toNat) (den * 2 ^ p.toNat), p)) := rfl
  rw [e]
  by_cases hc : roundHalfEven (num * 2 ^ (-p).toNat) (den * 2 ^ p.toNat) = 2 ^ 53
  · rw [if_pos hc] at key ⊢
    rw [if_pos hc] at key
    exact key
  · rw [if_neg hc] at key ⊢
    rw [if_neg hc] at key
    exact key

/-- The bits that `encode64` writes decode to the sign, the significand and the exponent they
were made of. -/
theorem encode64_decode (negative : Bool) (m : Nat) (p : Int) (f : Float64)
    (hb : IsBinary64 m p) (hc : 2 ^ 52 ≤ m ∨ p = -1074)
    (h : encode64 negative m p = some f) :
    f.bits / 2 ^ 52 % 2048 ≠ 2047 ∧ decide (2 ^ 63 ≤ f.bits) = negative ∧
      (if f.bits / 2 ^ 52 % 2048 = 0 then f.bits % 2 ^ 52 else 2 ^ 52 + f.bits % 2 ^ 52) = m ∧
      (if f.bits / 2 ^ 52 % 2048 = 0 then (-1074 : Int)
        else ((f.bits / 2 ^ 52 % 2048 : Nat) : Int) - 1075) = p := by
  obtain ⟨hm, hp⟩ := hb
  unfold encode64 at h
  simp only [] at h
  by_cases h1 : m < 2 ^ 52
  · rw [if_pos h1] at h
    have hp2 : p = -1074 := by
      rcases hc with hc | hc
      · omega
      · exact hc
    cases h
    simp only []
    norm_num at h1 hm ⊢
    cases negative
    · simp only [Bool.false_eq_true, if_false, Nat.zero_add]
      have e0 : m / 4503599627370496 % 2048 = 0 := by omega
      rw [if_pos e0, if_pos e0]
      refine ⟨by omega, ?_, by omega, hp2.symm⟩
      simp only [decide_eq_false_iff_not]
      omega
    · simp only [if_true]
      have e0 : (9223372036854775808 + m) / 4503599627370496 % 2048 = 0 := by omega
      rw [if_pos e0, if_pos e0]
      refine ⟨by omega, ?_, by omega, hp2.symm⟩
      simp only [decide_eq_true_eq]
      omega
  · rw [if_neg h1] at h
    by_cases h2 : 2047 ≤ p + 1075
    · rw [if_pos h2] at h; cases h
    · rw [if_neg h2] at h
      have hf := Option.some.inj h
      subst hf
      simp only []
      obtain ⟨E, hE⟩ : ∃ E : Nat, (E : Int) = p + 1075 :=
        ⟨(p + 1075).toNat, Int.toNat_of_nonneg (by omega)⟩
      have hE2 : (p + 1075).toNat = E := by omega
      rw [hE2]
      norm_num at h1 hm ⊢
      cases negative
      · simp only [Bool.false_eq_true, if_false, Nat.zero_add]
        have e0 : (E * 4503599627370496 + (m - 4503599627370496)) / 4503599627370496 % 2048
            = E := by omega
        have e1 : ¬ E = 0 := by omega
        rw [e0, if_neg e1, if_neg e1]
        refine ⟨by omega, ?_, by omega, by omega⟩
        simp only [decide_eq_false_iff_not]
        omega
      · simp only [if_true]
        have e0 : (9223372036854775808 + E * 4503599627370496 + (m - 4503599627370496)) /
            4503599627370496 % 2048 = E := by omega
        have e1 : ¬ E = 0 := by omega
        rw [e0, if_neg e1, if_neg e1]
        refine ⟨by omega, ?_, by omega, by omega⟩
        simp only [decide_eq_true_eq]
        omega

theorem dyadic_eq_div (m : Nat) (p : Int) :
    dyadic m p = ((m * 2 ^ p.toNat : Nat) : ℚ) / ((2 ^ (-p).toNat : Nat) : ℚ) := by
  unfold dyadic
  have h := zpow_neg_split (-p)
  rw [neg_neg] at h
  rw [h]
  push_cast
  ring

theorem nearestEven_zero : IsNearestEven 0 0 (-1074) := by
  refine ⟨⟨by norm_num, le_refl _⟩, Or.inr rfl, fun m' p' _ => ?_⟩
  have e : dyadic 0 (-1074) = 0 := by unfold dyadic; simp
  rw [e]
  simp only [sub_zero, abs_zero]
  refine ⟨abs_nonneg _, fun h => Or.inl ?_⟩
  exact abs_eq_zero.mp h

theorem dyadic_floor (m : Nat) (p : Int) :
    ⌊dyadic m p⌋ = ((m * 2 ^ p.toNat / 2 ^ (-p).toNat : Nat) : Int) := by
  rw [dyadic_eq_div, Rat.floor_natCast_div_natCast]
  push_cast
  rfl

theorem encode64_some (negative : Bool) (m2 : Nat) (p2 : Int)
    (hlt : dyadic m2 p2 < 2 ^ 63) : ∃ g, encode64 negative m2 p2 = some g := by
  unfold encode64
  simp only []
  by_cases c1 : m2 < 2 ^ 52
  · rw [if_pos c1]; exact ⟨_, rfl⟩
  · rw [if_neg c1]
    by_cases c2 : 2047 ≤ p2 + 1075
    · exfalso
      have hz : (2 : ℚ) ^ (11 : Int) ≤ (2 : ℚ) ^ p2 :=
        zpow_le_zpow_right₀ (by norm_num) (by omega)
      have hmq : ((2 ^ 52 : Nat) : ℚ) ≤ (m2 : ℚ) := by
        exact_mod_cast (Nat.le_of_not_lt c1)
      have : (2 : ℚ) ^ 63 ≤ dyadic m2 p2 := by
        unfold dyadic
        have e : (2 : ℚ) ^ 63 = ((2 ^ 52 : Nat) : ℚ) * (2 : ℚ) ^ (11 : Int) := by
          norm_num
        rw [e]
        exact mul_le_mul hmq hz (by positivity) (by positivity)
      linarith
    · rw [if_neg c2]; exact ⟨_, rfl⟩

theorem magnitude_lt (m2 : Nat) (p2 : Int) (hlt : dyadic m2 p2 < 2 ^ 63) :
    ((m2 * 2 ^ p2.toNat / 2 ^ (-p2).toNat : Nat) : Int) < 2 ^ 63 := by
  rw [← dyadic_floor]
  have : ((⌊dyadic m2 p2⌋ : Int) : ℚ) < ((2 ^ 63 : Int) : ℚ) := by
    push_cast
    exact lt_of_le_of_lt (Int.floor_le _) hlt
  exact_mod_cast this

theorem refDuration_of (negative : Bool) (m1 : Nat) (p1 : Int) (f : Float64) (m2 : Nat)
    (p2 : Int)
    (d1 : f.bits / 2 ^ 52 % 2048 ≠ 2047) (d2 : decide (2 ^ 63 ≤ f.bits) = negative)
    (d3 : (if f.bits / 2 ^ 52 % 2048 = 0 then f.bits % 2 ^ 52 else 2 ^ 52 + f.bits % 2 ^ 52)
      = m1)
    (d4 : (if f.bits / 2 ^ 52 % 2048 = 0 then (-1074 : Int)
        else ((f.bits / 2 ^ 52 % 2048 : Nat) : Int) - 1075) = p1)
    (hm : m1 ≠ 0)
    (hR : nearest64 (m1 * 1000000000 * 2 ^ p1.toNat) (2 ^ (-p1).toNat) = (m2, p2))
    (hlt : dyadic m2 p2 < 2 ^ 63) :
    refDuration f = (if negative then -1 else 1) * ⌊dyadic m2 p2⌋ := by
  obtain ⟨g, hg⟩ := encode64_some negative m2 p2 hlt
  have hmag := magnitude_lt m2 p2 hlt
  unfold refDuration
  conv_lhs => zeta
  rw [if_neg d1, d3, d4, if_neg hm, d2, hR]
  simp only []
  rw [hg]
  simp only []
  rw [dyadic_floor]
  have h0 : (0 : Int) ≤ ((m2 * 2 ^ p2.toNat / 2 ^ (-p2).toNat : Nat) : Int) :=
    Int.natCast_nonneg _
  generalize ((m2 * 2 ^ p2.toNat / 2 ^ (-p2).toNat : Nat) : Int) = M at hmag h0 ⊢
  cases negative
  · simp only [Bool.false_eq_true, if_false, one_mul]
    rw [if_pos]
    constructor <;> omega
  · simp only [if_true, neg_mul, one_mul]
    rw [if_pos]
    constructor <;> omega

/-- The conversion of the reference library is the product with 1,000,000,000 rounded to
nearest even, truncated toward zero, as long as the rounded product is below `2 ^ 63`. -/
theorem refDuration_spec (negative : Bool) (m1 : Nat) (p1 : Int) (f : Float64)
    (hb : IsBinary64 m1 p1) (hc : 2 ^ 52 ≤ m1 ∨ p1 = -1074)
    (h : encode64 negative m1 p1 = some f) :
    ∃ m2 p2, IsNearestEven (dyadic m1 p1 * 1000000000) m2 p2 ∧
      (dyadic m2 p2 < 2 ^ 63 →
        refDuration f = (if negative then -1 else 1) * ⌊dyadic m2 p2⌋) := by
  obtain ⟨d1, d2, d3, d4⟩ := encode64_decode negative m1 p1 f hb hc h
  by_cases hm : m1 = 0
  · refine ⟨0, -1074, ?_, fun _ => ?_⟩
    · have e : dyadic m1 p1 * 1000000000 = 0 := by rw [hm]; unfold dyadic; simp
      rw [e]; exact nearestEven_zero
    · have e : dyadic 0 (-1074) = 0 := by unfold dyadic; simp
      rw [e]
      unfold refDuration
      conv_lhs => zeta
      rw [if_neg d1, d3, if_pos hm]
      simp
  · refine ⟨(nearest64 (m1 * 1000000000 * 2 ^ p1.toNat) (2 ^ (-p1).toNat)).1,
      (nearest64 (m1 * 1000000000 * 2 ^ p1.toNat) (2 ^ (-p1).toNat)).2, ?_, ?_⟩
    · have hs := nearest64_spec (m1 * 1000000000 * 2 ^ p1.toNat) (2 ^ (-p1).toNat)
        (Nat.mul_pos (Nat.mul_pos (Nat.pos_of_ne_zero hm) (by norm_num))
          (Nat.pow_pos (by norm_num)))
        (Nat.pow_pos (by norm_num))
      have e : ((m1 * 1000000000 * 2 ^ p1.toNat : Nat) : ℚ) / ((2 ^ (-p1).toNat : Nat) : ℚ) =
          dyadic m1 p1 * 1000000000 := by
        rw [dyadic_eq_div]
        push_cast
        ring
      rw [e] at hs
      exact hs
    · intro hlt
      exact refDuration_of negative m1 p1 f _ _ d1 d2 d3 d4 hm Prod.mk.eta.symm hlt

/-- The function `refFloat` on a plain decimal: zero, or the rounding of `num / 10 ^ k`. -/
theorem refFloat_of_readDecimal (v : GoString) (negative : Bool) (num k : Nat)
    (h : readDecimal v = some (negative, num, k)) :
    refFloat v =
      if num = 0 then some ⟨if negative then 2 ^ 63 else 0⟩
      else encode64 negative (nearest64 num (10 ^ k)).1 (nearest64 num (10 ^ k)).2 := by
  unfold readDecimal at h
  unfold refFloat
  simp only [] at h ⊢
  split at h
  · cases h
  · rename_i fr hfr
    split at h
    · cases h
    · rename_i hlen
      rw [if_neg hlen]
      simp only [Option.some.injEq, Prod.mk.injEq] at h
      obtain ⟨rfl, rfl, rfl⟩ := h
      rfl

theorem refDuration_zero (negative : Bool) :
    refDuration ⟨if negative then 2 ^ 63 else 0⟩ = 0 := by
  cases negative <;> decide

/-- The response time of the reference library on a plain decimal: the decimal is rounded to
nearest even, the product with 1,000,000,000 is rounded to nearest even, and the rounded product
is truncated toward zero. -/
theorem refLib_duration (v : GoString) (negative : Bool) (num k : Nat) (f : Float64)
    (h : readDecimal v = some (negative, num, k)) (hf : refFloat v = some f) :
    ∃ m1 p1 m2 p2, IsNearestEven ((num : ℚ) / 10 ^ k) m1 p1 ∧
      IsNearestEven (dyadic m1 p1 * 1000000000) m2 p2 ∧
      (dyadic m2 p2 < 2 ^ 63 →
        refDuration f = (if negative then -1 else 1) * ⌊dyadic m2 p2⌋) := by
  rw [refFloat_of_readDecimal v negative num k h] at hf
  by_cases hn : num = 0
  · rw [if_pos hn] at hf
    have hf2 := Option.some.inj hf
    subst hf2
    have e0 : dyadic 0 (-1074) = 0 := by unfold dyadic; simp
    refine ⟨0, -1074, 0, -1074, ?_, ?_, fun _ => ?_⟩
    · rw [hn]; simp only [Nat.cast_zero, zero_div]; exact nearestEven_zero
    · rw [e0, zero_mul]; exact nearestEven_zero
    · rw [refDuration_zero, e0]; simp
  · rw [if_neg hn] at hf
    have hs := nearest64_spec num (10 ^ k) (Nat.pos_of_ne_zero hn) (Nat.pow_pos (by norm_num))
    have e : (((10 ^ k : Nat) : ℚ)) = (10 : ℚ) ^ k := by push_cast; rfl
    rw [e] at hs
    obtain ⟨m2, p2, h2, h3⟩ := refDuration_spec negative _ _ f hs.1 hs.2.1 hf
    exact ⟨_, _, m2, p2, hs, h2, h3⟩

theorem nearestEven_lt_absurd (x : ℚ) (m m' : Nat) (p p' : Int)
    (h : IsNearestEven x m p) (h' : IsNearestEven x m' p')
    (hlt : dyadic m p < dyadic m' p') : False := by
  have h2 : (2 : ℚ) ≠ 0 := by norm_num
  obtain ⟨hb, hc, hn⟩ := h
  obtain ⟨hb', hc', hn'⟩ := h'
  have d1 := (hn m' p' hb').1
  have d2 := (hn' m p hb).1
  have deq : |dyadic m' p' - x| = |dyadic m p - x| := le_antisymm d2 d1
  have hev : m % 2 = 0 := by
    rcases (hn m' p' hb').2 deq with e | e
    · exact absurd e (ne_of_gt hlt)
    · exact e
  have hev' : m' % 2 = 0 := by
    rcases (hn' m p hb).2 deq.symm with e | e
    · exact absurd e (ne_of_lt hlt)
    · exact e
  have hT : (0 : ℚ) < (2 : ℚ) ^ p := zpow_pos (by norm_num) p
  have hT' : (0 : ℚ) < (2 : ℚ) ^ p' := zpow_pos (by norm_num) p'
  -- the exponents are in order
  have hpp : p ≤ p' := by
    by_contra hc2
    push_neg at hc2
    have hm52 : 2 ^ 52 ≤ m := by
      rcases hc with e | e
      · exact e
      · have := hb'.2; omega
    have hmq : ((2 ^ 52 : Nat) : ℚ) ≤ (m : ℚ) := by exact_mod_cast hm52
    have hm'q : (m' : ℚ) < ((2 ^ 53 : Nat) : ℚ) := by exact_mod_cast hb'.1
    have hz : (2 : ℚ) ^ (p' + 1) ≤ (2 : ℚ) ^ p := zpow_le_zpow_right₀ (by norm_num) (by omega)
    rw [zpow_add_one₀ h2] at hz
    unfold dyadic at hlt
    push_cast at hmq hm'q
    nlinarith
  -- the next magnitude after `m * 2 ^ p` lies strictly between the two
  have hb1 : IsBinary64 (m + 1) p := ⟨by have := hb.1; omega, hb.2⟩
  have hz1 : dyadic m p < dyadic (m + 1) p := by
    unfold dyadic; push_cast; nlinarith
  have hz2 : dyadic (m + 1) p < dyadic m' p' := by
    rcases eq_or_lt_of_le hpp with e | e
    · subst e
      have hmm : m < m' := by
        unfold dyadic at hlt
        have := lt_of_mul_lt_mul_right hlt (le_of_lt hT)
        exact_mod_cast this
      have : ((m + 1 : Nat) : ℚ) < (m' : ℚ) := by
        have : m + 1 < m' := by omega
        exact_mod_cast this
      unfold dyadic
      exact mul_lt_mul_of_pos_right this hT
    · have hm52 : 2 ^ 52 ≤ m' := by
        rcases hc' with e2 | e2
        · exact e2
        · have := hb.2; omega
      have hmq : ((2 ^ 52 : Nat) : ℚ) ≤ (m' : ℚ) := by exact_mod_cast hm52
      have hm1q : ((m + 1 : Nat) : ℚ) < ((2 ^ 53 : Nat) : ℚ) := by exact_mod_cast hb1.1
      have hz : (2 : ℚ) ^ (p + 1) ≤ (2 : ℚ) ^ p' :=
        zpow_le_zpow_right₀ (by norm_num) (by omega)
      rw [zpow_add_one₀ h2] at hz
      unfold dyadic
      push_cast at hmq hm1q ⊢
      nlinarith
  have d3 := (hn (m + 1) p hb1).1
  -- a point strictly between two points at the same distance from `x` is nearer to `x`
  have hmid : |dyadic (m + 1) p - x| < |dyadic m p - x| := by
    have e1 : dyadic m p - x = -(dyadic m' p' - x) := by
      rcases abs_eq_abs.mp deq with e | e
      · linarith
      · linarith
    have hx : dyadic m p < x := by linarith
    rw [abs_sub_comm (dyadic m p) x, abs_of_pos (by linarith : 0 < x - dyadic m p)]
    rw [abs_lt]
    constructor <;> linarith
  linarith

/-- Rounding to nearest, ties to even, determines the value. -/
theorem nearestEven_unique (x : ℚ) (m m' : Nat) (p p' : Int)
    (h : IsNearestEven x m p) (h' : IsNearestEven x m' p') :
    dyadic m p = dyadic m' p' := by
  rcases lt_trichotomy (dyadic m p) (dyadic m' p') with e | e | e
  · exact absurd (nearestEven_lt_absurd x m m' p p' h h' e) not_false
  · exact e
  · exact absurd (nearestEven_lt_absurd x m' m p' p h' h e) not_false

set_option maxRecDepth 100000 in
/-- Claim C13, amended: on a line whose segment 16 begins with the token `response_time:`
followed by a text `v` without a colon, a record of `ParseRtr` has as response time the
conversion of the binary64 number that `strconv.ParseFloat` reads from `v`. With the reference
library and a plain decimal `v = ± num / 10 ^ k` that is binary64 arithmetic: the decimal is
rounded to the nearest binary64 number, ties to even, the product of that number and
1,000,000,000 is rounded to the nearest binary64 number, ties to even, and this rounded product,
when it is below `2 ^ 63`, is truncated toward zero to a whole number of nanoseconds; for
`response_time:0.001500` it is exactly 1,500,000 ns. If `v` does not parse as a number,
`ParseRtr` returns an error on every line whose timestamp token, when segment 0 has three
tokens, has at least two bytes. -/
theorem response_time_conversion (lib : StdLib) (log v : GoString)
    (htok : token (segment log 16) 0 = lit "response_time:" ++ v)
    (hv : byte ':' ∉ v) :
    (∀ m, ParseRtr lib log = Outcome.record m →
      ∃ f, lib.parseFloat v = Except.ok f ∧ m.responseTime = lib.toDuration f) ∧
    (∀ m negative num k, readDecimal v = some (negative, num, k) →
      ParseRtr refLib log = Outcome.record m →
      ∃ m1 p1 m2 p2, IsNearestEven ((num : ℚ) / 10 ^ k) m1 p1 ∧
        IsNearestEven (dyadic m1 p1 * 1000000000) m2 p2 ∧
        (dyadic m2 p2 < 2 ^ 63 →
          m.responseTime = (if negative then -1 else 1) * ⌊dyadic m2 p2⌋)) ∧
    (v = lit "0.001500" →
      ∀ m, ParseRtr refLib log = Outcome.record m → m.responseTime = 1500000) ∧
    ((∀ f, lib.parseFloat v ≠ Except.ok f) →
      (3 ≤ (tokens (segment log 0)).length → 2 ≤ (token (segment log 0) 2).length) →
      ∃ msg err, ParseRtr lib log = Outcome.failure msg err) := by
  have hc : Contains (token (segment log 16) 0) (lit "response_time:") = true := by
    rw [htok]; exact Contains_append_self _ _
  have hs : (Split (token (segment log 16) 0) (byte ':')).getD 1 [] = v := by
    rw [htok, response_time_value v hv]; rfl
  have key : ∀ (l : StdLib) m, ParseRtr l log = Outcome.record m →
      ∃ f, l.parseFloat v = Except.ok f ∧ m.responseTime = l.toDuration f := by
    intro l m hm
    rw [ParseRtr_record_iff] at hm
    obtain ⟨_, _, _, _, _, _, _, _, _, _, _, _, d, hd, _, _, _, rfl⟩ := hm
    rw [if_pos hc, hs] at hd
    exact hd
  refine ⟨key lib, ?_, ?_, ?_⟩
  · intro m negative num k hdec hm
    obtain ⟨f, hf, hd⟩ := key refLib m hm
    have hf2 : refFloat v = some f := by
      have e : refLib.parseFloat v =
          match refFloat v with
          | some f => Except.ok f
          | none => Except.error (lit "strconv.ParseFloat: parsing \"" ++ v ++ lit "\"") := rfl
      rw [e] at hf
      cases hr : refFloat v with
      | none => rw [hr] at hf; cases hf
      | some g => rw [hr] at hf; cases hf; rfl
    obtain ⟨m1, p1, m2, p2, h1, h2, h3⟩ := refLib_duration v negative num k f hdec hf2
    refine ⟨m1, p1, m2, p2, h1, h2, fun hlt => ?_⟩
    rw [hd]
    exact h3 hlt
  · intro hv0 m hm
    obtain ⟨f, hf, hd⟩ := key refLib m hm
    rw [hv0] at hf
    have hf0 : refLib.parseFloat (lit "0.001500") = Except.ok ⟨4564560351926583034⟩ := by
      decide
    rw [hf0] at hf
    cases hf
    rw [hd]
    decide
  · intro hnf hslice
    apply ParseRtr_failure_of_not_record lib log hslice
    intro m hm
    obtain ⟨f, hf, _⟩ := key lib m hm
    exact hnf f hf

set_option maxRecDepth 100000 in
/-- The well-formed line has the response time 1,500,000 ns, the rounded product of the rounded
1500 / 10 ^ 6, and the well-formed line with the response time `abc` is an error. -/
theorem response_time_conversion_witness :
    (token (segment goldenLine 16) 0 = lit "response_time:" ++ lit "0.001500" ∧
      byte ':' ∉ lit "0.001500" ∧
      ParseRtr refLib goldenLine = Outcome.record goldenRecord ∧
      goldenRecord.responseTime = 1500000) ∧
    (readDecimal (lit "0.001500") = some (false, 1500, 6) ∧
      ∃ m1 p1 m2 p2, IsNearestEven (((1500 : Nat) : ℚ) / 10 ^ 6) m1 p1 ∧
        IsNearestEven (dyadic m1 p1 * 1000000000) m2 p2 ∧
        (dyadic m2 p2 < 2 ^ 63 →
          goldenRecord.responseTime = (if false then -1 else 1) * ⌊dyadic m2 p2⌋)) ∧
    (token (segment badResponseTimeLine 16) 0 = lit "response_time:" ++ lit "abc" ∧
      byte ':' ∉ lit "abc" ∧
      (∀ f, refLib.parseFloat (lit "abc") ≠ Except.ok f) ∧
      ∃ msg err, ParseRtr refLib badResponseTimeLine = Outcome.failure msg err) :=
  ⟨⟨by decide, by decide, by decide,
    (response_time_conversion refLib goldenLine (lit "0.001500") (by decide) (by decide)).2.2.1
      rfl goldenRecord (by decide)⟩,
   ⟨by decide,
    (response_time_conversion refLib goldenLine (lit "0.001500") (by decide) (by decide)).2.1
      goldenRecord false 1500 6 (by decide) (by decide)⟩,
   ⟨by decide, by decide, fun _ h => Except.noConfusion ((by decide : refLib.parseFloat (lit "abc") =
      Except.error (lit "strconv.ParseFloat: parsing \"abc\"")).symm.trans h),
    (response_time_conversion refLib badResponseTimeLine (lit "abc") (by decide)
      (by decide)).2.2.2 (fun _ h => Except.noConfusion ((by decide : refLib.parseFloat (lit "abc") =
      Except.error (lit "strconv.ParseFloat: parsing \"abc\"")).symm.trans h)) (fun _ => by decide)⟩⟩

end AiNozzle
